import Mathlib

/-!
# Robomongo settings store: a shallow embedding of `SettingsManager`

The development follows `src/robomongo/core/settings/SettingsManager.cpp` and
`SettingsManager.h`.  The store is an explicit record (`SettingsManager`), the file
system is an explicit value (`Disk`), and everything the sources use but do not
define (Qt conversions that depend on the locale, `QUuid`, the enumerators of
`Enums.h`, the profile codec of `ConnectionSettings`) is gathered in `Env`.

Dynamic documents follow the JSON data model of the config codec: null, boolean,
integer number, string, sequence, mapping.  Fractional numbers are left out.
-/

namespace Robomongo

/-! ## Dynamic documents (`QVariant`, `QVariantMap`, `QVariantList`) -/

/-- A `QVariant` as produced by the JSON parser. `invalid` is the default-constructed
variant, which is also what `QMap::value` returns for a missing key. -/
inductive QVariant where
  | invalid
  | bool (b : Bool)
  | num (n : Int)
  | str (s : String)
  | list (xs : List QVariant)
  | map (kvs : List (String × QVariant))

instance : Inhabited QVariant := ⟨QVariant.invalid⟩

abbrev QVariantList := List QVariant

/-- A `QMap<QString, QVariant>`: entries listed in key order. -/
abbrev QVariantMap := List (String × QVariant)

/-- Conversion of a 64-bit parser integer to the C++ `int` (two's complement, 32 bits). -/
def wrapInt32 (n : Int) : Int := (n + 2147483648) % 4294967296 - 2147483648

namespace QVariant

/-- The conversion `QVariant::toString()`. -/
def toString : QVariant → String
  | str s => s
  | bool b => if b then "true" else "false"
  | num n => Int.repr n
  | _ => ""

/-- The conversion `QVariant::toBool()`: a string is false when it is empty, "0" or
"false" in any letter case. -/
def toBool : QVariant → Bool
  | bool b => b
  | num n => decide (n ≠ 0)
  | str s => !(s.toList.isEmpty || s = "0" || s.toList.map Char.toLower = "false".toList)
  | _ => false

/-- The conversion `QVariant::toInt()`. The text-to-number conversion of `QString`
is supplied by the caller (`toLongLong`, zero when the text is not a number). -/
def toInt (toLongLong : String → Int) : QVariant → Int
  | num n => wrapInt32 n
  | bool b => if b then 1 else 0
  | str s => wrapInt32 (toLongLong s)
  | _ => 0

/-- The conversion `QVariant::toList()`. -/
def toList : QVariant → QVariantList
  | list xs => xs
  | _ => []

/-- The conversion `QVariant::toMap()`. -/
def toMap : QVariant → QVariantMap
  | map kvs => kvs
  | _ => []

/-- The conversion `QVariant::toStringList()`. -/
def toStringList : QVariant → List String
  | list xs => xs.map toString
  | str s => [s]
  | _ => []

end QVariant

namespace QVariantMap

/-- Key order of the map (lexicographic on the characters of the key). -/
def keyLt (a b : String) : Bool := decide (a.toList < b.toList)

/-- Lookup of a key, `none` when the key is absent. -/
def find (m : QVariantMap) (key : String) : Option QVariant :=
  match m with
  | [] => none
  | (k, v) :: rest => if k = key then some v else find rest key

/-- The test `QMap::contains`. -/
def contains (m : QVariantMap) (key : String) : Bool := (find m key).isSome

/-- The lookup `QMap::value`: the default-constructed variant for a missing key. -/
def value (m : QVariantMap) (key : String) : QVariant := (find m key).getD QVariant.invalid

/-- The list `QMap::values()`: all values, in key order. -/
def values (m : QVariantMap) : QVariantList := m.map Prod.snd

/-- The test `QMap::isEmpty`. -/
def isEmpty (m : QVariantMap) : Bool := List.isEmpty m

/-- The update `QMap::insert` (also `operator[]` assignment): replaces the value of an
existing key, otherwise adds the entry at its place in key order. -/
def insert (m : QVariantMap) (key : String) (v : QVariant) : QVariantMap :=
  match m with
  | [] => [(key, v)]
  | (k, w) :: rest =>
    if k = key then (key, v) :: rest
    else if keyLt key k then (key, v) :: (k, w) :: rest
    else (k, w) :: insert rest key v

end QVariantMap

/-! ## Profile records (`ConnectionSettings` and its sub-records)

The classes are declared outside the sources at hand; the records below carry the
fields that `SettingsManager.cpp` reads or writes through their accessors. -/

structure CredentialSettings where
  userName : String
  userPassword : String
  databaseName : String
  mechanism : String
  useManuallyVisibleDbs : Bool
  manuallyVisibleDbs : String
  enabled : Bool
deriving DecidableEq

structure SshSettings where
  host : String
  userName : String
  port : Int
  userPassword : String
  publicKeyFile : String
  privateKeyFile : String
  passphrase : String
  enabled : Bool
  authMethod : String
deriving DecidableEq

structure SslSettings where
  sslEnabled : Bool
  pemKeyFile : String
deriving DecidableEq

structure ConnectionSettings where
  connectionName : String
  serverHost : String
  serverPort : Int
  defaultDatabase : String
  imported : Bool
  credentials : List CredentialSettings
  sshSettings : SshSettings
  sslSettings : SslSettings
  uuid : String
deriving DecidableEq

namespace ConnectionSettings

/-- Modelled from the spec: `ConnectionSettings::primaryCredential` is not among the
sources; a profile has an optional credential sub-record, the accessor returns the
first credential of the profile or a null pointer (`none`) when there is none. -/
def primaryCredential (c : ConnectionSettings) : Option CredentialSettings := c.credentials.head?

def setImported (c : ConnectionSettings) (b : Bool) : ConnectionSettings := { c with imported := b }

def setConnectionName (c : ConnectionSettings) (n : String) : ConnectionSettings :=
  { c with connectionName := n }

def addCredential (c : ConnectionSettings) (cred : CredentialSettings) : ConnectionSettings :=
  { c with credentials := c.credentials ++ [cred] }

end ConnectionSettings

/-! ## Environment: what the sources use but do not define -/

/-- Everything `SettingsManager.cpp` takes from outside:
* `homePath` (`QDir::homePath()`), `projectVersion` (`PROJECT_VERSION`),
  `styleName` (`AppStyle::StyleName`);
* the enumerators of `Enums.h` used by the store;
* `toLongLong`: `QString::toLongLong`, zero for text that is not a number;
* `uuidText t`: the text `QUuid(t).toString()` when `QUuid(t)` is not null, `none` when it is;
* `createUuid`: the text of `QUuid::createUuid().toString()`;
* `newConnectionSettings`: the record built by `new ConnectionSettings(false)`;
* `fromVariant`, `toVariant`: the profile codec of `ConnectionSettings`;
* `setOrder`: the order in which a `QSet<QString>` is iterated; it enumerates the set. -/
structure Env where
  homePath : String
  projectVersion : String
  styleName : String
  DefaultEncoding : Int
  Utc : Int
  Tree : Int
  Custom : Int
  AutocompleteAll : Int
  toLongLong : String → Int
  uuidText : String → Option String
  createUuid : String
  newConnectionSettings : ConnectionSettings
  fromVariant : ConnectionSettings → QVariantMap → ConnectionSettings
  toVariant : ConnectionSettings → QVariant
  setOrder : Finset String → List String
  setOrder_toFinset : ∀ s : Finset String, (setOrder s).toFinset = s

/-! ## The file system -/

/-- What `QFile::exists`, `QFile::open(ReadOnly)` and `QJson::Parser::parse` report for a
path: the file is absent; it exists but cannot be opened; or it opens and parsing its
bytes yields a document (`some`) or fails (`none`). -/
inductive FileState where
  | absent
  | unreadable
  | content (doc : Option QVariant)

/-- The file system as seen by the store.
* `file`: state of the file at a path;
* `writable`: whether `open(WriteOnly | Truncate)` succeeds at a path;
* `zip`: for an archive path, `none` when the archive is missing or unreadable, else
  for each entry name the texts reported by successive `QXmlStreamReader::readNext` calls;
* `scan`: for a root directory, the paths a recursive `QDirIterator` with the name
  filter `robo*.json` yields, in iteration order. -/
structure Disk where
  file : String → FileState
  writable : String → Bool
  zip : String → Option (String → List String)
  scan : String → List String

namespace Disk

/-- The test `QFile::exists`. -/
def fileExists (d : Disk) (path : String) : Bool :=
  match d.file path with
  | FileState.absent => false
  | _ => true

/-- The disk after a successful truncating write of document `doc` to `path`: a later
read of the file parses to `doc`, except that a file which exists and cannot be opened
for reading stays so (the write changes the bytes, not who may read them). -/
def write (d : Disk) (path : String) (doc : QVariant) : Disk :=
  { d with
    file := fun p =>
      if p = path then
        match d.file path with
        | FileState.unreadable => FileState.unreadable
        | _ => FileState.content (some doc)
      else d.file p }

end Disk

/-! ## Paths and constants of `SettingsManager.cpp` / `SettingsManager.h` -/

def ConfigFilePath (env : Env) : String :=
  env.homePath ++ "/.3T/robo-3t/" ++ env.projectVersion ++ "/robo3t.json"

def Studio3T_PropertiesDat (env : Env) : String := env.homePath ++ "/.3T/studio-3t/properties.dat"

def DataMongodb_PropertiesDat (env : Env) : String :=
  env.homePath ++ "/.3T/data-man-mongodb/properties.dat"

def MongoChefPro_PropertiesDat (env : Env) : String :=
  env.homePath ++ "/.3T/mongochef-pro/properties.dat"

def MongoChefEnt_PropertiesDat (env : Env) : String :=
  env.homePath ++ "/.3T/mongochef-enterprise/properties.dat"

def S_3T_ZipFile_And_ConfigFile_List (env : Env) : List (String × String) :=
  [ (Studio3T_PropertiesDat env, "Studio3T.properties"),
    (DataMongodb_PropertiesDat env, "3T.data-man-mongodb.properties"),
    (MongoChefPro_PropertiesDat env, "3T.mongochef-pro.properties"),
    (MongoChefEnt_PropertiesDat env, "3T.mongochef-enterprise.properties") ]

def SchemaVersion : String := "2.0"

def CONFIG_FILE_0_8_5 (env : Env) : String := env.homePath ++ "/.config/robomongo/robomongo.json"

def CONFIG_FILE_1_0_RC1 (env : Env) : String :=
  env.homePath ++ "/.config/robomongo/1.0/robomongo.json"

def CONFIG_FILE_1_1_0_BETA (env : Env) : String :=
  env.homePath ++ "/.3T/robomongo/1.1.0-Beta/robomongo.json"

/-- The list `SettingsManager::_configFilesOfOldVersions`, newest first. -/
def configFilesOfOldVersions (env : Env) : List String :=
  [ env.homePath ++ "/.3T/robo-3t/1.4.3/robo3t.json",
    env.homePath ++ "/.3T/robo-3t/1.4.2/robo3t.json",
    env.homePath ++ "/.3T/robo-3t/1.4.1/robo3t.json",
    env.homePath ++ "/.3T/robo-3t/1.4.0/robo3t.json",
    env.homePath ++ "/.3T/robo-3t/1.3.1/robo3t.json",
    env.homePath ++ "/.3T/robo-3t/1.3.0/robo3t.json",
    env.homePath ++ "/.3T/robo-3t/1.2.1/robo3t.json",
    env.homePath ++ "/.3T/robo-3t/1.2.0/robo3t.json",
    env.homePath ++ "/.3T/robo-3t/1.1.1/robo3t.json",
    CONFIG_FILE_1_1_0_BETA env,
    env.homePath ++ "/.3T/robomongo/1.0.0/robomongo.json",
    CONFIG_FILE_1_0_RC1 env,
    env.homePath ++ "/.config/robomongo/0.9/robomongo.json",
    CONFIG_FILE_0_8_5 env ]

/-- The marker put in front of the name of a profile loaded from an external file. -/
def externalTag : String := "[External] "

/-- The test `QString::startsWith`. -/
def startsWith (s t : String) : Bool := t.toList.isPrefixOf s.toList

/-- The edit `QString::remove(QChar)`: drops every occurrence of `c`. -/
def removeChar (s : String) (c : Char) : String := String.mk (s.toList.filter (fun x => x != c))

/-- The conversion `QString::fromStdString`: a `std::string` and a `QString` are both a
`String` here, the text is the same. -/
def fromStdString (s : String) : String := s

/-! ## The store -/

/-- The data members of `SettingsManager`; `connections` is the static profile list. -/
structure SettingsManager where
  version : String
  uuidEncoding : Int
  timeZone : Int
  viewMode : Int
  autocompletionMode : Int
  loadMongoRcJs : Bool
  autoExpand : Bool
  autoExec : Bool
  minimizeToTray : Bool
  lineNumbers : Bool
  disableConnectionShortcuts : Bool
  programExitedNormally : Bool
  disableHttpsFeatures : Bool
  debugMode : Bool
  acceptedEulaVersions : Finset String
  dbVersionsConnected : Finset String
  batchSize : Int
  checkForUpdates : Bool
  currentStyle : String
  textFontFamily : String
  textFontPointSize : Int
  mongoTimeoutSec : Int
  shellTimeoutSec : Int
  imported : Bool
  anonymousID : String
  cacheData : QVariantMap
  connections : List ConnectionSettings
  toolbars : QVariantMap

namespace SettingsManager

/-- The static member `addConnection`: appends to the end of the profile list. -/
def addConnection (conns : List ConnectionSettings) (c : ConnectionSettings) :
    List ConnectionSettings :=
  conns ++ [c]

def setImported (s : SettingsManager) (b : Bool) : SettingsManager := { s with imported := b }

/-- The member `reorderConnections`: replaces the whole profile list. -/
def reorderConnections (s : SettingsManager) (connections : List ConnectionSettings) :
    SettingsManager :=
  { s with connections := connections }

/-- The member `getConnectionSettingsByUuid`: the first profile of the list with the given
identity, `none` (a null pointer) when there is none. -/
def getConnectionSettingsByUuid (s : SettingsManager) (uuid : String) :
    Option ConnectionSettings :=
  s.connections.find? (fun connSettings => connSettings.uuid = uuid)

/-- The overload of `getConnectionSettingsByUuid` that takes a `std::string`. -/
def getConnectionSettingsByUuidStd (s : SettingsManager) (uuid : String) :
    Option ConnectionSettings :=
  getConnectionSettingsByUuid s (fromStdString uuid)

/-- The member `importedConnectionsCount`. -/
def importedConnectionsCount (s : SettingsManager) : Nat :=
  s.connections.countP (fun conn => conn.imported)

/-- The store as the member initialisers leave it on entry to the constructor body.
`_autoExpand` and `_autoExec` have no initialiser, their start values are arguments; so
is the static profile list. -/
def initial (env : Env) (autoExpand autoExec : Bool) (connections : List ConnectionSettings) :
    SettingsManager :=
  { version := SchemaVersion
    uuidEncoding := env.DefaultEncoding
    timeZone := env.Utc
    viewMode := env.Tree
    autocompletionMode := env.AutocompleteAll
    loadMongoRcJs := false
    autoExpand := autoExpand
    autoExec := autoExec
    minimizeToTray := false
    lineNumbers := false
    disableConnectionShortcuts := false
    programExitedNormally := true
    disableHttpsFeatures := false
    debugMode := false
    acceptedEulaVersions := ∅
    dbVersionsConnected := ∅
    batchSize := 50
    checkForUpdates := true
    currentStyle := ""
    textFontFamily := ""
    textFontPointSize := -1
    mongoTimeoutSec := 10
    shellTimeoutSec := 15
    imported := false
    anonymousID := ""
    cacheData := []
    connections := connections
    toolbars := [] }

end SettingsManager

/-! ## Installation identity -/

/-- The token scan of `extractAnonymousIDFromZip`: after the first token whose text is
"AnonymousID" four more tokens are read and the text of the fourth is returned; a read
past the end of the stream reports an empty text. -/
def scanAnonymousIDToken : List String → String
  | [] => ""
  | t :: rest => if t = "AnonymousID" then (rest.drop 3).headD "" else scanAnonymousIDToken rest

def extractAnonymousIDFromZip (disk : Disk) (zipFile propfile : String) : String :=
  match disk.zip zipFile with
  | none => ""
  | some entries => scanAnonymousIDToken (entries propfile)

def extractAnonymousID (env : Env) (disk : Disk) (configFilePath : String) : String :=
  match disk.file configFilePath with
  | FileState.absent => ""
  | FileState.unreadable => ""
  | FileState.content none => ""
  | FileState.content (some doc) =>
    let map := doc.toMap
    let anonymousID :=
      if QVariantMap.contains map "anonymousID" then
        match env.uuidText (QVariantMap.value map "anonymousID").toString with
        | some t => t
        | none => ""
      else ""
    removeChar (removeChar anonymousID '\x7b') '\x7d'

/-- First loop of `getOrCreateAnonymousID`: the sibling-product archives. -/
def anonymousIDFromZips (env : Env) (disk : Disk) : List (String × String) → String → String
  | [], anonymousID => anonymousID
  | (zipFile, propfile) :: rest, anonymousID =>
    if anonymousID ≠ "" then anonymousID
    else
      anonymousIDFromZips env disk rest
        (match env.uuidText (extractAnonymousIDFromZip disk zipFile propfile) with
         | some t => t
         | none => anonymousID)

/-- Second loop of `getOrCreateAnonymousID`: the old config files, newest first. -/
def anonymousIDFromOldConfigs (env : Env) (disk : Disk) : List String → String → String
  | [], anonymousID => anonymousID
  | oldConfigFile :: rest, anonymousID =>
    if anonymousID ≠ "" then anonymousID
    else if oldConfigFile = CONFIG_FILE_1_1_0_BETA env then
      anonymousIDFromOldConfigs env disk rest anonymousID
    else if oldConfigFile = CONFIG_FILE_1_0_RC1 env then anonymousID
    else anonymousIDFromOldConfigs env disk rest (extractAnonymousID env disk oldConfigFile)

/-- The directory scans of `getOrCreateAnonymousID`: every path the iterator yields is
read until one gives a non-empty identifier. -/
def anonymousIDFromScan (env : Env) (disk : Disk) : List String → String → String
  | [], anonymousID => anonymousID
  | path :: rest, _ =>
    let anonymousID := extractAnonymousID env disk path
    if anonymousID ≠ "" then anonymousID else anonymousIDFromScan env disk rest anonymousID

def getOrCreateAnonymousID (env : Env) (disk : Disk) (map : QVariantMap) : String :=
  let anonymousID :=
    if QVariantMap.contains map "anonymousID" then
      match env.uuidText (QVariantMap.value map "anonymousID").toString with
      | some t => t
      | none => ""
    else ""
  let anonymousID := anonymousIDFromZips env disk (S_3T_ZipFile_And_ConfigFile_List env) anonymousID
  let anonymousID := anonymousIDFromOldConfigs env disk (configFilesOfOldVersions env) anonymousID
  let anonymousID :=
    if anonymousID = "" then
      let fromDir1 :=
        anonymousIDFromScan env disk (disk.scan (env.homePath ++ "/.3T/robo-3t")) anonymousID
      if fromDir1 = "" then
        anonymousIDFromScan env disk (disk.scan (env.homePath ++ "/.3T/robomongo")) fromDir1
      else fromDir1
    else anonymousID
  let anonymousID := if anonymousID = "" then env.createUuid else anonymousID
  removeChar (removeChar anonymousID '\x7b') '\x7d'

/-! ## Legacy migration chain -/

/-- The text `QString::left(n)`. -/
def left (s : String) (n : Nat) : String := String.mk (s.toList.take n)

/-- The profile built from one entry of the 0.8.5 file, before the duplicate check. -/
def connectionFrom_0_8_5 (env : Env) (vconn : QVariantMap) : ConnectionSettings :=
  let conn := env.newConnectionSettings
  let conn := conn.setImported true
  let conn := conn.setConnectionName (QVariantMap.value vconn "connectionName").toString
  let conn := { conn with serverHost := left (QVariantMap.value vconn "serverHost").toString 300 }
  let conn := { conn with serverPort := (QVariantMap.value vconn "serverPort").toInt env.toLongLong }
  let conn := { conn with defaultDatabase := (QVariantMap.value vconn "defaultDatabase").toString }
  let conn :=
    if QVariantMap.contains vconn "sshAuthMethod" then
      let auth := (QVariantMap.value vconn "sshAuthMethod").toInt env.toLongLong
      { conn with sshSettings :=
          { host := (QVariantMap.value vconn "sshHost").toString
            userName := (QVariantMap.value vconn "sshUserName").toString
            port := (QVariantMap.value vconn "sshPort").toInt env.toLongLong
            userPassword := (QVariantMap.value vconn "sshUserPassword").toString
            publicKeyFile := (QVariantMap.value vconn "sshPublicKey").toString
            privateKeyFile := (QVariantMap.value vconn "sshPrivateKey").toString
            passphrase := (QVariantMap.value vconn "sshPassphrase").toString
            enabled := decide (auth = 1 ∨ auth = 2)
            authMethod := if auth = 2 then "publickey" else "password" } }
    else conn
  let conn :=
    if QVariantMap.contains vconn "sshEnabled" then
      { conn with sslSettings :=
          { sslEnabled := (QVariantMap.value vconn "enabled").toBool
            pemKeyFile := (QVariantMap.value vconn "sslPemKeyFile").toString } }
    else conn
  (QVariantMap.value vconn "credentials").toList.foldl
    (fun conn vcredVariant =>
      let vcred := vcredVariant.toMap
      conn.addCredential
        { userName := (QVariantMap.value vcred "userName").toString
          userPassword := (QVariantMap.value vcred "userPassword").toString
          databaseName := (QVariantMap.value vcred "databaseName").toString
          mechanism := "MONGODB-CR"
          useManuallyVisibleDbs := (QVariantMap.value vcred "useManuallyVisibleDbs").toBool
          manuallyVisibleDbs := (QVariantMap.value vcred "manuallyVisibleDbs").toString
          enabled := (QVariantMap.value vcred "enabled").toBool })
    conn

/-- The "similar connection" loop of `importConnectionsFrom_0_8_5`. The credentials
returned by `primaryCredential` are dereferenced without a null check: `none` is the
run in which a null pointer is dereferenced. -/
def matchedIn_0_8_5 (conn : ConnectionSettings) : List ConnectionSettings → Option Bool
  | [] => some false
  | econn :: rest =>
    if conn.serverPort ≠ econn.serverPort ∨ conn.serverHost ≠ econn.serverHost ∨
        conn.defaultDatabase ≠ econn.defaultDatabase then
      matchedIn_0_8_5 conn rest
    else
      match conn.primaryCredential, econn.primaryCredential with
      | some cred, some ecred =>
        if cred.databaseName ≠ ecred.databaseName ∨ cred.userName ≠ ecred.userName ∨
            cred.userPassword ≠ ecred.userPassword ∨ cred.enabled ≠ ecred.enabled then
          matchedIn_0_8_5 conn rest
        else if conn.sshSettings.enabled ≠ econn.sshSettings.enabled ∨
            conn.sshSettings.port ≠ econn.sshSettings.port ∨
            conn.sshSettings.host ≠ econn.sshSettings.host ∨
            conn.sshSettings.privateKeyFile ≠ econn.sshSettings.privateKeyFile ∨
            conn.sshSettings.userPassword ≠ econn.sshSettings.userPassword ∨
            conn.sshSettings.userName ≠ econn.sshSettings.userName then
          matchedIn_0_8_5 conn rest
        else some true
      | _, _ => none

/-- The loop of `importConnectionsFrom_0_8_5` over the entries of the 0.8.5 file. -/
def importEntries_0_8_5 (env : Env) :
    QVariantList → List ConnectionSettings → Option (List ConnectionSettings)
  | [], conns => some conns
  | vconn :: rest, conns =>
    let conn := connectionFrom_0_8_5 env vconn.toMap
    match matchedIn_0_8_5 conn conns with
    | none => none
    | some true => importEntries_0_8_5 env rest conns
    | some false => importEntries_0_8_5 env rest (SettingsManager.addConnection conns conn)

/-- The static member `importConnectionsFrom_0_8_5`; `none` when a null credential is
dereferenced. -/
def importConnectionsFrom_0_8_5 (env : Env) (disk : Disk) (conns : List ConnectionSettings) :
    Option (Bool × List ConnectionSettings) :=
  match disk.file (CONFIG_FILE_0_8_5 env) with
  | FileState.absent => some (false, conns)
  | FileState.unreadable => some (false, conns)
  | FileState.content none => some (false, conns)
  | FileState.content (some doc) =>
    (importEntries_0_8_5 env (QVariantMap.value doc.toMap "connections").toList conns).map
      (fun conns1 => (true, conns1))

def importFromFile (env : Env) (disk : Disk) (oldConfigFilePath : String) (s : SettingsManager) :
    Option (Bool × SettingsManager) :=
  if oldConfigFilePath = CONFIG_FILE_0_8_5 env then
    (importConnectionsFrom_0_8_5 env disk s.connections).map
      (fun r => (true, { s with connections := r.2 }))
  else
    match disk.file oldConfigFilePath with
    | FileState.absent => some (false, s)
    | FileState.unreadable => some (false, s)
    | FileState.content none => some (false, s)
    | FileState.content (some doc) =>
      let vmap := doc.toMap
      some (true,
        { s with
          autoExpand := (QVariantMap.value vmap "autoExpand").toBool
          lineNumbers := (QVariantMap.value vmap "lineNumbers").toBool
          debugMode := (QVariantMap.value vmap "debugMode").toBool
          shellTimeoutSec := (QVariantMap.value vmap "shellTimeoutSec").toInt env.toLongLong
          connections :=
            (QVariantMap.value vmap "connections").toList.foldl
              (fun conns vcon =>
                SettingsManager.addConnection conns
                  ((env.fromVariant env.newConnectionSettings vcon.toMap).setImported true))
              s.connections })

def importFromOldVersion (env : Env) (disk : Disk) (s : SettingsManager) : Option SettingsManager :=
  if s.imported then some s
  else
    match (configFilesOfOldVersions env).find? (fun configFile => disk.fileExists configFile) with
    | none => some s
    | some configFile =>
      (importFromFile env disk configFile s).map (fun r => r.2.setImported true)

/-! ## Loading and saving the canonical document -/

/-- The default of a well-known toolbar: the entry is added when the name is absent. -/
def defaultToolbar (toolbars : QVariantMap) (name : String) (visible : Bool) : QVariantMap :=
  if (QVariantMap.find toolbars name).isNone then
    QVariantMap.insert toolbars name (QVariant.bool visible)
  else toolbars

/-- The body of `loadFromMap` up to, and without, its last statement (the call of
`importFromOldVersion`). -/
def loadFromMapSettings (env : Env) (disk : Disk) (map : QVariantMap) (s : SettingsManager) :
    SettingsManager :=
  let encoding := (QVariantMap.value map "uuidEncoding").toInt env.toLongLong
  let encoding := if encoding > 3 ∨ encoding < 0 then 0 else encoding
  let viewMode :=
    if QVariantMap.contains map "viewMode" then
      let viewMode := (QVariantMap.value map "viewMode").toInt env.toLongLong
      if viewMode > 2 ∨ viewMode < 0 then env.Custom else viewMode
    else env.Custom
  let timeZone := (QVariantMap.value map "timeZone").toInt env.toLongLong
  let timeZone := if timeZone > 1 ∨ timeZone < 0 then 0 else timeZone
  let autocompletionMode :=
    if QVariantMap.contains map "autocompletionMode" then
      let autocompletionMode := (QVariantMap.value map "autocompletionMode").toInt env.toLongLong
      if autocompletionMode < 0 ∨ autocompletionMode > 2 then env.AutocompleteAll
      else autocompletionMode
    else env.AutocompleteAll
  let batchSize := (QVariantMap.value map "batchSize").toInt env.toLongLong
  let batchSize := if batchSize = 0 then 50 else batchSize
  let currentStyle := (QVariantMap.value map "style").toString
  let currentStyle := if currentStyle = "" then env.styleName else currentStyle
  let toolbars := (QVariantMap.value map "toolbars").toMap
  let toolbars := defaultToolbar toolbars "connect" true
  let toolbars := defaultToolbar toolbars "open_save" true
  let toolbars := defaultToolbar toolbars "exec" true
  let toolbars := defaultToolbar toolbars "explorer" true
  let toolbars := defaultToolbar toolbars "logs" false
  { version := (QVariantMap.value map "version").toString
    uuidEncoding := encoding
    viewMode := viewMode
    autoExpand :=
      if QVariantMap.contains map "autoExpand" then (QVariantMap.value map "autoExpand").toBool
      else true
    autoExec :=
      if QVariantMap.contains map "autoExec" then (QVariantMap.value map "autoExec").toBool
      else true
    minimizeToTray :=
      if QVariantMap.contains map "minimizeToTray" then
        (QVariantMap.value map "minimizeToTray").toBool
      else false
    lineNumbers :=
      if QVariantMap.contains map "lineNumbers" then (QVariantMap.value map "lineNumbers").toBool
      else false
    imported :=
      if QVariantMap.contains map "imported" then (QVariantMap.value map "imported").toBool
      else false
    programExitedNormally :=
      if QVariantMap.contains map "programExitedNormally" then
        (QVariantMap.value map "programExitedNormally").toBool
      else true
    disableHttpsFeatures :=
      if QVariantMap.contains map "disableHttpsFeatures" then
        (QVariantMap.value map "disableHttpsFeatures").toBool
      else false
    debugMode :=
      if QVariantMap.contains map "debugMode" then (QVariantMap.value map "debugMode").toBool
      else false
    timeZone := timeZone
    loadMongoRcJs := (QVariantMap.value map "loadMongoRcJs").toBool
    disableConnectionShortcuts := (QVariantMap.value map "disableConnectionShortcuts").toBool
    acceptedEulaVersions :=
      if QVariantMap.contains map "acceptedEulaVersions" then
        (QVariantMap.value map "acceptedEulaVersions").toStringList.toFinset
      else s.acceptedEulaVersions
    dbVersionsConnected :=
      if QVariantMap.contains map "dbVersionsConnected" then
        (QVariantMap.value map "dbVersionsConnected").toStringList.toFinset
      else s.dbVersionsConnected
    anonymousID := getOrCreateAnonymousID env disk map
    autocompletionMode := autocompletionMode
    batchSize := batchSize
    checkForUpdates :=
      if QVariantMap.contains map "checkForUpdates" then
        (QVariantMap.value map "checkForUpdates").toBool
      else s.checkForUpdates
    currentStyle := currentStyle
    textFontFamily := (QVariantMap.value map "textFontFamily").toString
    textFontPointSize := (QVariantMap.value map "textFontPointSize").toInt env.toLongLong
    mongoTimeoutSec :=
      if QVariantMap.contains map "mongoTimeoutSec" then
        (QVariantMap.value map "mongoTimeoutSec").toInt env.toLongLong
      else s.mongoTimeoutSec
    shellTimeoutSec :=
      if QVariantMap.contains map "shellTimeoutSec" then
        (QVariantMap.value map "shellTimeoutSec").toInt env.toLongLong
      else s.shellTimeoutSec
    connections :=
      (QVariantMap.value map "connections").toList.foldl
        (fun conns conn =>
          SettingsManager.addConnection conns (env.fromVariant env.newConnectionSettings conn.toMap))
        []
    toolbars := toolbars
    cacheData := (QVariantMap.value map "cacheData").toMap }

/-- The member `loadFromMap`: every field is read from the map, then the legacy
migration chain runs. `none` when that chain dereferences a null credential. -/
def loadFromMap (env : Env) (disk : Disk) (map : QVariantMap) (s : SettingsManager) :
    Option SettingsManager :=
  importFromOldVersion env disk (loadFromMapSettings env disk map s)

def convertToMap (env : Env) (s : SettingsManager) : QVariantMap :=
  let map : QVariantMap := []
  let map := QVariantMap.insert map "version" (QVariant.str SchemaVersion)
  let map := QVariantMap.insert map "uuidEncoding" (QVariant.num s.uuidEncoding)
  let map := QVariantMap.insert map "timeZone" (QVariant.num s.timeZone)
  let map := QVariantMap.insert map "viewMode" (QVariant.num s.viewMode)
  let map := QVariantMap.insert map "autoExpand" (QVariant.bool s.autoExpand)
  let map := QVariantMap.insert map "lineNumbers" (QVariant.bool s.lineNumbers)
  let map := QVariantMap.insert map "autocompletionMode" (QVariant.num s.autocompletionMode)
  let map := QVariantMap.insert map "loadMongoRcJs" (QVariant.bool s.loadMongoRcJs)
  let map :=
    QVariantMap.insert map "disableConnectionShortcuts" (QVariant.bool s.disableConnectionShortcuts)
  let map :=
    QVariantMap.insert map "acceptedEulaVersions"
      (QVariant.list ((env.setOrder s.acceptedEulaVersions).map QVariant.str))
  let map :=
    QVariantMap.insert map "dbVersionsConnected"
      (QVariant.list ((env.setOrder s.dbVersionsConnected).map QVariant.str))
  let map := QVariantMap.insert map "batchSize" (QVariant.num s.batchSize)
  let map := QVariantMap.insert map "checkForUpdates" (QVariant.bool s.checkForUpdates)
  let map := QVariantMap.insert map "mongoTimeoutSec" (QVariant.num s.mongoTimeoutSec)
  let map := QVariantMap.insert map "shellTimeoutSec" (QVariant.num s.shellTimeoutSec)
  let map := QVariantMap.insert map "style" (QVariant.str s.currentStyle)
  let map := QVariantMap.insert map "textFontFamily" (QVariant.str s.textFontFamily)
  let map := QVariantMap.insert map "textFontPointSize" (QVariant.num s.textFontPointSize)
  let list : QVariantList :=
    s.connections.foldl (fun list conn => list ++ [QVariant.map (env.toVariant conn).toMap]) []
  let map := QVariantMap.insert map "connections" (QVariant.list list)
  let map := QVariantMap.insert map "autoExec" (QVariant.bool s.autoExec)
  let map := QVariantMap.insert map "minimizeToTray" (QVariant.bool s.minimizeToTray)
  let map := QVariantMap.insert map "toolbars" (QVariant.map s.toolbars)
  let map := QVariantMap.insert map "imported" (QVariant.bool s.imported)
  let map := QVariantMap.insert map "anonymousID" (QVariant.str s.anonymousID)
  let map := QVariantMap.insert map "cacheData" (QVariant.map s.cacheData)
  let map := QVariantMap.insert map "programExitedNormally" (QVariant.bool s.programExitedNormally)
  let map := QVariantMap.insert map "disableHttpsFeatures" (QVariant.bool s.disableHttpsFeatures)
  let map := QVariantMap.insert map "debugMode" (QVariant.bool s.debugMode)
  map

/-- The member `load`: the returned flag with the store after the call; `none` when
`loadFromMap` dereferences a null credential. -/
def load (env : Env) (disk : Disk) (s : SettingsManager) : Option (Bool × SettingsManager) :=
  match disk.file (ConfigFilePath env) with
  | FileState.absent => some (false, s)
  | FileState.unreadable => some (false, s)
  | FileState.content none => some (false, s)
  | FileState.content (some doc) =>
    (loadFromMap env disk doc.toMap s).map (fun s1 => (true, s1))

/-- The member `save`: the returned flag with the disk after the call. The document
written is the one a later parse of the file reports, when the file can be opened for
reading. -/
def save (env : Env) (disk : Disk) (s : SettingsManager) : Bool × Disk :=
  let map := convertToMap env s
  if disk.writable (ConfigFilePath env) then
    (true, disk.write (ConfigFilePath env) (QVariant.map map))
  else (false, disk)

/-- The body of the constructor on a store `s0` just initialised: `load`, and when that
fails `save` followed by a second `load`. The result is the store and the disk after
construction; `none` when a `load` dereferences a null credential. -/
def construct (env : Env) (disk : Disk) (s0 : SettingsManager) : Option (SettingsManager × Disk) :=
  match load env disk s0 with
  | none => none
  | some (true, s1) => some (s1, disk)
  | some (false, s1) =>
    let saved := save env disk s1
    (load env saved.2 s1).map (fun r => (r.2, saved.2))

/-! ## External file importer -/

/-- The choice of `connectionsList` in `loadConnectionsFromFile`. -/
def extractCandidates (configMap : QVariantMap) : QVariantList :=
  if QVariantMap.contains configMap "connections" then
    (QVariantMap.value configMap "connections").toList
  else if QVariantMap.contains configMap "connectionsList" then
    (QVariantMap.value configMap "connectionsList").toList
  else
    let connectionsList := QVariantMap.values configMap
    if connectionsList.isEmpty then connectionsList ++ [QVariant.map configMap]
    else connectionsList

/-- The profile built from a candidate record: decoded, flagged imported, its name
marked as external unless it already is. The decoder is a total function here; the
`catch` handler of the source logs and goes on to the next candidate without touching
the list or the counter, as the skip of an empty record does. -/
def externalConnection (env : Env) (connMap : QVariantMap) : ConnectionSettings :=
  let connSettings := env.fromVariant env.newConnectionSettings connMap
  let connSettings := connSettings.setImported true
  let originalName := connSettings.connectionName
  if !(startsWith originalName externalTag) then
    connSettings.setConnectionName (externalTag ++ originalName)
  else connSettings

/-- The credential test of the duplicate check: both credentials present and equal in
database name and user name. -/
def sameCredential (newCred existingCred : Option CredentialSettings) : Bool :=
  match newCred, existingCred with
  | some n, some e => decide (n.databaseName = e.databaseName ∧ n.userName = e.userName)
  | _, _ => false

/-- The duplicate loop of `loadConnectionsFromFile` over the live profile list. -/
def isDuplicate (connSettings : ConnectionSettings) : List ConnectionSettings → Bool
  | [] => false
  | existingConn :: rest =>
    if connSettings.serverHost = existingConn.serverHost ∧
        connSettings.serverPort = existingConn.serverPort ∧
        connSettings.defaultDatabase = existingConn.defaultDatabase then
      let newCred := connSettings.primaryCredential
      let existingCred := existingConn.primaryCredential
      if sameCredential newCred existingCred then true
      else if newCred.isNone ∧ existingCred.isNone then true
      else isDuplicate connSettings rest
    else isDuplicate connSettings rest

/-- One pass of the candidate loop: the live list and `loadedCount` after the candidate. -/
def importCandidate (env : Env) (connVariant : QVariant)
    (st : List ConnectionSettings × Nat) : List ConnectionSettings × Nat :=
  let connMap := connVariant.toMap
  if QVariantMap.isEmpty connMap then st
  else
    let connSettings := externalConnection env connMap
    if !(isDuplicate connSettings st.1) then
      (SettingsManager.addConnection st.1 connSettings, st.2 + 1)
    else st

/-- The candidate loop of `loadConnectionsFromFile`. -/
def importCandidates (env : Env) (connectionsList : QVariantList)
    (st : List ConnectionSettings × Nat) : List ConnectionSettings × Nat :=
  connectionsList.foldl (fun st connVariant => importCandidate env connVariant st) st

/-- The member `loadConnectionsFromFile`: the returned flag, the store and the disk
after the call. -/
def loadConnectionsFromFile (env : Env) (disk : Disk) (configFilePath : String)
    (s : SettingsManager) : Bool × SettingsManager × Disk :=
  match disk.file configFilePath with
  | FileState.absent => (false, s, disk)
  | FileState.unreadable => (false, s, disk)
  | FileState.content none => (false, s, disk)
  | FileState.content (some doc) =>
    let configMap := doc.toMap
    let connectionsList := extractCandidates configMap
    if connectionsList.isEmpty then (true, s, disk)
    else
      let st := importCandidates env connectionsList (s.connections, 0)
      let s1 := { s with connections := st.1 }
      let saved := save env disk s1
      (decide (st.2 > 0), s1, saved.2)

/-! ## Predicates used in the statements -/

/-- The values of the C++ type `int`. -/
def isInt32 (n : Int) : Prop := -2147483648 ≤ n ∧ n < 2147483648

/-- An identifier in the textual form the store keeps: `QUuid` accepts it, and its
`toString` text without the braces is the identifier itself. -/
def canonicalID (env : Env) (a : String) : Prop :=
  ∃ t, env.uuidText a = some t ∧ t ≠ "" ∧ removeChar (removeChar t '\x7b') '\x7d' = a

/-- The well-known toolbar names. -/
def wellKnownToolbars : List String := ["connect", "open_save", "exec", "explorer", "logs"]

/-- A store state as every successful load leaves it: integer members hold `int`
values, the enumerated members hold an enumerator, the batch size is not zero, the
style name is not empty, the installation identifier is in canonical form, the five
well-known toolbars are present, and every profile is reproduced by the profile codec. -/
structure ValidDocument (env : Env) (D : SettingsManager) : Prop where
  uuidEncoding_range : 0 ≤ D.uuidEncoding ∧ D.uuidEncoding ≤ 3
  timeZone_range : 0 ≤ D.timeZone ∧ D.timeZone ≤ 1
  viewMode_range : (0 ≤ D.viewMode ∧ D.viewMode ≤ 2) ∨ D.viewMode = env.Custom
  viewMode_int : isInt32 D.viewMode
  autocompletionMode_range :
    (0 ≤ D.autocompletionMode ∧ D.autocompletionMode ≤ 2) ∨
      D.autocompletionMode = env.AutocompleteAll
  autocompletionMode_int : isInt32 D.autocompletionMode
  batchSize_int : isInt32 D.batchSize
  batchSize_ne_zero : D.batchSize ≠ 0
  textFontPointSize_int : isInt32 D.textFontPointSize
  mongoTimeoutSec_int : isInt32 D.mongoTimeoutSec
  shellTimeoutSec_int : isInt32 D.shellTimeoutSec
  currentStyle_ne_empty : D.currentStyle ≠ ""
  anonymousID_canonical : canonicalID env D.anonymousID
  toolbars_present : ∀ name ∈ wellKnownToolbars, QVariantMap.contains D.toolbars name = true
  connections_codec :
    ∀ c ∈ D.connections, env.fromVariant env.newConnectionSettings (env.toVariant c).toMap = c

/-- No legacy location exists on disk. -/
def noLegacyFile (env : Env) (disk : Disk) : Prop :=
  ∀ configFile ∈ configFilesOfOldVersions env, disk.fileExists configFile = false

/-- The duplicate criterion of the external importer, as a relation between a candidate
profile `c` and an existing profile `e`. -/
def DuplicateOf (c e : ConnectionSettings) : Prop :=
  c.serverHost = e.serverHost ∧ c.serverPort = e.serverPort ∧
    c.defaultDatabase = e.defaultDatabase ∧
    ((c.primaryCredential = none ∧ e.primaryCredential = none) ∨
      ∃ n x, c.primaryCredential = some n ∧ e.primaryCredential = some x ∧
        n.databaseName = x.databaseName ∧ n.userName = x.userName)

/-! ## A reference environment and sample inputs

Concrete values on which the definitions above can be run. -/

/-- Modelled from the spec: the decoder of `ConnectionSettings` is not among the sources;
this one reads the display name, host, port, default database, imported flag and
identity of a profile object by their key names and leaves the sub-records alone. -/
def referenceFromVariant (base : ConnectionSettings) (map : QVariantMap) : ConnectionSettings :=
  { base with
    connectionName := (QVariantMap.value map "connectionName").toString
    serverHost := (QVariantMap.value map "serverHost").toString
    serverPort := (QVariantMap.value map "serverPort").toInt (fun _ => 0)
    defaultDatabase := (QVariantMap.value map "defaultDatabase").toString
    imported := (QVariantMap.value map "imported").toBool
    uuid :=
      if QVariantMap.contains map "uuid" then (QVariantMap.value map "uuid").toString
      else base.uuid }

/-- Modelled from the spec: the encoder of `ConnectionSettings` is not among the sources;
this one writes the fields that `referenceFromVariant` reads. -/
def referenceToVariant (c : ConnectionSettings) : QVariant :=
  QVariant.map
    [ ("connectionName", QVariant.str c.connectionName),
      ("defaultDatabase", QVariant.str c.defaultDatabase),
      ("imported", QVariant.bool c.imported),
      ("serverHost", QVariant.str c.serverHost),
      ("serverPort", QVariant.num c.serverPort),
      ("uuid", QVariant.str c.uuid) ]

/-- A profile as a default construction could give it. -/
def referenceConnection : ConnectionSettings :=
  { connectionName := "New Connection"
    serverHost := "localhost"
    serverPort := 27017
    defaultDatabase := ""
    imported := false
    credentials := []
    sshSettings :=
      { host := "", userName := "", port := 22, userPassword := "", publicKeyFile := "",
        privateKeyFile := "", passphrase := "", enabled := false, authMethod := "password" }
    sslSettings := { sslEnabled := false, pemKeyFile := "" }
    uuid := "0f8fad5b-d9cb-469f-a165-70867728950e" }

/-- A hexadecimal digit. -/
def isHexDigit (c : Char) : Bool := c.isDigit || ['a', 'b', 'c', 'd', 'e', 'f'].elem c.toLower

/-- A textual identifier check in the manner of `QUuid`: an optional opening brace, then
36 characters, hexadecimal digits with dashes at positions 8, 13, 18 and 23, not all
digits zero; the result is the lower-case text in braces. -/
def referenceUuidText (t : String) : Option String :=
  let cs := t.toList
  let body := (if cs.head? = some '\x7b' then cs.drop 1 else cs).take 36
  if body.length = 36 ∧
      (body.enum.all fun ic => if [8, 13, 18, 23].elem ic.1 then ic.2 = '-' else isHexDigit ic.2) ∧
      (body.any fun c => c ≠ '-' ∧ c ≠ '0') then
    some ("\x7b" ++ String.mk (body.map Char.toLower) ++ "\x7d")
  else none

/-- A reference environment: version 1.4.4 of the application and the enumerators numbered
as `Enums.h` of the project declares them (`DefaultEncoding = 0`, `Utc = 0`, `Tree = 1`,
`Custom = 3` after `Text`, `Tree`, `Table`, and `AutocompleteAll = 0`). -/
def referenceEnv : Env :=
  { homePath := "/home/user"
    projectVersion := "1.4.4"
    styleName := "Native"
    DefaultEncoding := 0
    Utc := 0
    Tree := 1
    Custom := 3
    AutocompleteAll := 0
    toLongLong := fun _ => 0
    uuidText := referenceUuidText
    createUuid := "\x7b3f2504e0-4f89-11d3-9a0c-0305e82c3301\x7d"
    newConnectionSettings := referenceConnection
    fromVariant := referenceFromVariant
    toVariant := referenceToVariant
    setOrder := fun s => s.sort (fun a b => a ≤ b)
    setOrder_toFinset := fun s => Finset.sort_toFinset _ s }

/-- A disk with no file, no archive and nothing to scan, on which every write succeeds. -/
def emptyDisk : Disk :=
  { file := fun _ => FileState.absent
    writable := fun _ => true
    zip := fun _ => none
    scan := fun _ => [] }

/-- A store state with no profile and `imported` not yet set. -/
def sampleStore : SettingsManager :=
  { version := "2.0"
    uuidEncoding := 0
    timeZone := 0
    viewMode := 1
    autocompletionMode := 0
    loadMongoRcJs := false
    autoExpand := true
    autoExec := true
    minimizeToTray := false
    lineNumbers := false
    disableConnectionShortcuts := false
    programExitedNormally := true
    disableHttpsFeatures := false
    debugMode := false
    acceptedEulaVersions := ∅
    dbVersionsConnected := ∅
    batchSize := 50
    checkForUpdates := true
    currentStyle := "Native"
    textFontFamily := ""
    textFontPointSize := -1
    mongoTimeoutSec := 10
    shellTimeoutSec := 15
    imported := false
    anonymousID := "3f2504e0-4f89-11d3-9a0c-0305e82c3301"
    cacheData := []
    connections := []
    toolbars :=
      [ ("connect", QVariant.bool true), ("exec", QVariant.bool true),
        ("explorer", QVariant.bool true), ("logs", QVariant.bool false),
        ("open_save", QVariant.bool true) ] }

/-- The profile object of the import scenario: host `db1`, port 27017, database `x`. -/
def scenarioProfile : QVariant :=
  QVariant.map
    [ ("defaultDatabase", QVariant.str "x"), ("serverHost", QVariant.str "db1"),
      ("serverPort", QVariant.num 27017) ]

/-- The external file of the import scenario: a `connections` sequence with one profile. -/
def scenarioFile : QVariant := QVariant.map [("connections", QVariant.list [scenarioProfile])]

/-- An external file whose `connections` sequence is empty. -/
def emptyConnectionsFile : QVariant := QVariant.map [("connections", QVariant.list [])]

/-- A path for an external file. -/
def externalPath : String := "/home/user/import.json"

/-- The newest legacy location of the reference environment. -/
def legacyPath_1_4_3 : String := "/home/user/.3T/robo-3t/1.4.3/robo3t.json"

/-- The integer that `loadFromMap` reads for a key: `map.value(key).toInt()`. -/
def documentInt (env : Env) (map : QVariantMap) (key : String) : Int :=
  (QVariantMap.value map key).toInt env.toLongLong

/-- A canonical document whose four enumerated keys hold -1, 1, 4 and 7. -/
def outOfRangeDocument : QVariantMap :=
  [ ("autocompletionMode", QVariant.num (-1)), ("timeZone", QVariant.num 1),
    ("uuidEncoding", QVariant.num 4), ("viewMode", QVariant.num 7) ]

/-- A disk whose only file is the scenario document at the newest legacy location. -/
def legacyDisk : Disk := emptyDisk.write legacyPath_1_4_3 scenarioFile

/-- A profile for host `db1`, port 27017, database `x`, without credentials. -/
def sampleProfile : ConnectionSettings :=
  { referenceConnection with
    connectionName := "dev", serverHost := "db1", serverPort := 27017, defaultDatabase := "x" }

/-- The sample store after migration, holding `sampleProfile`. -/
def sampleStoreOneProfile : SettingsManager :=
  { sampleStore with connections := [sampleProfile], imported := true }

/-- A disk whose only file is the scenario document at `externalPath`. -/
def scenarioDisk : Disk := emptyDisk.write externalPath scenarioFile

/-- A disk whose only file, at `externalPath`, has an empty `connections` sequence. -/
def emptyConnectionsDisk : Disk := emptyDisk.write externalPath emptyConnectionsFile

/-- A document with both a `connections` and a `connectionsList` key. -/
def bothKeysDocument : QVariantMap :=
  [ ("connections", QVariant.list [scenarioProfile]), ("connectionsList", QVariant.list []) ]

/-- A document with a `connectionsList` key only. -/
def connectionsListDocument : QVariantMap :=
  [ ("connectionsList", QVariant.list [scenarioProfile]) ]

/-! ## Identifier resolution, stated by source -/

/-- The two `QString::remove` calls that end `getOrCreateAnonymousID` and
`extractAnonymousID`: both braces are dropped. -/
def stripBraces (s : String) : String := removeChar (removeChar s '\x7b') '\x7d'

/-- The first text of a list that is not empty, the empty text when there is none. -/
def firstNonEmpty (l : List String) : String := (l.find? (fun t => t ≠ "")).getD ""

/-- The identifier the document carries: the `toString` text of its `anonymousID` when
the key is present and `QUuid` accepts the value, the empty text otherwise. -/
def documentAnonymousID (env : Env) (map : QVariantMap) : String :=
  if QVariantMap.contains map "anonymousID" then
    (env.uuidText (QVariantMap.value map "anonymousID").toString).getD ""
  else ""

/-- The identifier one sibling-product archive yields: the `toString` text of the value
found in its property file when `QUuid` accepts it, the empty text otherwise. -/
def zipAnonymousID (env : Env) (disk : Disk) (zipFileAndConfigFile : String × String) : String :=
  (env.uuidText
    (extractAnonymousIDFromZip disk zipFileAndConfigFile.1 zipFileAndConfigFile.2)).getD ""

/-- The legacy locations from 1.4.3 down to 1.0.0, without 1.1.0-Beta. -/
def identifierLegacyFiles (env : Env) : List String :=
  [ env.homePath ++ "/.3T/robo-3t/1.4.3/robo3t.json",
    env.homePath ++ "/.3T/robo-3t/1.4.2/robo3t.json",
    env.homePath ++ "/.3T/robo-3t/1.4.1/robo3t.json",
    env.homePath ++ "/.3T/robo-3t/1.4.0/robo3t.json",
    env.homePath ++ "/.3T/robo-3t/1.3.1/robo3t.json",
    env.homePath ++ "/.3T/robo-3t/1.3.0/robo3t.json",
    env.homePath ++ "/.3T/robo-3t/1.2.1/robo3t.json",
    env.homePath ++ "/.3T/robo-3t/1.2.0/robo3t.json",
    env.homePath ++ "/.3T/robo-3t/1.1.1/robo3t.json",
    env.homePath ++ "/.3T/robomongo/1.0.0/robomongo.json" ]

/-- The paths the two directory scans yield, first root first. -/
def scannedFiles (env : Env) (disk : Disk) : List String :=
  disk.scan (env.homePath ++ "/.3T/robo-3t") ++ disk.scan (env.homePath ++ "/.3T/robomongo")

/-! ## More sample inputs -/

/-- The canonical file of the reference environment. -/
def canonicalPath : String := "/home/user/.3T/robo-3t/1.4.4/robo3t.json"

/-- The 1.1.0-Beta, 1.0.0, 1.0-RC1 and 0.9 locations of the reference environment. -/
def legacyPath_1_1_0_Beta : String := "/home/user/.3T/robomongo/1.1.0-Beta/robomongo.json"

def legacyPath_1_0_0 : String := "/home/user/.3T/robomongo/1.0.0/robomongo.json"

def legacyPath_1_0_RC1 : String := "/home/user/.config/robomongo/1.0/robomongo.json"

def legacyPath_0_9 : String := "/home/user/.config/robomongo/0.9/robomongo.json"

/-- A second and a third identifier. -/
def otherID : String := "6ba7b810-9dad-11d1-80b4-00c04fd430c8"

def thirdID : String := "123e4567-e89b-12d3-a456-426614174000"

/-- A legacy document that holds `otherID`. -/
def identityFile : QVariant := QVariant.map [("anonymousID", QVariant.str otherID)]

/-- A legacy document that holds `thirdID`. -/
def thirdIdentityFile : QVariant := QVariant.map [("anonymousID", QVariant.str thirdID)]

/-- A canonical document with `imported` set and no `anonymousID` key. -/
def importedDocument : QVariant := QVariant.map [("imported", QVariant.bool true)]

/-- A disk with the canonical document `importedDocument` and a 1.4.3 file that holds
`otherID`. -/
def laterLegacyDisk : Disk :=
  (emptyDisk.write canonicalPath importedDocument).write legacyPath_1_4_3 identityFile

/-- A disk with the saved document of `sampleStoreOneProfile` as the canonical file and a
1.4.3 file that holds `otherID`. -/
def savedDocumentDisk : Disk :=
  (emptyDisk.write canonicalPath
    (QVariant.map (convertToMap referenceEnv sampleStoreOneProfile))).write
    legacyPath_1_4_3 identityFile

/-- The disk `legacyDisk` with a 0.9 file added. -/
def twoLegacyDisk : Disk := legacyDisk.write legacyPath_0_9 identityFile

/-- A disk whose 1.0.0 file holds `otherID`. -/
def identity_1_0_0_Disk : Disk := emptyDisk.write legacyPath_1_0_0 identityFile

/-- The disk `identity_1_0_0_Disk` with a 1.1.0-Beta file and a 1.0-RC1 file that hold
`thirdID`. -/
def identityLegacyDisk : Disk :=
  (identity_1_0_0_Disk.write legacyPath_1_1_0_Beta thirdIdentityFile).write
    legacyPath_1_0_RC1 thirdIdentityFile

/-- An external file with two profiles, the first already named as external. -/
def markedNamesFile : QVariant :=
  QVariant.map
    [ ("connections",
        QVariant.list
          [ QVariant.map
              [ ("connectionName", QVariant.str "[External] prod"),
                ("serverHost", QVariant.str "a") ],
            QVariant.map
              [ ("connectionName", QVariant.str "dev"), ("serverHost", QVariant.str "b") ] ]) ]

/-- A disk whose only file is `markedNamesFile` at `externalPath`. -/
def markedNamesDisk : Disk := emptyDisk.write externalPath markedNamesFile

/-- A canonical document whose `toolbars` hide `connect` and show a toolbar `custom`. -/
def toolbarsDocument : QVariantMap :=
  [ ("toolbars",
      QVariant.map [("connect", QVariant.bool false), ("custom", QVariant.bool true)]) ]

/-- A canonical document with `imported` set and one profile. -/
def connectionsDocument : QVariantMap :=
  [ ("connections", QVariant.list [scenarioProfile]), ("imported", QVariant.bool true) ]

/-- A canonical document with `imported` set that gives a value to the five members
`loadFromMap` assigns under a `contains` test, and to `autoExpand` and `batchSize`. -/
def earlierDocument : QVariant :=
  QVariant.map
    [ ("acceptedEulaVersions", QVariant.list [QVariant.str "1.4.4"]),
      ("autoExpand", QVariant.bool false),
      ("batchSize", QVariant.num 7),
      ("checkForUpdates", QVariant.bool false),
      ("dbVersionsConnected", QVariant.list [QVariant.str "4.0"]),
      ("imported", QVariant.bool true),
      ("mongoTimeoutSec", QVariant.num 99),
      ("shellTimeoutSec", QVariant.num 77) ]

/-- A disk whose only file is the canonical file, holding `earlierDocument`. -/
def earlierDisk : Disk := emptyDisk.write canonicalPath earlierDocument

/-- A disk whose only file is the canonical file, holding `importedDocument`, a document
with none of the keys of `earlierDocument` but `imported`. -/
def laterDisk : Disk := emptyDisk.write canonicalPath importedDocument

/-! ## The similarity test of the 0.8.5 import, as a relation -/

/-- The "similar connection" test of `importConnectionsFrom_0_8_5` between a legacy
profile `conn` and an existing profile `econn` that both have a primary credential: the
fields the three `continue` conditions compare are equal. -/
def Similar_0_8_5 (conn econn : ConnectionSettings) : Prop :=
  conn.serverPort = econn.serverPort ∧ conn.serverHost = econn.serverHost ∧
    conn.defaultDatabase = econn.defaultDatabase ∧
    (∃ cred ecred, conn.primaryCredential = some cred ∧ econn.primaryCredential = some ecred ∧
      cred.databaseName = ecred.databaseName ∧ cred.userName = ecred.userName ∧
      cred.userPassword = ecred.userPassword ∧ cred.enabled = ecred.enabled) ∧
    conn.sshSettings.enabled = econn.sshSettings.enabled ∧
    conn.sshSettings.port = econn.sshSettings.port ∧
    conn.sshSettings.host = econn.sshSettings.host ∧
    conn.sshSettings.privateKeyFile = econn.sshSettings.privateKeyFile ∧
    conn.sshSettings.userPassword = econn.sshSettings.userPassword ∧
    conn.sshSettings.userName = econn.sshSettings.userName

/-- The credential built from one element of the `credentials` list of a 0.8.5 entry. -/
def credentialFrom_0_8_5 (vcred : QVariantMap) : CredentialSettings :=
  { userName := (QVariantMap.value vcred "userName").toString
    userPassword := (QVariantMap.value vcred "userPassword").toString
    databaseName := (QVariantMap.value vcred "databaseName").toString
    mechanism := "MONGODB-CR"
    useManuallyVisibleDbs := (QVariantMap.value vcred "useManuallyVisibleDbs").toBool
    manuallyVisibleDbs := (QVariantMap.value vcred "manuallyVisibleDbs").toString
    enabled := (QVariantMap.value vcred "enabled").toBool }

/-! ## Sample inputs for construction and the 0.8.5 import -/

/-- The 0.8.5 location of the reference environment. -/
def legacyPath_0_8_5 : String := "/home/user/.config/robomongo/robomongo.json"

/-- The store on entry to the constructor body in a process with no profile yet. -/
def freshStore : SettingsManager := SettingsManager.initial referenceEnv true true []

/-- A disk whose only file is the canonical file, and that file does not parse. -/
def corruptCanonicalDisk : Disk :=
  { emptyDisk with
    file := fun p => if p = canonicalPath then FileState.content none else FileState.absent }

/-- A disk whose only file is the canonical file, and that file cannot be opened for
reading; every write succeeds. -/
def unreadableCanonicalDisk : Disk :=
  { emptyDisk with
    file := fun p => if p = canonicalPath then FileState.unreadable else FileState.absent }

/-- A disk whose only file is the canonical file, which parses to an empty sequence and
not to a mapping. -/
def misshapenCanonicalDisk : Disk := emptyDisk.write canonicalPath (QVariant.list [])

/-- A canonical document that records `imported` as false. -/
def notImportedDocument : QVariant := QVariant.map [("imported", QVariant.bool false)]

/-- A disk with the canonical document `notImportedDocument` and the scenario document at
the 1.4.3 location. -/
def unmigratedDisk : Disk :=
  (emptyDisk.write canonicalPath notImportedDocument).write legacyPath_1_4_3 scenarioFile

/-- The disk `twoLegacyDisk` with the 1.4.3 file made unreadable. -/
def unreadableLegacyDisk : Disk :=
  { twoLegacyDisk with
    file := fun p => if p = legacyPath_1_4_3 then FileState.unreadable else twoLegacyDisk.file p }

/-- A canonical document with `imported` set that carries the schema version "1.0". -/
def oldVersionDocument : QVariantMap :=
  [ ("imported", QVariant.bool true), ("version", QVariant.str "1.0") ]

/-- An entry of a 0.8.5 file for host `db1`, port 27017, database `x`, with one credential
and a tunnel that uses public-key authentication. -/
def entry_0_8_5 : QVariant :=
  QVariant.map
    [ ("connectionName", QVariant.str "old"),
      ("credentials",
        QVariant.list
          [ QVariant.map
              [ ("databaseName", QVariant.str "admin"), ("enabled", QVariant.bool true),
                ("userName", QVariant.str "root"), ("userPassword", QVariant.str "pw") ] ]),
      ("defaultDatabase", QVariant.str "x"),
      ("serverHost", QVariant.str "db1"),
      ("serverPort", QVariant.num 27017),
      ("sshAuthMethod", QVariant.num 2),
      ("sshHost", QVariant.str "gate"),
      ("sshPassphrase", QVariant.str "secret"),
      ("sshPort", QVariant.num 22),
      ("sshPrivateKey", QVariant.str "/k/id"),
      ("sshPublicKey", QVariant.str "/k/id.pub"),
      ("sshUserName", QVariant.str "tunnel"),
      ("sshUserPassword", QVariant.str "") ]

/-- An entry of a 0.8.5 file for the same server without credentials and without tunnel. -/
def plainEntry_0_8_5 : QVariant :=
  QVariant.map
    [ ("connectionName", QVariant.str "plain"), ("defaultDatabase", QVariant.str "x"),
      ("serverHost", QVariant.str "db1"), ("serverPort", QVariant.num 27017) ]

/-- An existing profile that agrees with the profile of `entry_0_8_5` on the server, the
credential and the compared tunnel fields, and has another passphrase, public key file
and authentication method. -/
def tunnelProfile : ConnectionSettings :=
  { sampleProfile with
    credentials :=
      [ { userName := "root", userPassword := "pw", databaseName := "admin",
          mechanism := "SCRAM-SHA-1", useManuallyVisibleDbs := false, manuallyVisibleDbs := "",
          enabled := true } ]
    sshSettings :=
      { host := "gate", userName := "tunnel", port := 22, userPassword := "",
        publicKeyFile := "", privateKeyFile := "/k/id", passphrase := "other",
        enabled := true, authMethod := "password" } }

/-- A 0.8.5 file with two entries for the same server, both without credentials. -/
def plainEntriesFile_0_8_5 : QVariant :=
  QVariant.map [("connections", QVariant.list [plainEntry_0_8_5, plainEntry_0_8_5])]

/-- A disk whose only file is `plainEntriesFile_0_8_5` at the 0.8.5 location. -/
def plainEntriesDisk : Disk := emptyDisk.write legacyPath_0_8_5 plainEntriesFile_0_8_5

/-- A disk whose only file, at the 0.8.5 location, holds the entry `entry_0_8_5`. -/
def entryDisk_0_8_5 : Disk :=
  emptyDisk.write legacyPath_0_8_5 (QVariant.map [("connections", QVariant.list [entry_0_8_5])])

/-! ## The profile list as a vector of pointers

`_connections` is a `std::vector<ConnectionSettings*>`.  The store above keeps the
records behind the pointers; `removeConnection` compares the pointers themselves, so it
is stated on the vector of addresses together with the free store. -/

/-- A `ConnectionSettings*`: the address of a profile record. -/
abbrev ConnectionPtr := Nat

/-- The static vector `_connections` with the free store behind it: `connections` is
the vector of pointers, `object p` the record at address `p`, `none` for an address
that holds no record (never allocated, or deleted). -/
structure ConnectionList where
  connections : List ConnectionPtr
  object : ConnectionPtr → Option ConnectionSettings

namespace ConnectionList

/-- The static member `addConnection`: `push_back` of the pointer. -/
def addConnection (l : ConnectionList) (connection : ConnectionPtr) : ConnectionList :=
  { l with connections := l.connections ++ [connection] }

/-- The member `removeConnection`: `std::find` gives the position of the first element
equal to the pointer, the length of the vector standing for `end()`; when there is such
an element it is erased and the record is deleted. -/
def removeConnection (l : ConnectionList) (connection : ConnectionPtr) : ConnectionList :=
  let it := l.connections.indexOf connection
  if it ≠ l.connections.length then
    { connections := l.connections.eraseIdx it
      object := fun p => if p = connection then none else l.object p }
  else l

/-- The records behind the pointers of the vector, in order: the profile list as the
store of this development keeps it. -/
def records (l : ConnectionList) : List ConnectionSettings := l.connections.filterMap l.object

end ConnectionList

/-- A vector in which the pointer 1 stands twice, with a record behind each pointer. -/
def sampleConnectionList : ConnectionList :=
  { connections := [1, 2, 1, 3]
    object := fun p =>
      if p = 0 ∨ 4 ≤ p then none else some { sampleProfile with serverPort := p } }

/-! ## Predicates and sample inputs for the importers and the directory scans -/

/-- No two profiles at different places of a list are duplicates of each other under the
criterion of the external importer, in either order. -/
def NoDuplicatePair (l : List ConnectionSettings) : Prop :=
  l.Pairwise (fun a b => ¬ DuplicateOf a b ∧ ¬ DuplicateOf b a)

/-- An external file that holds the scenario profile twice. -/
def twiceFile : QVariant :=
  QVariant.map [("connections", QVariant.list [scenarioProfile, scenarioProfile])]

/-- A disk whose only file is `twiceFile` at `externalPath`. -/
def twiceDisk : Disk := emptyDisk.write externalPath twiceFile

/-- The last component of a path: what follows its last slash. -/
def fileName (path : String) : String :=
  String.mk (path.toList.reverse.takeWhile (fun c => c != '/')).reverse

/-- The name filter `robo*.json` of the two directory scans, on a file name. -/
def matchesNameFilter (name : String) : Bool :=
  "robo".toList.isPrefixOf name.toList && ".json".toList.isSuffixOf name.toList

/-- A disk whose only file is the 1.1.0-Beta file, which holds `thirdID`; the scan of the
root `~/.3T/robomongo` yields that file, the scan of any other root yields nothing. -/
def betaDisk : Disk :=
  { emptyDisk.write legacyPath_1_1_0_Beta thirdIdentityFile with
    scan := fun root =>
      if root = "/home/user/.3T/robomongo" then [legacyPath_1_1_0_Beta] else [] }

/-! ## Lemmas on documents and conversions -/

theorem QVariantMap.find_insert (m : QVariantMap) (key : String) (v : QVariant) (k : String) :
    QVariantMap.find (QVariantMap.insert m key v) k =
      if key = k then some v else QVariantMap.find m k := by
  induction m with
  | nil => simp [QVariantMap.insert, QVariantMap.find]
  | cons hd tl ih =>
    obtain ⟨k0, w⟩ := hd
    by_cases h1 : k0 = key
    · subst h1
      by_cases h3 : k0 = k <;> simp [QVariantMap.insert, QVariantMap.find, h3]
    · by_cases h2 : QVariantMap.keyLt key k0 = true
      · simp [QVariantMap.insert, QVariantMap.find, h1, h2]
      · simp only [QVariantMap.insert, h1, h2, if_false, QVariantMap.find, ih]
        by_cases h3 : k0 = k
        · subst h3
          have : ¬ key = k0 := fun h => h1 h.symm
          simp [this]
        · simp [h3]

theorem wrapInt32_of_isInt32 (n : Int) (h : isInt32 n) : wrapInt32 n = n := by
  unfold isInt32 at h
  unfold wrapInt32
  omega

theorem foldl_append_singleton {α β : Type} (f : α → β) (l : List α) (init : List β) :
    l.foldl (fun acc x => acc ++ [f x]) init = init ++ l.map f := by
  induction l generalizing init with
  | nil => simp
  | cons a l ih => simp [ih]

theorem anonymousIDFromZips_of_ne_empty (env : Env) (disk : Disk) (l : List (String × String))
    (a : String) (h : a ≠ "") : anonymousIDFromZips env disk l a = a := by
  cases l with
  | nil => rfl
  | cons hd tl => obtain ⟨z, p⟩ := hd; simp [anonymousIDFromZips, h]

theorem anonymousIDFromOldConfigs_of_ne_empty (env : Env) (disk : Disk) (l : List String)
    (a : String) (h : a ≠ "") : anonymousIDFromOldConfigs env disk l a = a := by
  cases l with
  | nil => rfl
  | cons hd tl => simp [anonymousIDFromOldConfigs, h]

theorem getOrCreateAnonymousID_of_canonical (env : Env) (disk : Disk) (map : QVariantMap)
    (a : String) (hfind : QVariantMap.find map "anonymousID" = some (QVariant.str a))
    (ha : canonicalID env a) : getOrCreateAnonymousID env disk map = a := by
  obtain ⟨t, ht, hne, hstrip⟩ := ha
  simp [getOrCreateAnonymousID, QVariantMap.contains, QVariantMap.value, hfind, QVariant.toString,
    ht, anonymousIDFromZips_of_ne_empty, anonymousIDFromOldConfigs_of_ne_empty, hne, hstrip]

theorem defaultToolbar_of_contains (toolbars : QVariantMap) (name : String) (visible : Bool)
    (h : QVariantMap.contains toolbars name = true) :
    defaultToolbar toolbars name visible = toolbars := by
  unfold QVariantMap.contains at h
  simp [defaultToolbar, h]
  intro h2
  simp [h2] at h

theorem QVariant.toInt_num (f : String → Int) (n : Int) :
    QVariant.toInt f (QVariant.num n) = wrapInt32 n := rfl

theorem QVariant.toBool_bool (b : Bool) : (QVariant.bool b).toBool = b := rfl

theorem QVariant.toString_str (s : String) : (QVariant.str s).toString = s := rfl

theorem QVariant.toMap_map (m : QVariantMap) : (QVariant.map m).toMap = m := rfl

theorem QVariant.toList_list (l : QVariantList) : (QVariant.list l).toList = l := rfl

theorem QVariant.toStringList_list (l : QVariantList) :
    (QVariant.list l).toStringList = l.map QVariant.toString := rfl

theorem toStringList_list_str (l : List String) :
    (QVariant.list (l.map QVariant.str)).toStringList = l := by
  rw [QVariant.toStringList_list, List.map_map]
  conv_rhs => rw [← List.map_id l]
  exact List.map_congr_left (fun s _ => rfl)

theorem find_convertToMap_version (env : Env) (D : SettingsManager) :
    QVariantMap.find (convertToMap env D) "version" = some (QVariant.str SchemaVersion) := by
  simp [convertToMap, QVariantMap.find_insert, foldl_append_singleton]

theorem find_convertToMap_uuidEncoding (env : Env) (D : SettingsManager) :
    QVariantMap.find (convertToMap env D) "uuidEncoding" = some (QVariant.num D.uuidEncoding) := by
  simp [convertToMap, QVariantMap.find_insert, foldl_append_singleton]

theorem find_convertToMap_timeZone (env : Env) (D : SettingsManager) :
    QVariantMap.find (convertToMap env D) "timeZone" = some (QVariant.num D.timeZone) := by
  simp [convertToMap, QVariantMap.find_insert, foldl_append_singleton]

theorem find_convertToMap_viewMode (env : Env) (D : SettingsManager) :
    QVariantMap.find (convertToMap env D) "viewMode" = some (QVariant.num D.viewMode) := by
  simp [convertToMap, QVariantMap.find_insert, foldl_append_singleton]

theorem find_convertToMap_autoExpand (env : Env) (D : SettingsManager) :
    QVariantMap.find (convertToMap env D) "autoExpand" = some (QVariant.bool D.autoExpand) := by
  simp [convertToMap, QVariantMap.find_insert, foldl_append_singleton]

theorem find_convertToMap_lineNumbers (env : Env) (D : SettingsManager) :
    QVariantMap.find (convertToMap env D) "lineNumbers" = some (QVariant.bool D.lineNumbers) := by
  simp [convertToMap, QVariantMap.find_insert, foldl_append_singleton]

theorem find_convertToMap_autocompletionMode (env : Env) (D : SettingsManager) :
    QVariantMap.find (convertToMap env D) "autocompletionMode" =
      some (QVariant.num D.autocompletionMode) := by
  simp [convertToMap, QVariantMap.find_insert, foldl_append_singleton]

theorem find_convertToMap_loadMongoRcJs (env : Env) (D : SettingsManager) :
    QVariantMap.find (convertToMap env D) "loadMongoRcJs" =
      some (QVariant.bool D.loadMongoRcJs) := by
  simp [convertToMap, QVariantMap.find_insert, foldl_append_singleton]

theorem find_convertToMap_disableConnectionShortcuts (env : Env) (D : SettingsManager) :
    QVariantMap.find (convertToMap env D) "disableConnectionShortcuts" =
      some (QVariant.bool D.disableConnectionShortcuts) := by
  simp [convertToMap, QVariantMap.find_insert, foldl_append_singleton]

theorem find_convertToMap_acceptedEulaVersions (env : Env) (D : SettingsManager) :
    QVariantMap.find (convertToMap env D) "acceptedEulaVersions" =
      some (QVariant.list ((env.setOrder D.acceptedEulaVersions).map QVariant.str)) := by
  simp [convertToMap, QVariantMap.find_insert, foldl_append_singleton]

theorem find_convertToMap_dbVersionsConnected (env : Env) (D : SettingsManager) :
    QVariantMap.find (convertToMap env D) "dbVersionsConnected" =
      some (QVariant.list ((env.setOrder D.dbVersionsConnected).map QVariant.str)) := by
  simp [convertToMap, QVariantMap.find_insert, foldl_append_singleton]

theorem find_convertToMap_batchSize (env : Env) (D : SettingsManager) :
    QVariantMap.find (convertToMap env D) "batchSize" = some (QVariant.num D.batchSize) := by
  simp [convertToMap, QVariantMap.find_insert, foldl_append_singleton]

theorem find_convertToMap_checkForUpdates (env : Env) (D : SettingsManager) :
    QVariantMap.find (convertToMap env D) "checkForUpdates" =
      some (QVariant.bool D.checkForUpdates) := by
  simp [convertToMap, QVariantMap.find_insert, foldl_append_singleton]

theorem find_convertToMap_mongoTimeoutSec (env : Env) (D : SettingsManager) :
    QVariantMap.find (convertToMap env D) "mongoTimeoutSec" =
      some (QVariant.num D.mongoTimeoutSec) := by
  simp [convertToMap, QVariantMap.find_insert, foldl_append_singleton]

theorem find_convertToMap_shellTimeoutSec (env : Env) (D : SettingsManager) :
    QVariantMap.find (convertToMap env D) "shellTimeoutSec" =
      some (QVariant.num D.shellTimeoutSec) := by
  simp [convertToMap, QVariantMap.find_insert, foldl_append_singleton]

theorem find_convertToMap_style (env : Env) (D : SettingsManager) :
    QVariantMap.find (convertToMap env D) "style" = some (QVariant.str D.currentStyle) := by
  simp [convertToMap, QVariantMap.find_insert, foldl_append_singleton]

theorem find_convertToMap_textFontFamily (env : Env) (D : SettingsManager) :
    QVariantMap.find (convertToMap env D) "textFontFamily" =
      some (QVariant.str D.textFontFamily) := by
  simp [convertToMap, QVariantMap.find_insert, foldl_append_singleton]

theorem find_convertToMap_textFontPointSize (env : Env) (D : SettingsManager) :
    QVariantMap.find (convertToMap env D) "textFontPointSize" =
      some (QVariant.num D.textFontPointSize) := by
  simp [convertToMap, QVariantMap.find_insert, foldl_append_singleton]

theorem find_convertToMap_connections (env : Env) (D : SettingsManager) :
    QVariantMap.find (convertToMap env D) "connections" =
      some (QVariant.list (D.connections.map fun conn =>
         QVariant.map (env.toVariant conn).toMap)) := by
  simp [convertToMap, QVariantMap.find_insert, foldl_append_singleton]

theorem find_convertToMap_autoExec (env : Env) (D : SettingsManager) :
    QVariantMap.find (convertToMap env D) "autoExec" = some (QVariant.bool D.autoExec) := by
  simp [convertToMap, QVariantMap.find_insert, foldl_append_singleton]

theorem find_convertToMap_minimizeToTray (env : Env) (D : SettingsManager) :
    QVariantMap.find (convertToMap env D) "minimizeToTray" =
      some (QVariant.bool D.minimizeToTray) := by
  simp [convertToMap, QVariantMap.find_insert, foldl_append_singleton]

theorem find_convertToMap_toolbars (env : Env) (D : SettingsManager) :
    QVariantMap.find (convertToMap env D) "toolbars" = some (QVariant.map D.toolbars) := by
  simp [convertToMap, QVariantMap.find_insert, foldl_append_singleton]

theorem find_convertToMap_imported (env : Env) (D : SettingsManager) :
    QVariantMap.find (convertToMap env D) "imported" = some (QVariant.bool D.imported) := by
  simp [convertToMap, QVariantMap.find_insert, foldl_append_singleton]

theorem find_convertToMap_anonymousID (env : Env) (D : SettingsManager) :
    QVariantMap.find (convertToMap env D) "anonymousID" = some (QVariant.str D.anonymousID) := by
  simp [convertToMap, QVariantMap.find_insert, foldl_append_singleton]

theorem find_convertToMap_cacheData (env : Env) (D : SettingsManager) :
    QVariantMap.find (convertToMap env D) "cacheData" = some (QVariant.map D.cacheData) := by
  simp [convertToMap, QVariantMap.find_insert, foldl_append_singleton]

theorem find_convertToMap_programExitedNormally (env : Env) (D : SettingsManager) :
    QVariantMap.find (convertToMap env D) "programExitedNormally" =
      some (QVariant.bool D.programExitedNormally) := by
  simp [convertToMap, QVariantMap.find_insert, foldl_append_singleton]

theorem find_convertToMap_disableHttpsFeatures (env : Env) (D : SettingsManager) :
    QVariantMap.find (convertToMap env D) "disableHttpsFeatures" =
      some (QVariant.bool D.disableHttpsFeatures) := by
  simp [convertToMap, QVariantMap.find_insert, foldl_append_singleton]

theorem find_convertToMap_debugMode (env : Env) (D : SettingsManager) :
    QVariantMap.find (convertToMap env D) "debugMode" = some (QVariant.bool D.debugMode) := by
  simp [convertToMap, QVariantMap.find_insert, foldl_append_singleton]


theorem loadFromMapSettings_convertToMap (env : Env) (disk : Disk) (D s0 : SettingsManager)
    (hv : ValidDocument env D) :
    loadFromMapSettings env disk (convertToMap env D) s0 = { D with version := SchemaVersion } := by
  have hid : getOrCreateAnonymousID env disk (convertToMap env D) = D.anonymousID :=
    getOrCreateAnonymousID_of_canonical env disk _ _
      (find_convertToMap_anonymousID env D) hv.anonymousID_canonical
  have htb := hv.toolbars_present
  simp only [wellKnownToolbars, List.forall_mem_cons] at htb
  obtain ⟨t1, t2, t3, t4, t5, -⟩ := htb
  have hconn : List.map (fun x => env.fromVariant env.newConnectionSettings (env.toVariant x).toMap)
      D.connections = D.connections := by
    conv_rhs => rw [← List.map_id D.connections]
    exact List.map_congr_left (fun c hc => hv.connections_codec c hc)
  unfold loadFromMapSettings
  simp only [hid, QVariantMap.value, QVariantMap.contains,
    find_convertToMap_version, find_convertToMap_uuidEncoding, find_convertToMap_timeZone,
    find_convertToMap_viewMode, find_convertToMap_autoExpand, find_convertToMap_lineNumbers,
    find_convertToMap_autocompletionMode, find_convertToMap_loadMongoRcJs,
    find_convertToMap_disableConnectionShortcuts, find_convertToMap_acceptedEulaVersions,
    find_convertToMap_dbVersionsConnected, find_convertToMap_batchSize,
    find_convertToMap_checkForUpdates, find_convertToMap_mongoTimeoutSec,
    find_convertToMap_shellTimeoutSec, find_convertToMap_style, find_convertToMap_textFontFamily,
    find_convertToMap_textFontPointSize, find_convertToMap_connections,
    find_convertToMap_autoExec, find_convertToMap_minimizeToTray, find_convertToMap_toolbars,
    find_convertToMap_imported, find_convertToMap_cacheData,
    find_convertToMap_programExitedNormally, find_convertToMap_disableHttpsFeatures,
    find_convertToMap_debugMode, Option.getD_some, Option.isSome_some, if_true]
  simp only [QVariant.toInt_num, QVariant.toBool_bool, QVariant.toString_str, QVariant.toMap_map,
    QVariant.toList_list, toStringList_list_str, env.setOrder_toFinset, foldl_append_singleton,
    SettingsManager.addConnection, List.nil_append, List.map_map, Function.comp_def,
    defaultToolbar_of_contains _ _ _ t1, defaultToolbar_of_contains _ _ _ t2,
    defaultToolbar_of_contains _ _ _ t3, defaultToolbar_of_contains _ _ _ t4,
    defaultToolbar_of_contains _ _ _ t5, hconn]
  obtain ⟨e1, e2⟩ := hv.uuidEncoding_range
  obtain ⟨z1, z2⟩ := hv.timeZone_range
  have w1 : wrapInt32 D.uuidEncoding = D.uuidEncoding :=
    wrapInt32_of_isInt32 _ (by unfold isInt32; omega)
  have w2 : wrapInt32 D.timeZone = D.timeZone := wrapInt32_of_isInt32 _ (by unfold isInt32; omega)
  rw [w1, w2, wrapInt32_of_isInt32 _ hv.viewMode_int,
    wrapInt32_of_isInt32 _ hv.autocompletionMode_int, wrapInt32_of_isInt32 _ hv.batchSize_int,
    wrapInt32_of_isInt32 _ hv.textFontPointSize_int, wrapInt32_of_isInt32 _ hv.mongoTimeoutSec_int,
    wrapInt32_of_isInt32 _ hv.shellTimeoutSec_int, if_neg hv.batchSize_ne_zero,
    if_neg hv.currentStyle_ne_empty]
  have hvm := hv.viewMode_range
  have ham := hv.autocompletionMode_range
  congr 1
  · rw [if_neg (by omega)]
  · rw [if_neg (by omega)]
  · split <;> omega
  · split <;> omega

/-! ## Lemmas on the legacy migration chain -/

theorem importFromOldVersion_of_imported (env : Env) (disk : Disk) (s : SettingsManager)
    (h : s.imported = true) : importFromOldVersion env disk s = some s := by
  simp [importFromOldVersion, h]

theorem importFromOldVersion_of_noLegacyFile (env : Env) (disk : Disk) (s : SettingsManager)
    (h : noLegacyFile env disk) : importFromOldVersion env disk s = some s := by
  have hfind : (configFilesOfOldVersions env).find? (fun configFile => disk.fileExists configFile)
      = none := by
    rw [List.find?_eq_none]
    intro x hx
    simp [h x hx]
  unfold importFromOldVersion
  rw [hfind]
  simp

theorem importFromFile_frame (env : Env) (disk : Disk) (path : String) (s : SettingsManager)
    (r : Bool × SettingsManager) (h : importFromFile env disk path s = some r) :
    ∃ a l d t c, r.2 = { s with
      autoExpand := a, lineNumbers := l, debugMode := d, shellTimeoutSec := t,
      connections := c } := by
  unfold importFromFile at h
  split at h
  · cases hx : importConnectionsFrom_0_8_5 env disk s.connections with
    | none => simp [hx] at h
    | some p =>
      simp [hx] at h
      subst h
      exact ⟨_, _, _, _, _, rfl⟩
  · split at h <;> (injection h with h; subst h; exact ⟨_, _, _, _, _, rfl⟩)

theorem importFromOldVersion_frame (env : Env) (disk : Disk) (s s1 : SettingsManager)
    (h : importFromOldVersion env disk s = some s1) :
    ∃ a l d t c i, s1 = { s with
      autoExpand := a, lineNumbers := l, debugMode := d, shellTimeoutSec := t,
      connections := c, imported := i } := by
  unfold importFromOldVersion at h
  split at h
  · injection h with h; subst h; exact ⟨_, _, _, _, _, _, rfl⟩
  · split at h
    · injection h with h; subst h; exact ⟨_, _, _, _, _, _, rfl⟩
    · next configFile _ =>
      cases hx : importFromFile env disk configFile s with
      | none => simp [hx] at h
      | some r =>
        simp [hx] at h
        subst h
        obtain ⟨a, l, d, t, c, hr⟩ := importFromFile_frame env disk configFile s r hx
        rw [hr]
        exact ⟨a, l, d, t, c, true, rfl⟩

theorem importFromOldVersion_returns (env : Env) (disk : Disk) (s : SettingsManager)
    (h : s.imported = true ∨ disk.fileExists (CONFIG_FILE_0_8_5 env) = false) :
    ∃ s1, importFromOldVersion env disk s = some s1 := by
  unfold importFromOldVersion
  split
  · exact ⟨s, rfl⟩
  · next hi =>
    split
    · exact ⟨s, rfl⟩
    · next configFile hfind =>
      have hex : disk.fileExists configFile = true := by
        have := List.find?_some hfind
        simpa using this
      have hne : configFile ≠ CONFIG_FILE_0_8_5 env := by
        intro heq
        rcases h with h | h
        · exact hi h
        · rw [heq, h] at hex
          exact absurd hex (by simp)
      unfold importFromFile
      rw [if_neg hne]
      split <;> exact ⟨_, rfl⟩

/-! ## Lemmas on the enumerated fields -/

theorem QVariantMap.value_of_not_contains (m : QVariantMap) (key : String)
    (h : QVariantMap.contains m key = false) : QVariantMap.value m key = QVariant.invalid := by
  unfold QVariantMap.contains at h
  unfold QVariantMap.value
  cases hf : QVariantMap.find m key with
  | none => rfl
  | some v => simp [hf] at h

theorem documentInt_of_not_contains (env : Env) (m : QVariantMap) (key : String)
    (h : QVariantMap.contains m key = false) : documentInt env m key = 0 := by
  unfold documentInt
  rw [QVariantMap.value_of_not_contains m key h]
  rfl

theorem loadFromMapSettings_enums (env : Env) (disk : Disk) (map : QVariantMap)
    (s : SettingsManager) :
    (loadFromMapSettings env disk map s).uuidEncoding =
      (if QVariantMap.contains map "uuidEncoding" = true ∧ 0 ≤ documentInt env map "uuidEncoding" ∧
          documentInt env map "uuidEncoding" ≤ 3 then documentInt env map "uuidEncoding" else 0) ∧
    (loadFromMapSettings env disk map s).timeZone =
      (if QVariantMap.contains map "timeZone" = true ∧ 0 ≤ documentInt env map "timeZone" ∧
          documentInt env map "timeZone" ≤ 1 then documentInt env map "timeZone" else 0) ∧
    (loadFromMapSettings env disk map s).viewMode =
      (if QVariantMap.contains map "viewMode" = true ∧ 0 ≤ documentInt env map "viewMode" ∧
          documentInt env map "viewMode" ≤ 2 then documentInt env map "viewMode"
        else env.Custom) ∧
    (loadFromMapSettings env disk map s).autocompletionMode =
      (if QVariantMap.contains map "autocompletionMode" = true ∧
          0 ≤ documentInt env map "autocompletionMode" ∧
          documentInt env map "autocompletionMode" ≤ 2 then
        documentInt env map "autocompletionMode"
      else env.AutocompleteAll) := by
  refine ⟨?_, ?_, ?_, ?_⟩
  · show (if documentInt env map "uuidEncoding" > 3 ∨ documentInt env map "uuidEncoding" < 0 then 0
      else documentInt env map "uuidEncoding") = _
    cases hc : QVariantMap.contains map "uuidEncoding" with
    | false => simp [documentInt_of_not_contains env map _ hc]
    | true =>
      simp only [true_and]
      split <;> split <;> omega
  · show (if documentInt env map "timeZone" > 1 ∨ documentInt env map "timeZone" < 0 then 0
      else documentInt env map "timeZone") = _
    cases hc : QVariantMap.contains map "timeZone" with
    | false => simp [documentInt_of_not_contains env map _ hc]
    | true =>
      simp only [true_and]
      split <;> split <;> omega
  · show (if QVariantMap.contains map "viewMode" = true then
        (if documentInt env map "viewMode" > 2 ∨ documentInt env map "viewMode" < 0 then env.Custom
          else documentInt env map "viewMode")
      else env.Custom) = _
    cases hc : QVariantMap.contains map "viewMode" with
    | false => simp
    | true =>
      simp only [true_and, if_true]
      split <;> split <;> first | rfl | omega
  · show (if QVariantMap.contains map "autocompletionMode" = true then
        (if documentInt env map "autocompletionMode" < 0 ∨
            documentInt env map "autocompletionMode" > 2 then env.AutocompleteAll
          else documentInt env map "autocompletionMode")
      else env.AutocompleteAll) = _
    cases hc : QVariantMap.contains map "autocompletionMode" with
    | false => simp
    | true =>
      simp only [true_and, if_true]
      split <;> split <;> first | rfl | omega

theorem loadFromMap_enums (env : Env) (disk : Disk) (map : QVariantMap) (s s1 : SettingsManager)
    (h : loadFromMap env disk map s = some s1) :
    s1.uuidEncoding = (loadFromMapSettings env disk map s).uuidEncoding ∧
    s1.timeZone = (loadFromMapSettings env disk map s).timeZone ∧
    s1.viewMode = (loadFromMapSettings env disk map s).viewMode ∧
    s1.autocompletionMode = (loadFromMapSettings env disk map s).autocompletionMode := by
  obtain ⟨a, l, d, t, c, i, hs⟩ := importFromOldVersion_frame env disk _ s1 h
  rw [hs]
  exact ⟨rfl, rfl, rfl, rfl⟩

/-! ## Lemmas on the external importer -/

theorem isDuplicate_cons (c e : ConnectionSettings) (rest : List ConnectionSettings) :
    isDuplicate c (e :: rest) =
      if c.serverHost = e.serverHost ∧ c.serverPort = e.serverPort ∧
          c.defaultDatabase = e.defaultDatabase then
        if sameCredential c.primaryCredential e.primaryCredential then true
        else if c.primaryCredential.isNone ∧ e.primaryCredential.isNone then true
        else isDuplicate c rest
      else isDuplicate c rest := rfl

theorem isDuplicate_iff (c : ConnectionSettings) (L : List ConnectionSettings) :
    isDuplicate c L = true ↔ ∃ e ∈ L, DuplicateOf c e := by
  induction L with
  | nil => simp [isDuplicate]
  | cons e rest ih =>
    have hone : DuplicateOf c e ↔
        (c.serverHost = e.serverHost ∧ c.serverPort = e.serverPort ∧
          c.defaultDatabase = e.defaultDatabase) ∧
        (sameCredential c.primaryCredential e.primaryCredential = true ∨
          (c.primaryCredential.isNone = true ∧ e.primaryCredential.isNone = true)) := by
      unfold DuplicateOf
      cases hc : c.primaryCredential <;> cases he : e.primaryCredential <;>
        simp [sameCredential, and_assoc]
    rw [List.exists_mem_cons_iff, hone, ← ih, isDuplicate_cons]
    by_cases h1 : c.serverHost = e.serverHost ∧ c.serverPort = e.serverPort ∧
        c.defaultDatabase = e.defaultDatabase
    · rw [if_pos h1]
      by_cases h2 : sameCredential c.primaryCredential e.primaryCredential = true
      · simp [h1, h2]
      · by_cases h3 : c.primaryCredential.isNone = true ∧ e.primaryCredential.isNone = true
        · simp [h1, h2, h3]
        · simp [h1, h2, h3]
    · rw [if_neg h1]
      simp [h1]

theorem DuplicateOf.refl (c : ConnectionSettings) : DuplicateOf c c := by
  refine ⟨rfl, rfl, rfl, ?_⟩
  cases h : c.primaryCredential with
  | none => exact Or.inl ⟨rfl, rfl⟩
  | some n => exact Or.inr ⟨n, n, rfl, rfl, rfl, rfl⟩

theorem isDuplicate_mono (c : ConnectionSettings) (L added : List ConnectionSettings)
    (h : isDuplicate c L = true) : isDuplicate c (L ++ added) = true := by
  rw [isDuplicate_iff] at h ⊢
  obtain ⟨e, he, hd⟩ := h
  exact ⟨e, List.mem_append_left _ he, hd⟩

theorem importCandidate_of_empty (env : Env) (v : QVariant) (st : List ConnectionSettings × Nat)
    (h : v.toMap = []) : importCandidate env v st = st := by
  simp [importCandidate, h, QVariantMap.isEmpty]

theorem importCandidate_of_duplicate (env : Env) (v : QVariant)
    (st : List ConnectionSettings × Nat)
    (h : isDuplicate (externalConnection env v.toMap) st.1 = true) :
    importCandidate env v st = st := by
  unfold importCandidate
  simp [h]

theorem importCandidate_of_new (env : Env) (v : QVariant) (st : List ConnectionSettings × Nat)
    (hne : v.toMap ≠ []) (h : isDuplicate (externalConnection env v.toMap) st.1 = false) :
    importCandidate env v st = (st.1 ++ [externalConnection env v.toMap], st.2 + 1) := by
  unfold importCandidate
  simp [h, hne, QVariantMap.isEmpty, SettingsManager.addConnection]

theorem importCandidate_grows (env : Env) (v : QVariant) (st : List ConnectionSettings × Nat) :
    ∃ added, importCandidate env v st = (st.1 ++ added, st.2 + added.length) := by
  by_cases hne : v.toMap = []
  · exact ⟨[], by simp [importCandidate_of_empty env v st hne]⟩
  · cases h : isDuplicate (externalConnection env v.toMap) st.1 with
    | true => exact ⟨[], by simp [importCandidate_of_duplicate env v st h]⟩
    | false => exact ⟨[externalConnection env v.toMap], by
        simp [importCandidate_of_new env v st hne h]⟩

theorem importCandidates_cons (env : Env) (v : QVariant) (l : QVariantList)
    (st : List ConnectionSettings × Nat) :
    importCandidates env (v :: l) st = importCandidates env l (importCandidate env v st) := rfl

theorem importCandidates_grows (env : Env) (l : QVariantList)
    (st : List ConnectionSettings × Nat) :
    ∃ added, importCandidates env l st = (st.1 ++ added, st.2 + added.length) := by
  induction l generalizing st with
  | nil => exact ⟨[], by simp [importCandidates]⟩
  | cons v l ih =>
    obtain ⟨a1, h1⟩ := importCandidate_grows env v st
    obtain ⟨a2, h2⟩ := ih (importCandidate env v st)
    refine ⟨a1 ++ a2, ?_⟩
    rw [importCandidates_cons, h2, h1]
    simp [Nat.add_assoc]

theorem importCandidate_then_duplicate (env : Env) (v : QVariant)
    (st : List ConnectionSettings × Nat) (_hne : v.toMap ≠ []) :
    isDuplicate (externalConnection env v.toMap) (importCandidate env v st).1 = true := by
  by_cases hne : v.toMap = []
  · exact absurd hne _hne
  · cases h : isDuplicate (externalConnection env v.toMap) st.1 with
    | true => rw [importCandidate_of_duplicate env v st h]; exact h
    | false =>
      rw [importCandidate_of_new env v st hne h, isDuplicate_iff]
      exact ⟨_, by simp, DuplicateOf.refl _⟩

theorem importCandidates_then_duplicate (env : Env) (l : QVariantList)
    (st : List ConnectionSettings × Nat) :
    ∀ v ∈ l, v.toMap ≠ [] →
      isDuplicate (externalConnection env v.toMap) (importCandidates env l st).1 = true := by
  induction l generalizing st with
  | nil => intro v hv; simp at hv
  | cons w l ih =>
    intro v hv hne
    rw [importCandidates_cons]
    rcases List.mem_cons.mp hv with h | h
    · subst h
      obtain ⟨added, hadd⟩ := importCandidates_grows env l (importCandidate env v st)
      rw [hadd]
      exact isDuplicate_mono _ _ _ (importCandidate_then_duplicate env v st hne)
    · exact ih _ v h hne

theorem importCandidates_all_duplicate (env : Env) (l : QVariantList)
    (st : List ConnectionSettings × Nat)
    (h : ∀ v ∈ l, v.toMap ≠ [] → isDuplicate (externalConnection env v.toMap) st.1 = true) :
    importCandidates env l st = st := by
  induction l with
  | nil => rfl
  | cons w l ih =>
    rw [importCandidates_cons]
    have hw : importCandidate env w st = st := by
      by_cases hne : w.toMap = []
      · exact importCandidate_of_empty env w st hne
      · exact importCandidate_of_duplicate env w st (h w (by simp) hne)
    rw [hw]
    exact ih (fun v hv hne => h v (List.mem_cons_of_mem _ hv) hne)

theorem loadConnectionsFromFile_of_content (env : Env) (disk : Disk) (path : String)
    (s : SettingsManager) (doc : QVariant) (h : disk.file path = FileState.content (some doc)) :
    loadConnectionsFromFile env disk path s =
      if (extractCandidates doc.toMap).isEmpty then (true, s, disk)
      else
        (decide ((importCandidates env (extractCandidates doc.toMap) (s.connections, 0)).2 > 0),
          { s with connections :=
              (importCandidates env (extractCandidates doc.toMap) (s.connections, 0)).1 },
          (save env disk { s with connections :=
              (importCandidates env (extractCandidates doc.toMap) (s.connections, 0)).1 }).2) := by
  simp [loadConnectionsFromFile, h]

theorem loadConnectionsFromFile_of_no_content (env : Env) (disk : Disk) (path : String)
    (s : SettingsManager) (h : ∀ doc, disk.file path ≠ FileState.content (some doc)) :
    loadConnectionsFromFile env disk path s = (false, s, disk) := by
  unfold loadConnectionsFromFile
  split
  · rfl
  · rfl
  · rfl
  · next doc hdoc => exact absurd hdoc (h doc)

theorem loadConnectionsFromFile_true_iff (env : Env) (disk : Disk) (path : String)
    (s : SettingsManager) :
    ((loadConnectionsFromFile env disk path s).1 = true ↔
      (s.connections.length < (loadConnectionsFromFile env disk path s).2.1.connections.length ∨
        ∃ doc, disk.file path = FileState.content (some doc) ∧ extractCandidates doc.toMap = [])) ∧
    ∃ added, (loadConnectionsFromFile env disk path s).2.1.connections = s.connections ++ added := by
  by_cases hc : ∃ doc, disk.file path = FileState.content (some doc)
  · obtain ⟨doc, hdoc⟩ := hc
    rw [loadConnectionsFromFile_of_content env disk path s doc hdoc]
    by_cases he : extractCandidates doc.toMap = []
    · simp only [he, List.isEmpty_nil, if_true]
      exact ⟨⟨fun _ => Or.inr ⟨doc, hdoc, he⟩, fun _ => trivial⟩, [], by simp⟩
    · have he2 : (extractCandidates doc.toMap).isEmpty = false := by
        cases hx : extractCandidates doc.toMap with
        | nil => exact absurd hx he
        | cons a l => rfl
      obtain ⟨added, hadd⟩ :=
        importCandidates_grows env (extractCandidates doc.toMap) (s.connections, 0)
      simp only [he2, Bool.false_eq_true, if_false, hadd, decide_eq_true_eq]
      refine ⟨⟨fun h => Or.inl (by simp; omega), fun h => ?_⟩, added, rfl⟩
      rcases h with h | ⟨doc2, hdoc2, he3⟩
      · simp at h; omega
      · rw [hdoc] at hdoc2
        injection hdoc2 with h4
        injection h4 with h5
        subst h5
        exact absurd he3 he
  · have hno : ∀ doc, disk.file path ≠ FileState.content (some doc) := fun doc hd => hc ⟨doc, hd⟩
    rw [loadConnectionsFromFile_of_no_content env disk path s hno]
    refine ⟨⟨fun h => by simp at h, fun h => ?_⟩, [], by simp⟩
    rcases h with h | ⟨doc, hdoc, _⟩
    · simp at h
    · exact absurd hdoc (hno doc)

theorem startsWith_externalTag_append (n : String) :
    startsWith (externalTag ++ n) externalTag = true := by
  unfold startsWith
  rw [List.isPrefixOf_iff_prefix]
  simp [String.toList]

theorem externalConnection_imported (env : Env) (m : QVariantMap) :
    (externalConnection env m).imported = true := by
  unfold externalConnection
  simp only []
  split <;> rfl

theorem externalConnection_name (env : Env) (m : QVariantMap) :
    startsWith (externalConnection env m).connectionName externalTag = true := by
  unfold externalConnection
  simp only []
  split
  · exact startsWith_externalTag_append _
  · next h => simpa using h

theorem externalConnection_endpoint (env : Env) (m : QVariantMap) :
    (externalConnection env m).serverHost = (env.fromVariant env.newConnectionSettings m).serverHost ∧
    (externalConnection env m).serverPort = (env.fromVariant env.newConnectionSettings m).serverPort ∧
    (externalConnection env m).defaultDatabase =
      (env.fromVariant env.newConnectionSettings m).defaultDatabase := by
  unfold externalConnection
  simp only []
  split <;> exact ⟨rfl, rfl, rfl⟩

/-! ## The sample inputs are valid -/

theorem sampleStore_valid : ValidDocument referenceEnv sampleStore where
  uuidEncoding_range := by decide
  timeZone_range := by decide
  viewMode_range := by decide
  viewMode_int := by unfold isInt32; decide
  autocompletionMode_range := by decide
  autocompletionMode_int := by unfold isInt32; decide
  batchSize_int := by unfold isInt32; decide
  batchSize_ne_zero := by decide
  textFontPointSize_int := by unfold isInt32; decide
  mongoTimeoutSec_int := by unfold isInt32; decide
  shellTimeoutSec_int := by unfold isInt32; decide
  currentStyle_ne_empty := by decide
  anonymousID_canonical :=
    ⟨"\x7b3f2504e0-4f89-11d3-9a0c-0305e82c3301\x7d", by decide, by decide, by decide⟩
  toolbars_present := by decide
  connections_codec := by decide

theorem sampleStoreOneProfile_valid : ValidDocument referenceEnv sampleStoreOneProfile where
  uuidEncoding_range := by decide
  timeZone_range := by decide
  viewMode_range := by decide
  viewMode_int := by unfold isInt32; decide
  autocompletionMode_range := by decide
  autocompletionMode_int := by unfold isInt32; decide
  batchSize_int := by unfold isInt32; decide
  batchSize_ne_zero := by decide
  textFontPointSize_int := by unfold isInt32; decide
  mongoTimeoutSec_int := by unfold isInt32; decide
  shellTimeoutSec_int := by unfold isInt32; decide
  currentStyle_ne_empty := by decide
  anonymousID_canonical :=
    ⟨"\x7b3f2504e0-4f89-11d3-9a0c-0305e82c3301\x7d", by decide, by decide, by decide⟩
  toolbars_present := by decide
  connections_codec := by decide

theorem scenarioDisk_unchanged :
    (loadConnectionsFromFile referenceEnv scenarioDisk externalPath sampleStore).2.2.file
      externalPath = scenarioDisk.file externalPath := by
  rfl

/-! ## Claims -/

/-- C1 (as amended): for every valid store state `D`, if `imported` is true in `D` or no legacy
location exists on disk, then loading the document produced by `convertToMap` into any
store gives back `D` in every field, except `version`, which is the constant "2.0". -/
theorem roundTrip_load_save (env : Env) (disk : Disk) (D s0 : SettingsManager)
    (hv : ValidDocument env D) (hleg : D.imported = true ∨ noLegacyFile env disk) :
    loadFromMap env disk (convertToMap env D) s0 = some { D with version := SchemaVersion } := by
  unfold loadFromMap
  rw [loadFromMapSettings_convertToMap env disk D s0 hv]
  rcases hleg with h | h
  · exact importFromOldVersion_of_imported env disk _ h
  · exact importFromOldVersion_of_noLegacyFile env disk _ h

/-- C1, witness: the sample store with one profile, on a disk that holds a legacy file. -/
theorem roundTrip_load_save_witness :
    ValidDocument referenceEnv sampleStoreOneProfile ∧
    (sampleStoreOneProfile.imported = true ∨ noLegacyFile referenceEnv legacyDisk) ∧
    loadFromMap referenceEnv legacyDisk (convertToMap referenceEnv sampleStoreOneProfile)
        sampleStore =
      some { sampleStoreOneProfile with version := SchemaVersion } :=
  ⟨sampleStoreOneProfile_valid, Or.inl rfl,
    roundTrip_load_save referenceEnv legacyDisk sampleStoreOneProfile sampleStore
      sampleStoreOneProfile_valid (Or.inl rfl)⟩

/-- C1, counterexample: the sample store is valid and has `imported` false and no profile;
with a legacy file on disk, loading its saved document yields `imported` true and one
profile, so the `imported` field and the profile list are not reproduced. -/
theorem roundTrip_broken_by_legacy_import :
    ValidDocument referenceEnv sampleStore ∧
    sampleStore.imported = false ∧ sampleStore.connections.length = 0 ∧
    (loadFromMap referenceEnv legacyDisk (convertToMap referenceEnv sampleStore) sampleStore).map
      (fun s1 => (s1.imported, s1.connections.length)) = some (true, 1) :=
  ⟨sampleStore_valid, rfl, rfl, by decide⟩

/-- C2 (as amended): after `loadFromMap`, `uuidEncoding` lies in 0..3, `timeZone` in 0..1,
`autocompletionMode` in 0..2 (given that `AutocompleteAll` does), and `viewMode` lies in
0..2 or is `Custom`; each field is the document value when the key is present and the
value is in range, and the default (0, 0, `Custom`, `AutocompleteAll`) otherwise.
`loadFromMap` returns whenever the document sets `imported` or the 0.8.5 file is absent. -/
theorem loadFromMap_enum_clamping (env : Env) (disk : Disk) (map : QVariantMap)
    (s : SettingsManager) (hA : 0 ≤ env.AutocompleteAll ∧ env.AutocompleteAll ≤ 2) :
    (∀ s1, loadFromMap env disk map s = some s1 →
      (0 ≤ s1.uuidEncoding ∧ s1.uuidEncoding ≤ 3) ∧
      (0 ≤ s1.timeZone ∧ s1.timeZone ≤ 1) ∧
      ((0 ≤ s1.viewMode ∧ s1.viewMode ≤ 2) ∨ s1.viewMode = env.Custom) ∧
      (0 ≤ s1.autocompletionMode ∧ s1.autocompletionMode ≤ 2) ∧
      s1.uuidEncoding =
        (if QVariantMap.contains map "uuidEncoding" = true ∧
            0 ≤ documentInt env map "uuidEncoding" ∧ documentInt env map "uuidEncoding" ≤ 3 then
          documentInt env map "uuidEncoding"
        else 0) ∧
      s1.timeZone =
        (if QVariantMap.contains map "timeZone" = true ∧
            0 ≤ documentInt env map "timeZone" ∧ documentInt env map "timeZone" ≤ 1 then
          documentInt env map "timeZone"
        else 0) ∧
      s1.viewMode =
        (if QVariantMap.contains map "viewMode" = true ∧
            0 ≤ documentInt env map "viewMode" ∧ documentInt env map "viewMode" ≤ 2 then
          documentInt env map "viewMode"
        else env.Custom) ∧
      s1.autocompletionMode =
        (if QVariantMap.contains map "autocompletionMode" = true ∧
            0 ≤ documentInt env map "autocompletionMode" ∧
            documentInt env map "autocompletionMode" ≤ 2 then
          documentInt env map "autocompletionMode"
        else env.AutocompleteAll)) ∧
    ((loadFromMapSettings env disk map s).imported = true ∨
        disk.fileExists (CONFIG_FILE_0_8_5 env) = false →
      ∃ s1, loadFromMap env disk map s = some s1) := by
  refine ⟨fun s1 h => ?_, fun h => importFromOldVersion_returns env disk _ h⟩
  obtain ⟨h1, h2, h3, h4⟩ := loadFromMap_enums env disk map s s1 h
  obtain ⟨k1, k2, k3, k4⟩ := loadFromMapSettings_enums env disk map s
  rw [k1] at h1
  rw [k2] at h2
  rw [k3] at h3
  rw [k4] at h4
  refine ⟨?_, ?_, ?_, ?_, h1, h2, h3, h4⟩
  · rw [h1]; split <;> omega
  · rw [h2]; split <;> omega
  · rw [h3]; split
    · left; omega
    · right; rfl
  · rw [h4]; split <;> omega

/-- C2, witness: a document with the values 4, 1, 7 and -1 for the four keys. -/
theorem loadFromMap_enum_clamping_witness :
    (0 ≤ referenceEnv.AutocompleteAll ∧ referenceEnv.AutocompleteAll ≤ 2) ∧
    ∃ s1, loadFromMap referenceEnv emptyDisk outOfRangeDocument sampleStore = some s1 ∧
      s1.uuidEncoding = 0 ∧ s1.timeZone = 1 ∧ s1.viewMode = referenceEnv.Custom ∧
      s1.autocompletionMode = referenceEnv.AutocompleteAll := by
  have h :=
    loadFromMap_enum_clamping referenceEnv emptyDisk outOfRangeDocument sampleStore (by decide)
  obtain ⟨s1, hs1⟩ := h.2 (Or.inr (by decide))
  obtain ⟨_, _, _, _, e1, e2, e3, e4⟩ := h.1 s1 hs1
  refine ⟨by decide, s1, hs1, ?_, ?_, ?_, ?_⟩
  · rw [e1]; decide
  · rw [e2]; decide
  · rw [e3]; decide
  · rw [e4]; decide

/-- C2, counterexample: with `Custom = 3`, loading a document without a `viewMode` key
leaves `viewMode` outside 0..2. -/
theorem viewMode_default_outside_range :
    ∃ s1, loadFromMap referenceEnv emptyDisk [] sampleStore = some s1 ∧
      ¬ (0 ≤ s1.viewMode ∧ s1.viewMode ≤ 2) := by
  have h : (loadFromMap referenceEnv emptyDisk [] sampleStore).map (fun s1 => s1.viewMode)
      = some 3 := by decide
  obtain ⟨s1, hs1, hv⟩ := Option.map_eq_some'.mp h
  refine ⟨s1, hs1, ?_⟩
  rw [hv]
  decide

/-- C3: `load` returns false, leaving store `r`, exactly when the canonical file is absent,
cannot be opened or does not parse, and then `r` is the store before the call. -/
theorem load_false_iff_unreadable (env : Env) (disk : Disk) (s r : SettingsManager) :
    load env disk s = some (false, r) ↔
      (r = s ∧ (disk.file (ConfigFilePath env) = FileState.absent ∨
        disk.file (ConfigFilePath env) = FileState.unreadable ∨
        disk.file (ConfigFilePath env) = FileState.content none)) := by
  unfold load
  split
  · next h => simp [h, eq_comm]
  · next h => simp [h, eq_comm]
  · next h => simp [h, eq_comm]
  · next doc h =>
    simp [h]

/-- C4 (as amended): `loadConnectionsFromFile` returns true if and only if the call appended
at least one profile or the file was read and its candidate list is empty; the profile
list after the call is the list before it followed by the appended profiles. -/
theorem loadConnectionsFromFile_true_iff_added_or_empty (env : Env) (disk : Disk)
    (path : String) (s : SettingsManager) :
    ((loadConnectionsFromFile env disk path s).1 = true ↔
      (s.connections.length < (loadConnectionsFromFile env disk path s).2.1.connections.length ∨
        ∃ doc, disk.file path = FileState.content (some doc) ∧ extractCandidates doc.toMap = [])) ∧
    ∃ added, (loadConnectionsFromFile env disk path s).2.1.connections = s.connections ++ added :=
  loadConnectionsFromFile_true_iff env disk path s

/-- C4, counterexample: a readable file whose `connections` sequence is empty adds no profile
and the call returns true. -/
theorem empty_connections_file_returns_true :
    emptyConnectionsDisk.file externalPath = FileState.content (some emptyConnectionsFile) ∧
    (loadConnectionsFromFile referenceEnv emptyConnectionsDisk externalPath sampleStore).1 = true ∧
    (loadConnectionsFromFile referenceEnv emptyConnectionsDisk externalPath
      sampleStore).2.1.connections = sampleStore.connections :=
  ⟨rfl, by decide, by decide⟩

/-- C5: a candidate built from a non-empty record is found to be a duplicate exactly when
some profile of the live list has the same host, port and default database and either
both have no primary credential or both have one with equal database name and user
name; a duplicate leaves the list and the counter as they are, any other candidate is
appended to the end of the list and counted. -/
theorem importCandidate_duplicate_criterion (env : Env) (connVariant : QVariant)
    (L : List ConnectionSettings) (n : Nat)
    (hne : connVariant.toMap ≠ []) :
    (isDuplicate (externalConnection env connVariant.toMap) L = true ↔
      ∃ e ∈ L, DuplicateOf (externalConnection env connVariant.toMap) e) ∧
    ((∃ e ∈ L, DuplicateOf (externalConnection env connVariant.toMap) e) →
      importCandidate env connVariant (L, n) = (L, n)) ∧
    ((¬ ∃ e ∈ L, DuplicateOf (externalConnection env connVariant.toMap) e) →
      importCandidate env connVariant (L, n) =
        (L ++ [externalConnection env connVariant.toMap], n + 1)) := by
  refine ⟨isDuplicate_iff _ _, fun h => ?_, fun h => ?_⟩
  · exact importCandidate_of_duplicate env connVariant (L, n) ((isDuplicate_iff _ _).mpr h)
  · apply importCandidate_of_new env connVariant (L, n) hne
    cases hd : isDuplicate (externalConnection env connVariant.toMap) L with
    | false => rfl
    | true => exact absurd ((isDuplicate_iff _ _).mp hd) h

/-- C5, witness: the scenario profile against the empty list, then against itself. -/
theorem importCandidate_duplicate_criterion_witness :
    scenarioProfile.toMap ≠ [] ∧
    importCandidate referenceEnv scenarioProfile ([], 0) =
      ([externalConnection referenceEnv scenarioProfile.toMap], 1) ∧
    importCandidate referenceEnv scenarioProfile
        ([externalConnection referenceEnv scenarioProfile.toMap], 1) =
      ([externalConnection referenceEnv scenarioProfile.toMap], 1) :=
  ⟨List.cons_ne_nil _ _,
    (importCandidate_duplicate_criterion referenceEnv scenarioProfile [] 0
      (List.cons_ne_nil _ _)).2.2 (by simp),
    (importCandidate_duplicate_criterion referenceEnv scenarioProfile
      [externalConnection referenceEnv scenarioProfile.toMap] 1
      (List.cons_ne_nil _ _)).2.1 ⟨_, List.mem_singleton.mpr rfl, DuplicateOf.refl _⟩⟩

/-- C6 (as amended): when the file is the same at the second call, a second
`loadConnectionsFromFile` leaves the store, and so the profile list and its length,
exactly as it was after the first call; it returns true only when the file was read
and its candidate list is empty, and false in every other case. -/
theorem second_import_adds_nothing (env : Env) (disk : Disk) (path : String)
    (s : SettingsManager)
    (hfile : (loadConnectionsFromFile env disk path s).2.2.file path = disk.file path) :
    (loadConnectionsFromFile env (loadConnectionsFromFile env disk path s).2.2 path
        (loadConnectionsFromFile env disk path s).2.1).2.1 =
      (loadConnectionsFromFile env disk path s).2.1 ∧
    ((loadConnectionsFromFile env (loadConnectionsFromFile env disk path s).2.2 path
        (loadConnectionsFromFile env disk path s).2.1).1 = true ↔
      ∃ doc, disk.file path = FileState.content (some doc) ∧ extractCandidates doc.toMap = []) := by
  by_cases hc : ∃ doc, disk.file path = FileState.content (some doc)
  · obtain ⟨doc, hdoc⟩ := hc
    have hdoc2 := hfile.trans hdoc
    rw [loadConnectionsFromFile_of_content env _ path _ doc hdoc2]
    by_cases he : extractCandidates doc.toMap = []
    · simp only [he, List.isEmpty_nil, if_true]
      exact ⟨trivial, fun _ => ⟨doc, hdoc, he⟩, fun _ => trivial⟩
    · have he2 : (extractCandidates doc.toMap).isEmpty = false := by
        cases hx : extractCandidates doc.toMap with
        | nil => exact absurd hx he
        | cons a l => rfl
      have h1 : (loadConnectionsFromFile env disk path s).2.1 =
          { s with connections :=
              (importCandidates env (extractCandidates doc.toMap) (s.connections, 0)).1 } := by
        rw [loadConnectionsFromFile_of_content env disk path s doc hdoc]
        simp [he2]
      have hsame : importCandidates env (extractCandidates doc.toMap)
          ((loadConnectionsFromFile env disk path s).2.1.connections, 0) =
          ((loadConnectionsFromFile env disk path s).2.1.connections, 0) := by
        apply importCandidates_all_duplicate
        intro v hv hne
        rw [h1]
        exact importCandidates_then_duplicate env _ (s.connections, 0) v hv hne
      simp only [he2, Bool.false_eq_true, if_false, hsame]
      refine ⟨trivial, fun h => by simp at h, fun h => ?_⟩
      obtain ⟨doc3, hdoc3, he3⟩ := h
      rw [hdoc] at hdoc3
      injection hdoc3 with h4
      injection h4 with h5
      subst h5
      exact absurd he3 he
  · have hno : ∀ doc, disk.file path ≠ FileState.content (some doc) := fun doc hd => hc ⟨doc, hd⟩
    have hno2 : ∀ doc, (loadConnectionsFromFile env disk path s).2.2.file path ≠
        FileState.content (some doc) := fun doc hd => hc ⟨doc, hfile ▸ hd⟩
    rw [loadConnectionsFromFile_of_no_content env _ path _ hno2]
    refine ⟨rfl, fun h => by simp at h, fun h => ?_⟩
    obtain ⟨doc, hdoc, _⟩ := h
    exact absurd hdoc (hno doc)

/-- C6, witness: the scenario file imported twice into the sample store. -/
theorem second_import_adds_nothing_witness :
    (loadConnectionsFromFile referenceEnv scenarioDisk externalPath sampleStore).2.2.file
        externalPath = scenarioDisk.file externalPath ∧
    (loadConnectionsFromFile referenceEnv
        (loadConnectionsFromFile referenceEnv scenarioDisk externalPath sampleStore).2.2
        externalPath
        (loadConnectionsFromFile referenceEnv scenarioDisk externalPath sampleStore).2.1).2.1 =
      (loadConnectionsFromFile referenceEnv scenarioDisk externalPath sampleStore).2.1 ∧
    ((loadConnectionsFromFile referenceEnv
        (loadConnectionsFromFile referenceEnv scenarioDisk externalPath sampleStore).2.2
        externalPath
        (loadConnectionsFromFile referenceEnv scenarioDisk externalPath sampleStore).2.1).1 = true ↔
      ∃ doc, scenarioDisk.file externalPath = FileState.content (some doc) ∧
        extractCandidates doc.toMap = []) :=
  ⟨scenarioDisk_unchanged,
    second_import_adds_nothing referenceEnv scenarioDisk externalPath sampleStore
      scenarioDisk_unchanged⟩

/-- C6, counterexample: for a file whose `connections` sequence is empty, the file is
unchanged by the first call and the second call returns true. -/
theorem second_import_of_empty_file_returns_true :
    (loadConnectionsFromFile referenceEnv emptyConnectionsDisk externalPath sampleStore).2.2.file
        externalPath = emptyConnectionsDisk.file externalPath ∧
    (loadConnectionsFromFile referenceEnv
      (loadConnectionsFromFile referenceEnv emptyConnectionsDisk externalPath sampleStore).2.2
      externalPath
      (loadConnectionsFromFile referenceEnv emptyConnectionsDisk externalPath sampleStore).2.1).1
      = true :=
  ⟨rfl, by decide⟩

/-- C7: for a store without profiles and a file whose `connections` sequence holds
exactly one non-empty profile object, `loadConnectionsFromFile` returns true and the
list afterwards holds exactly one profile, flagged imported, whose name starts with
"[External] " and whose host, port and default database are the ones the profile codec
decodes from that object. -/
theorem single_connection_import_adds_one_profile (env : Env) (disk : Disk) (path : String)
    (s : SettingsManager) (doc profile : QVariant)
    (hs : s.connections = [])
    (hf : disk.file path = FileState.content (some doc))
    (hconn : QVariantMap.find doc.toMap "connections" = some (QVariant.list [profile]))
    (hne : profile.toMap ≠ []) :
    (loadConnectionsFromFile env disk path s).1 = true ∧
    ∃ c, (loadConnectionsFromFile env disk path s).2.1.connections = [c] ∧
      c.imported = true ∧ startsWith c.connectionName externalTag = true ∧
      c.serverHost = (env.fromVariant env.newConnectionSettings profile.toMap).serverHost ∧
      c.serverPort = (env.fromVariant env.newConnectionSettings profile.toMap).serverPort ∧
      c.defaultDatabase =
        (env.fromVariant env.newConnectionSettings profile.toMap).defaultDatabase := by
  have hc : extractCandidates doc.toMap = [profile] := by
    simp [extractCandidates, QVariantMap.contains, QVariantMap.value, hconn, QVariant.toList]
  have hi : importCandidates env [profile] (s.connections, 0) =
      ([externalConnection env profile.toMap], 1) := by
    rw [hs, importCandidates_cons, importCandidate_of_new env profile ([], 0) hne rfl]
    rfl
  rw [loadConnectionsFromFile_of_content env disk path s doc hf, hc, hi]
  obtain ⟨e1, e2, e3⟩ := externalConnection_endpoint env profile.toMap
  exact ⟨by simp, externalConnection env profile.toMap, by simp,
    externalConnection_imported env _, externalConnection_name env _, e1, e2, e3⟩

/-- C7, witness: the scenario file `connections: [(serverHost db1, serverPort 27017,
defaultDatabase x)]` imported into the sample store with the reference codec gives one
profile for host `db1`, port 27017, database `x`. -/
theorem single_connection_import_adds_one_profile_witness :
    sampleStore.connections = [] ∧
    scenarioDisk.file externalPath = FileState.content (some scenarioFile) ∧
    QVariantMap.find scenarioFile.toMap "connections" = some (QVariant.list [scenarioProfile]) ∧
    scenarioProfile.toMap ≠ [] ∧
    (loadConnectionsFromFile referenceEnv scenarioDisk externalPath sampleStore).1 = true ∧
    ∃ c, (loadConnectionsFromFile referenceEnv scenarioDisk externalPath
        sampleStore).2.1.connections = [c] ∧
      c.imported = true ∧ startsWith c.connectionName externalTag = true ∧
      c.serverHost = "db1" ∧ c.serverPort = 27017 ∧ c.defaultDatabase = "x" := by
  have hf : scenarioDisk.file externalPath = FileState.content (some scenarioFile) := rfl
  obtain ⟨h1, c, h2, h3, h4, h5, h6, h7⟩ :=
    single_connection_import_adds_one_profile referenceEnv scenarioDisk externalPath sampleStore
      scenarioFile scenarioProfile rfl hf rfl (List.cons_ne_nil _ _)
  exact ⟨rfl, hf, rfl, List.cons_ne_nil _ _, h1, c, h2, h3, h4, h5.trans (by decide),
    h6.trans (by decide), h7.trans (by decide)⟩

/-- C8: the candidates are the `connections` sequence when that key is present; else the
`connectionsList` sequence when that key is present; else all top-level values when
there are any; else the whole document as the single candidate. -/
theorem extractCandidates_first_match_wins (configMap : QVariantMap) :
    (QVariantMap.contains configMap "connections" = true →
      extractCandidates configMap = (QVariantMap.value configMap "connections").toList) ∧
    (QVariantMap.contains configMap "connections" = false →
      QVariantMap.contains configMap "connectionsList" = true →
      extractCandidates configMap = (QVariantMap.value configMap "connectionsList").toList) ∧
    (QVariantMap.contains configMap "connections" = false →
      QVariantMap.contains configMap "connectionsList" = false →
      QVariantMap.values configMap ≠ [] →
      extractCandidates configMap = QVariantMap.values configMap) ∧
    (QVariantMap.contains configMap "connections" = false →
      QVariantMap.contains configMap "connectionsList" = false →
      QVariantMap.values configMap = [] →
      extractCandidates configMap = [QVariant.map configMap]) := by
  refine ⟨fun h => ?_, fun h1 h2 => ?_, fun h1 h2 h3 => ?_, fun h1 h2 h3 => ?_⟩
  · simp [extractCandidates, h]
  · simp [extractCandidates, h1, h2]
  · have : (QVariantMap.values configMap).isEmpty = false := by
      cases hx : QVariantMap.values configMap with
      | nil => exact absurd hx h3
      | cons a l => rfl
    simp [extractCandidates, h1, h2, this]
  · simp [extractCandidates, h1, h2, h3]

/-- C8, witness: one document for each of the four cases. -/
theorem extractCandidates_first_match_wins_witness :
    QVariantMap.contains bothKeysDocument "connections" = true ∧
    extractCandidates bothKeysDocument = [scenarioProfile] ∧
    extractCandidates connectionsListDocument = [scenarioProfile] ∧
    extractCandidates scenarioProfile.toMap = QVariantMap.values scenarioProfile.toMap ∧
    extractCandidates [] = [QVariant.map []] :=
  ⟨by decide, (extractCandidates_first_match_wins bothKeysDocument).1 (by decide),
    (extractCandidates_first_match_wins connectionsListDocument).2.1 (by decide) (by decide),
    (extractCandidates_first_match_wins scenarioProfile.toMap).2.2.1 (by decide) (by decide)
      (List.cons_ne_nil _ _),
    (extractCandidates_first_match_wins []).2.2.2 (by decide) (by decide) rfl⟩

/-- C9, the code at the failing input: for a file that is the single profile object of the
scenario, in every environment and for every store, `loadConnectionsFromFile` returns
false and appends no profile. -/
theorem single_profile_object_not_imported (env : Env) (s : SettingsManager) :
    (loadConnectionsFromFile env (emptyDisk.write externalPath scenarioProfile) externalPath s).1
      = false ∧
    (loadConnectionsFromFile env (emptyDisk.write externalPath scenarioProfile) externalPath
      s).2.1.connections = s.connections := by
  have hfile : (emptyDisk.write externalPath scenarioProfile).file externalPath =
      FileState.content (some scenarioProfile) := rfl
  rw [loadConnectionsFromFile_of_content env _ _ s _ hfile]
  have hc : extractCandidates scenarioProfile.toMap =
      [QVariant.str "x", QVariant.str "db1", QVariant.num 27017] := by
    rfl
  rw [hc]
  simp [importCandidates, importCandidate, QVariant.toMap, QVariantMap.isEmpty]

/-- C10: whenever `loadConnectionsFromFile` returns false, the profile list after the call
is the list before it. -/
theorem failed_import_keeps_profiles (env : Env) (disk : Disk) (path : String)
    (s : SettingsManager)
    (h : (loadConnectionsFromFile env disk path s).1 = false) :
    (loadConnectionsFromFile env disk path s).2.1.connections = s.connections := by
  have h4 := loadConnectionsFromFile_true_iff env disk path s
  obtain ⟨hiff, added, hadd⟩ := h4
  rw [hadd]
  cases added with
  | nil => simp
  | cons a l =>
    have : (loadConnectionsFromFile env disk path s).1 = true :=
      hiff.mpr (Or.inl (by rw [hadd]; simp))
    rw [h] at this
    exact absurd this (by simp)

/-- C10, witness: the scenario file imported into a store that already holds the profile. -/
theorem failed_import_keeps_profiles_witness :
    (loadConnectionsFromFile referenceEnv scenarioDisk externalPath sampleStoreOneProfile).1
      = false ∧
    (loadConnectionsFromFile referenceEnv scenarioDisk externalPath
      sampleStoreOneProfile).2.1.connections = sampleStoreOneProfile.connections :=
  ⟨by decide,
    failed_import_keeps_profiles referenceEnv scenarioDisk externalPath sampleStoreOneProfile
      (by decide)⟩


/-! ## Lemmas on the identifier resolution -/

theorem firstNonEmpty_nil : firstNonEmpty [] = "" := rfl

theorem firstNonEmpty_cons (a : String) (l : List String) :
    firstNonEmpty (a :: l) = if a ≠ "" then a else firstNonEmpty l := by
  unfold firstNonEmpty
  by_cases h : a = ""
  · simp [h]
  · simp [h]

theorem firstNonEmpty_append (l1 l2 : List String) :
    firstNonEmpty (l1 ++ l2) =
      if firstNonEmpty l1 ≠ "" then firstNonEmpty l1 else firstNonEmpty l2 := by
  induction l1 with
  | nil => simp [firstNonEmpty_nil]
  | cons a l ih =>
    rw [List.cons_append, firstNonEmpty_cons, firstNonEmpty_cons, ih]
    by_cases h : a = ""
    · simp [h]
    · simp [h]

theorem anonymousIDFromZips_eq (env : Env) (disk : Disk) (l : List (String × String))
    (a : String) :
    anonymousIDFromZips env disk l a =
      if a ≠ "" then a else firstNonEmpty (l.map (zipAnonymousID env disk)) := by
  induction l generalizing a with
  | nil =>
    by_cases h : a = ""
    · simp [anonymousIDFromZips, h, firstNonEmpty_nil]
    · simp [anonymousIDFromZips, h]
  | cons hd tl ih =>
    obtain ⟨z, p⟩ := hd
    by_cases h : a = ""
    · subst h
      simp only [anonymousIDFromZips, ne_eq, not_true_eq_false, if_false, List.map_cons,
        firstNonEmpty_cons]
      rw [ih]
      have : (match env.uuidText (extractAnonymousIDFromZip disk z p) with
          | some t => t
          | none => "") = zipAnonymousID env disk (z, p) := by
        unfold zipAnonymousID
        cases env.uuidText (extractAnonymousIDFromZip disk z p) <;> rfl
      rw [this]
    · simp [anonymousIDFromZips, h]

theorem anonymousIDFromScan_eq (env : Env) (disk : Disk) (l : List String) :
    anonymousIDFromScan env disk l "" = firstNonEmpty (l.map (extractAnonymousID env disk)) := by
  induction l with
  | nil => rfl
  | cons path rest ih =>
    simp only [anonymousIDFromScan, List.map_cons, firstNonEmpty_cons]
    by_cases h : extractAnonymousID env disk path = ""
    · rw [h]
      simp [ih]
    · simp [h]

theorem String.append_left_cancel_iff (h a b : String) : h ++ a = h ++ b ↔ a = b := by
  constructor
  · intro e
    have e2 := congrArg String.data e
    simp only [String.data_append] at e2
    exact String.ext (List.append_cancel_left e2)
  · intro e; rw [e]

theorem anonymousIDFromOldConfigs_eq (env : Env) (disk : Disk) (l : List String) (a : String) :
    anonymousIDFromOldConfigs env disk l a =
      if a ≠ "" then a
      else firstNonEmpty
        (((l.filter (fun f => decide (f ≠ CONFIG_FILE_1_1_0_BETA env))).takeWhile
          (fun f => decide (f ≠ CONFIG_FILE_1_0_RC1 env))).map (extractAnonymousID env disk)) := by
  induction l generalizing a with
  | nil =>
    by_cases h : a = ""
    · simp [anonymousIDFromOldConfigs, h, firstNonEmpty_nil]
    · simp [anonymousIDFromOldConfigs, h]
  | cons f rest ih =>
    by_cases h : a = ""
    · subst h
      by_cases hb : f = CONFIG_FILE_1_1_0_BETA env
      · simp [anonymousIDFromOldConfigs, hb, ih]
      · by_cases hr : f = CONFIG_FILE_1_0_RC1 env
        · subst hr
          simp [anonymousIDFromOldConfigs, hb, firstNonEmpty_nil,
            List.filter_cons, List.takeWhile_cons]
        · simp [anonymousIDFromOldConfigs, hb, hr, List.filter_cons, List.takeWhile_cons,
            firstNonEmpty_cons, ih]
    · simp [anonymousIDFromOldConfigs, h]

theorem identifierLegacyFiles_eq (env : Env) :
    ((configFilesOfOldVersions env).filter
        (fun f => decide (f ≠ CONFIG_FILE_1_1_0_BETA env))).takeWhile
      (fun f => decide (f ≠ CONFIG_FILE_1_0_RC1 env)) = identifierLegacyFiles env := by
  simp [configFilesOfOldVersions, identifierLegacyFiles, CONFIG_FILE_1_1_0_BETA,
    CONFIG_FILE_1_0_RC1, CONFIG_FILE_0_8_5, List.filter_cons, List.takeWhile_cons,
    String.append_left_cancel_iff]

theorem stripBraces_empty : stripBraces "" = "" := by decide

theorem stripBraces_idem (s : String) : stripBraces (stripBraces s) = stripBraces s := by
  have hp : (fun a : Char => a != '\x7d' && (a != '\x7b' && (a != '\x7d' && a != '\x7b'))) =
      (fun a : Char => a != '\x7d' && a != '\x7b') := by
    funext a
    cases (a != '\x7d') <;> cases (a != '\x7b') <;> rfl
  simp [stripBraces, removeChar, List.filter_filter, hp]

theorem extractAnonymousID_congr (env : Env) (disk disk1 : Disk) (path : String)
    (h : disk1.file path = disk.file path) :
    extractAnonymousID env disk1 path = extractAnonymousID env disk path := by
  unfold extractAnonymousID
  rw [h]

theorem extractAnonymousID_cases (env : Env) (disk : Disk) (path : String) :
    extractAnonymousID env disk path = "" ∨
      ∃ t u, env.uuidText t = some u ∧ extractAnonymousID env disk path = stripBraces u := by
  unfold extractAnonymousID
  split
  · exact Or.inl rfl
  · exact Or.inl rfl
  · exact Or.inl rfl
  · next doc _ =>
    simp only []
    split
    · split
      · next t ht => exact Or.inr ⟨_, t, ht, rfl⟩
      · exact Or.inl stripBraces_empty
    · exact Or.inl stripBraces_empty

theorem firstNonEmpty_prop (P : String → Prop) (l : List String)
    (h : ∀ y ∈ l, y ≠ "" → P y) (hne : firstNonEmpty l ≠ "") : P (firstNonEmpty l) := by
  induction l with
  | nil => exact absurd firstNonEmpty_nil hne
  | cons a l ih =>
    rw [firstNonEmpty_cons] at hne ⊢
    by_cases ha : a = ""
    · simp only [ha, ne_eq, not_true_eq_false, if_false] at hne ⊢
      exact ih (fun y hy => h y (List.mem_cons_of_mem _ hy)) hne
    · simp only [ne_eq, ha, not_false_eq_true, if_true]
      exact h a (by simp) ha

theorem getOrCreateAnonymousID_eq (env : Env) (disk : Disk) (map : QVariantMap) :
    getOrCreateAnonymousID env disk map =
      stripBraces (firstNonEmpty
        [ documentAnonymousID env map,
          firstNonEmpty ((S_3T_ZipFile_And_ConfigFile_List env).map (zipAnonymousID env disk)),
          firstNonEmpty ((identifierLegacyFiles env).map (extractAnonymousID env disk)),
          firstNonEmpty ((scannedFiles env disk).map (extractAnonymousID env disk)),
          env.createUuid ]) := by
  have hdoc : (if QVariantMap.contains map "anonymousID" = true then
        match env.uuidText (QVariantMap.value map "anonymousID").toString with
        | some t => t
        | none => ""
      else "") = documentAnonymousID env map := by
    unfold documentAnonymousID
    split
    · cases env.uuidText (QVariantMap.value map "anonymousID").toString <;> rfl
    · rfl
  unfold getOrCreateAnonymousID
  simp only [hdoc, anonymousIDFromZips_eq, anonymousIDFromOldConfigs_eq,
    identifierLegacyFiles_eq, anonymousIDFromScan_eq, scannedFiles, List.map_append,
    firstNonEmpty_append, firstNonEmpty_cons, firstNonEmpty_nil, stripBraces]
  by_cases h1 : documentAnonymousID env map = ""
  · by_cases h2 : firstNonEmpty
        ((S_3T_ZipFile_And_ConfigFile_List env).map (zipAnonymousID env disk)) = ""
    · by_cases h3 : firstNonEmpty
          ((identifierLegacyFiles env).map (extractAnonymousID env disk)) = ""
      · by_cases h4 : firstNonEmpty
            ((disk.scan (env.homePath ++ "/.3T/robo-3t")).map (extractAnonymousID env disk)) = ""
        · by_cases h5 : firstNonEmpty
              ((disk.scan (env.homePath ++ "/.3T/robomongo")).map
                (extractAnonymousID env disk)) = ""
          · by_cases h6 : env.createUuid = "" <;>
              simp [h1, h2, h3, h4, h5, h6, anonymousIDFromScan_eq]
          · simp [h1, h2, h3, h4, h5, anonymousIDFromScan_eq]
        · simp [h1, h2, h3, h4, anonymousIDFromScan_eq]
      · simp [h1, h2, h3]
    · simp [h1, h2]
  · simp [h1]

theorem documentAnonymousID_of_valid (env : Env) (map : QVariantMap) (u : String)
    (hc : QVariantMap.contains map "anonymousID" = true)
    (hu : env.uuidText (QVariantMap.value map "anonymousID").toString = some u) :
    documentAnonymousID env map = u := by
  simp [documentAnonymousID, hc, hu]

theorem documentAnonymousID_cases (env : Env) (map : QVariantMap) :
    documentAnonymousID env map = "" ∨
      ∃ t u, env.uuidText t = some u ∧ documentAnonymousID env map = u := by
  unfold documentAnonymousID
  split
  · cases h : env.uuidText (QVariantMap.value map "anonymousID").toString with
    | none => exact Or.inl rfl
    | some u => exact Or.inr ⟨_, u, h, rfl⟩
  · exact Or.inl rfl

theorem zipAnonymousID_cases (env : Env) (disk : Disk) (zp : String × String) :
    zipAnonymousID env disk zp = "" ∨
      ∃ t u, env.uuidText t = some u ∧ zipAnonymousID env disk zp = u := by
  unfold zipAnonymousID
  cases h : env.uuidText (extractAnonymousIDFromZip disk zp.1 zp.2) with
  | none => exact Or.inl rfl
  | some u => exact Or.inr ⟨_, u, h, rfl⟩

theorem stripBraces_ne_of_ne (s : String) (h : stripBraces s ≠ "") : s ≠ "" := by
  intro hs
  rw [hs] at h
  exact h stripBraces_empty

theorem toLower_of_isDigit (c : Char) (h : c.isDigit = true) : c.toLower = c := by
  unfold Char.isDigit at h
  simp only [Bool.and_eq_true, decide_eq_true_eq, ge_iff_le] at h
  unfold Char.toLower
  have h2 : c.val.toNat ≤ 57 := h.2
  have : ¬ (Char.toNat c >= 65 ∧ Char.toNat c <= 90) := by
    unfold Char.toNat
    omega
  simp only [this, if_false]

theorem not_brace_of_isDigit (c : Char) (h : c.isDigit = true) :
    c ≠ '\x7b' ∧ c ≠ '\x7d' := by
  unfold Char.isDigit at h
  simp only [Bool.and_eq_true, decide_eq_true_eq, ge_iff_le] at h
  have h2 : c.val.toNat ≤ 57 := h.2
  constructor
  · intro hc; subst hc; revert h2; decide
  · intro hc; subst hc; revert h2; decide

theorem toLower_not_brace_of_isHexDigit (c : Char) (h : isHexDigit c = true) :
    c.toLower ≠ '\x7b' ∧ c.toLower ≠ '\x7d' := by
  unfold isHexDigit at h
  rcases Bool.or_eq_true _ _ |>.mp h with h1 | h1
  · rw [toLower_of_isDigit c h1]
    exact not_brace_of_isDigit c h1
  · simp only [List.elem_eq_mem, decide_eq_true_eq, List.mem_cons, List.mem_singleton,
      List.not_mem_nil, or_false] at h1
    rcases h1 with h1 | h1 | h1 | h1 | h1 | h1 <;> rw [h1] <;> decide

theorem stripBraces_braced_ne (body : List Char) (u : String)
    (h : (if body.length = 36 ∧
        (body.enum.all fun ic =>
          if [8, 13, 18, 23].elem ic.1 then ic.2 = '-' else isHexDigit ic.2) ∧
        (body.any fun c => c ≠ '-' ∧ c ≠ '0') then
      some ("\x7b" ++ String.mk (body.map Char.toLower) ++ "\x7d")
    else none) = some u) :
    stripBraces u ≠ "" := by
  split at h
  · next hcond =>
    injection h with h
    subst h
    obtain ⟨_, hall, hany⟩ := hcond
    rw [List.any_eq_true] at hany
    obtain ⟨c, hc, hcp⟩ := hany
    simp only [ne_eq, Bool.decide_and, Bool.and_eq_true, decide_eq_true_eq, decide_not,
      Bool.not_eq_true', decide_eq_false_iff_not] at hcp
    obtain ⟨i, hi, hget⟩ := List.getElem_of_mem hc
    have hmem : (i, c) ∈ body.enum := by
      rw [List.mk_mem_enum_iff_getElem?, List.getElem?_eq_getElem hi, hget]
    rw [List.all_eq_true] at hall
    have hx := hall (i, c) hmem
    have hhex : isHexDigit c = true := by
      by_cases hd : [8, 13, 18, 23].elem i = true
      · simp only [hd, if_true, decide_eq_true_eq] at hx
        exact absurd hx hcp.1
      · simp only [hd, Bool.false_eq_true, if_false] at hx
        exact hx
    obtain ⟨n1, n2⟩ := toLower_not_brace_of_isHexDigit c hhex
    intro hempty
    have hdata := congrArg String.data hempty
    simp only [stripBraces, removeChar, String.toList, String.data_append] at hdata
    have : c.toLower ∈ ([] : List Char) := by
      rw [← hdata]
      simp only [List.mem_filter, List.mem_append, List.mem_map, bne_iff_ne, ne_eq]
      exact ⟨⟨Or.inl (Or.inr ⟨c, hc, rfl⟩), n1⟩, n2⟩
    simp at this
  · exact absurd h (by simp)

theorem referenceUuidText_stripBraces (t u : String) (h : referenceUuidText t = some u) :
    stripBraces u ≠ "" :=
  stripBraces_braced_ne _ u h

theorem identityLegacyDisk_agrees :
    ∀ f ∈ identifierLegacyFiles referenceEnv,
      identity_1_0_0_Disk.file f = identityLegacyDisk.file f := by
  intro f hf
  simp only [identifierLegacyFiles, List.mem_cons, List.mem_singleton, List.not_mem_nil,
    or_false] at hf
  rcases hf with h1 | h2 | h3 | h4 | h5 | h6 | h7 | h8 | h9 | h10 <;> subst_vars <;> rfl

/-! ## More lemmas on the external importer and the migration chain -/

theorem importCandidate_added (env : Env) (v : QVariant) (st : List ConnectionSettings × Nat) :
    ∃ added, importCandidate env v st = (st.1 ++ added, st.2 + added.length) ∧
      ∀ c ∈ added, v.toMap ≠ [] ∧ c = externalConnection env v.toMap := by
  by_cases hne : v.toMap = []
  · exact ⟨[], by simp [importCandidate_of_empty env v st hne], by simp⟩
  · cases h : isDuplicate (externalConnection env v.toMap) st.1 with
    | true => exact ⟨[], by simp [importCandidate_of_duplicate env v st h], by simp⟩
    | false =>
      refine ⟨[externalConnection env v.toMap], by
        simp [importCandidate_of_new env v st hne h], ?_⟩
      intro c hc
      exact ⟨hne, List.mem_singleton.mp hc⟩

theorem importCandidates_added (env : Env) (l : QVariantList)
    (st : List ConnectionSettings × Nat) :
    ∃ added, importCandidates env l st = (st.1 ++ added, st.2 + added.length) ∧
      ∀ c ∈ added, ∃ v ∈ l, v.toMap ≠ [] ∧ c = externalConnection env v.toMap := by
  induction l generalizing st with
  | nil => exact ⟨[], by simp [importCandidates], by simp⟩
  | cons v l ih =>
    obtain ⟨a1, h1, p1⟩ := importCandidate_added env v st
    obtain ⟨a2, h2, p2⟩ := ih (importCandidate env v st)
    refine ⟨a1 ++ a2, ?_, ?_⟩
    · rw [importCandidates_cons, h2, h1]
      simp [Nat.add_assoc]
    · intro c hc
      rcases List.mem_append.mp hc with hc | hc
      · obtain ⟨hne, hceq⟩ := p1 c hc
        exact ⟨v, by simp, hne, hceq⟩
      · obtain ⟨w, hw, hne, hceq⟩ := p2 c hc
        exact ⟨w, List.mem_cons_of_mem _ hw, hne, hceq⟩

theorem loadConnectionsFromFile_added (env : Env) (disk : Disk) (path : String)
    (s : SettingsManager) :
    ∃ added, (loadConnectionsFromFile env disk path s).2.1.connections = s.connections ++ added ∧
      ∀ c ∈ added, ∃ doc v, disk.file path = FileState.content (some doc) ∧
        v ∈ extractCandidates doc.toMap ∧ v.toMap ≠ [] ∧
        c = externalConnection env v.toMap := by
  by_cases hc : ∃ doc, disk.file path = FileState.content (some doc)
  · obtain ⟨doc, hdoc⟩ := hc
    rw [loadConnectionsFromFile_of_content env disk path s doc hdoc]
    by_cases he : (extractCandidates doc.toMap).isEmpty = true
    · simp only [he, if_true]
      exact ⟨[], by simp, by simp⟩
    · obtain ⟨added, hadd, hp⟩ :=
        importCandidates_added env (extractCandidates doc.toMap) (s.connections, 0)
      simp only [he, Bool.false_eq_true, if_false, hadd]
      refine ⟨added, rfl, fun c hcm => ?_⟩
      obtain ⟨v, hv, hne, hceq⟩ := hp c hcm
      exact ⟨doc, v, hdoc, hv, hne, hceq⟩
  · have hno : ∀ doc, disk.file path ≠ FileState.content (some doc) := fun doc hd => hc ⟨doc, hd⟩
    rw [loadConnectionsFromFile_of_no_content env disk path s hno]
    exact ⟨[], by simp, by simp⟩

theorem externalConnection_eq (env : Env) (m : QVariantMap) :
    externalConnection env m =
      { env.fromVariant env.newConnectionSettings m with
        imported := true
        connectionName :=
          if startsWith (env.fromVariant env.newConnectionSettings m).connectionName externalTag
          then (env.fromVariant env.newConnectionSettings m).connectionName
          else externalTag ++ (env.fromVariant env.newConnectionSettings m).connectionName } := by
  unfold externalConnection
  simp only [ConnectionSettings.setImported, ConnectionSettings.setConnectionName]
  cases h : startsWith (env.fromVariant env.newConnectionSettings m).connectionName externalTag <;>
    simp

theorem importFromOldVersion_imported_of_import (env : Env) (disk : Disk) (s s1 : SettingsManager)
    (hi : s.imported = false) (configFile : String)
    (hfind : (configFilesOfOldVersions env).find? (fun f => disk.fileExists f) = some configFile)
    (h : importFromOldVersion env disk s = some s1) : s1.imported = true := by
  unfold importFromOldVersion at h
  simp only [hi, Bool.false_eq_true, if_false, hfind] at h
  cases hx : importFromFile env disk configFile s with
  | none => simp [hx] at h
  | some r =>
    simp [hx] at h
    subst h
    rfl

theorem importFromOldVersion_eq_of_not_imported (env : Env) (disk : Disk) (s : SettingsManager)
    (hi : s.imported = false) :
    importFromOldVersion env disk s =
      match (configFilesOfOldVersions env).find? (fun f => disk.fileExists f) with
      | none => some s
      | some configFile =>
        (importFromFile env disk configFile s).map (fun r => r.2.setImported true) := by
  unfold importFromOldVersion
  simp [hi]

theorem Disk.fileExists_congr (d d1 : Disk) (path : String) (h : d1.file path = d.file path) :
    d1.fileExists path = d.fileExists path := by
  unfold Disk.fileExists
  rw [h]

theorem importFromFile_congr (env : Env) (disk disk1 : Disk) (path : String) (s : SettingsManager)
    (h : disk1.file path = disk.file path) :
    importFromFile env disk1 path s = importFromFile env disk path s := by
  unfold importFromFile
  by_cases hp : path = CONFIG_FILE_0_8_5 env
  · rw [if_pos hp, if_pos hp]
    unfold importConnectionsFrom_0_8_5
    rw [← hp, h]
  · rw [if_neg hp, if_neg hp, h]

theorem find?_of_first (l : List String) (p : String → Bool) (before after : List String)
    (f : String) (hl : l = before ++ f :: after) (hb : ∀ g ∈ before, p g = false)
    (hf : p f = true) : l.find? p = some f := by
  subst hl
  induction before with
  | nil => simp [hf]
  | cons b bs ih =>
    have hb1 : p b = false := hb b (by simp)
    simp only [List.cons_append]
    rw [List.find?_cons_of_neg _ (by simp [hb1])]
    exact ih (fun g hg => hb g (List.mem_cons_of_mem _ hg))

/-! ## More lemmas on loading -/

theorem loadFromMap_frame (env : Env) (disk : Disk) (map : QVariantMap) (s s1 : SettingsManager)
    (h : loadFromMap env disk map s = some s1) :
    ∃ a l d t c i, s1 = { loadFromMapSettings env disk map s with
      autoExpand := a, lineNumbers := l, debugMode := d, shellTimeoutSec := t,
      connections := c, imported := i } :=
  importFromOldVersion_frame env disk _ s1 h

theorem loadFromMap_of_document_imported (env : Env) (disk : Disk) (map : QVariantMap)
    (s : SettingsManager) (h : (loadFromMapSettings env disk map s).imported = true) :
    loadFromMap env disk map s = some (loadFromMapSettings env disk map s) :=
  importFromOldVersion_of_imported env disk _ h

theorem loadFromMap_returns (env : Env) (disk : Disk) (map : QVariantMap) (s : SettingsManager)
    (h : (loadFromMapSettings env disk map s).imported = true ∨
      disk.fileExists (CONFIG_FILE_0_8_5 env) = false) :
    ∃ s1, loadFromMap env disk map s = some s1 :=
  importFromOldVersion_returns env disk _ h

theorem loadFromMapSettings_batchSize (env : Env) (disk : Disk) (map : QVariantMap)
    (s : SettingsManager) :
    (loadFromMapSettings env disk map s).batchSize =
      if documentInt env map "batchSize" = 0 then 50 else documentInt env map "batchSize" := rfl

theorem find_defaultToolbar (toolbars : QVariantMap) (name : String) (visible : Bool)
    (k : String) :
    QVariantMap.find (defaultToolbar toolbars name visible) k =
      if (QVariantMap.find toolbars name).isNone = true ∧ name = k then
        some (QVariant.bool visible)
      else QVariantMap.find toolbars k := by
  unfold defaultToolbar
  by_cases h : (QVariantMap.find toolbars name).isNone = true
  · rw [if_pos h, QVariantMap.find_insert]
    by_cases hk : name = k
    · rw [if_pos hk, if_pos ⟨h, hk⟩]
    · rw [if_neg hk, if_neg (fun hh => hk hh.2)]
  · rw [if_neg h, if_neg (fun hh => h hh.1)]

theorem loadFromMapSettings_toolbars (env : Env) (disk : Disk) (map : QVariantMap)
    (s : SettingsManager) :
    (loadFromMapSettings env disk map s).toolbars =
      defaultToolbar (defaultToolbar (defaultToolbar (defaultToolbar (defaultToolbar
        (QVariantMap.value map "toolbars").toMap "connect" true) "open_save" true) "exec" true)
        "explorer" true) "logs" false := rfl

theorem find_toolbars_after_defaults (t : QVariantMap) (name : String) :
    QVariantMap.find
      (defaultToolbar (defaultToolbar (defaultToolbar (defaultToolbar (defaultToolbar
        t "connect" true) "open_save" true) "exec" true) "explorer" true) "logs" false) name =
      if (QVariantMap.find t name).isSome = true then QVariantMap.find t name
      else if name = "connect" ∨ name = "open_save" ∨ name = "exec" ∨ name = "explorer" then
        some (QVariant.bool true)
      else if name = "logs" then some (QVariant.bool false)
      else none := by
  simp only [find_defaultToolbar]
  by_cases h1 : name = "connect"
  · subst h1; cases h : QVariantMap.find t "connect" <;> simp [h]
  · by_cases h2 : name = "open_save"
    · subst h2; cases h : QVariantMap.find t "open_save" <;> simp [h]
    · by_cases h3 : name = "exec"
      · subst h3; cases h : QVariantMap.find t "exec" <;> simp [h]
      · by_cases h4 : name = "explorer"
        · subst h4; cases h : QVariantMap.find t "explorer" <;> simp [h]
        · by_cases h5 : name = "logs"
          · subst h5; cases h : QVariantMap.find t "logs" <;> simp [h]
          · have e1 : ¬ "connect" = name := fun e => h1 e.symm
            have e2 : ¬ "open_save" = name := fun e => h2 e.symm
            have e3 : ¬ "exec" = name := fun e => h3 e.symm
            have e4 : ¬ "explorer" = name := fun e => h4 e.symm
            have e5 : ¬ "logs" = name := fun e => h5 e.symm
            cases h : QVariantMap.find t name <;> simp [h, h1, h2, h3, h4, h5, e1, e2, e3, e4, e5]

theorem loadFromMapSettings_kept (env : Env) (disk : Disk) (map : QVariantMap)
    (s : SettingsManager) :
    (QVariantMap.contains map "acceptedEulaVersions" = false →
      (loadFromMapSettings env disk map s).acceptedEulaVersions = s.acceptedEulaVersions) ∧
    (QVariantMap.contains map "dbVersionsConnected" = false →
      (loadFromMapSettings env disk map s).dbVersionsConnected = s.dbVersionsConnected) ∧
    (QVariantMap.contains map "checkForUpdates" = false →
      (loadFromMapSettings env disk map s).checkForUpdates = s.checkForUpdates) ∧
    (QVariantMap.contains map "mongoTimeoutSec" = false →
      (loadFromMapSettings env disk map s).mongoTimeoutSec = s.mongoTimeoutSec) ∧
    (QVariantMap.contains map "shellTimeoutSec" = false →
      (loadFromMapSettings env disk map s).shellTimeoutSec = s.shellTimeoutSec) := by
  refine ⟨fun h => ?_, fun h => ?_, fun h => ?_, fun h => ?_, fun h => ?_⟩ <;>
    simp [loadFromMapSettings, h]

theorem loadFromMapSettings_connections (env : Env) (disk : Disk) (map : QVariantMap)
    (s : SettingsManager) :
    (loadFromMapSettings env disk map s).connections =
      (QVariantMap.value map "connections").toList.map
        (fun conn => env.fromVariant env.newConnectionSettings conn.toMap) := by
  show List.foldl _ [] _ = _
  simp only [SettingsManager.addConnection]
  rw [foldl_append_singleton]
  rfl

theorem loadFromMapSettings_imported (env : Env) (disk : Disk) (map : QVariantMap)
    (s : SettingsManager) :
    (loadFromMapSettings env disk map s).imported =
      if QVariantMap.contains map "imported" = true then
        (QVariantMap.value map "imported").toBool
      else false := rfl

theorem load_of_content (env : Env) (disk : Disk) (s : SettingsManager) (doc : QVariant)
    (h : disk.file (ConfigFilePath env) = FileState.content (some doc)) :
    load env disk s = (loadFromMap env disk doc.toMap s).map (fun s1 => (true, s1)) := by
  simp [load, h]

theorem savedDocumentDisk_load :
    load referenceEnv savedDocumentDisk sampleStoreOneProfile =
      some (true, { sampleStoreOneProfile with version := SchemaVersion }) := by
  have hfile : savedDocumentDisk.file (ConfigFilePath referenceEnv) =
      FileState.content (some (QVariant.map (convertToMap referenceEnv sampleStoreOneProfile))) := by
    rfl
  rw [load_of_content referenceEnv savedDocumentDisk _ _ hfile]
  show Option.map _ (importFromOldVersion _ _ (loadFromMapSettings _ _
    (convertToMap referenceEnv sampleStoreOneProfile) _)) = _
  rw [loadFromMapSettings_convertToMap referenceEnv savedDocumentDisk sampleStoreOneProfile _
    sampleStoreOneProfile_valid, importFromOldVersion_of_imported _ _ _ rfl]
  rfl

/-! ## Claims C11 to C20 -/

/-- C11: the profile list after `loadConnectionsFromFile` is the list before it followed by
the appended profiles; each appended profile is built from a non-empty candidate record
of the file, is flagged imported, has a name that starts with "[External] ", keeps the
decoded name when that already starts with the marker and otherwise has the marker put
in front of it once, and agrees with the decoded record in every other field. -/
theorem appended_profiles_are_marked_external (env : Env) (disk : Disk) (path : String)
    (s : SettingsManager) :
    ∃ added,
      (loadConnectionsFromFile env disk path s).2.1.connections = s.connections ++ added ∧
      ∀ c ∈ added, ∃ doc v,
        disk.file path = FileState.content (some doc) ∧ v ∈ extractCandidates doc.toMap ∧
        v.toMap ≠ [] ∧
        c.imported = true ∧
        startsWith c.connectionName externalTag = true ∧
        (startsWith (env.fromVariant env.newConnectionSettings v.toMap).connectionName
            externalTag = true →
          c.connectionName = (env.fromVariant env.newConnectionSettings v.toMap).connectionName) ∧
        (startsWith (env.fromVariant env.newConnectionSettings v.toMap).connectionName
            externalTag = false →
          c.connectionName =
            externalTag ++ (env.fromVariant env.newConnectionSettings v.toMap).connectionName) ∧
        c = { env.fromVariant env.newConnectionSettings v.toMap with
              imported := true, connectionName := c.connectionName } := by
  obtain ⟨added, hadd, hp⟩ := loadConnectionsFromFile_added env disk path s
  refine ⟨added, hadd, fun c hc => ?_⟩
  obtain ⟨doc, v, hdoc, hv, hne, hceq⟩ := hp c hc
  refine ⟨doc, v, hdoc, hv, hne, ?_, ?_, ?_, ?_, ?_⟩
  · rw [hceq]; exact externalConnection_imported env _
  · rw [hceq]; exact externalConnection_name env _
  · intro h; rw [hceq, externalConnection_eq]; simp [h]
  · intro h; rw [hceq, externalConnection_eq]; simp [h]
  · rw [hceq, externalConnection_eq]

/-- C11, witness: a file with a profile already named as external and one that is not. -/
theorem appended_profiles_are_marked_external_witness :
    (∃ added,
      (loadConnectionsFromFile referenceEnv markedNamesDisk externalPath sampleStore).2.1.connections
        = sampleStore.connections ++ added ∧
      ∀ c ∈ added, c.imported = true ∧ startsWith c.connectionName externalTag = true) ∧
    (loadConnectionsFromFile referenceEnv markedNamesDisk externalPath
      sampleStore).2.1.connections.map (fun c => c.connectionName) =
      ["[External] prod", "[External] dev"] := by
  obtain ⟨added, hadd, hp⟩ :=
    appended_profiles_are_marked_external referenceEnv markedNamesDisk externalPath sampleStore
  refine ⟨⟨added, hadd, fun c hc => ?_⟩, by decide⟩
  obtain ⟨_, _, _, _, _, h1, h2, _⟩ := hp c hc
  exact ⟨h1, h2⟩

/-- C12: a second `importFromOldVersion` right after the first, on the same disk, has the
outcome of the first alone; and on a store whose `imported` flag is set the call
returns the store unchanged, whatever the disk holds. -/
theorem importFromOldVersion_idempotent (env : Env) (disk : Disk) (s : SettingsManager) :
    (importFromOldVersion env disk s).bind (importFromOldVersion env disk) =
      importFromOldVersion env disk s ∧
    ∀ disk1, importFromOldVersion env disk1 (s.setImported true) = some (s.setImported true) := by
  refine ⟨?_, fun disk1 => importFromOldVersion_of_imported env disk1 _ rfl⟩
  cases hs : importFromOldVersion env disk s with
  | none => rfl
  | some s1 =>
    simp only [Option.some_bind]
    cases hi : s.imported with
    | true =>
      rw [importFromOldVersion_of_imported env disk s hi] at hs
      injection hs with hs
      subst hs
      exact importFromOldVersion_of_imported env disk s hi
    | false =>
      cases hfind : (configFilesOfOldVersions env).find? (fun f => disk.fileExists f) with
      | none =>
        rw [importFromOldVersion_eq_of_not_imported env disk s hi, hfind] at hs
        injection hs with hs
        subst hs
        rw [importFromOldVersion_eq_of_not_imported env disk s hi, hfind]
      | some configFile =>
        exact importFromOldVersion_of_imported env disk s1
          (importFromOldVersion_imported_of_import env disk s s1 hi configFile hfind hs)

/-- C12, witness: the sample store and a disk with a 1.4.3 file; the first call imports. -/
theorem importFromOldVersion_idempotent_witness :
    (importFromOldVersion referenceEnv legacyDisk sampleStore).bind
        (importFromOldVersion referenceEnv legacyDisk) =
      importFromOldVersion referenceEnv legacyDisk sampleStore ∧
    (importFromOldVersion referenceEnv legacyDisk sampleStore).map
      (fun s1 => (s1.imported, s1.connections.length)) = some (true, 1) :=
  ⟨(importFromOldVersion_idempotent referenceEnv legacyDisk sampleStore).1, by decide⟩

/-- C13: with `imported` false, when no legacy location exists the store is returned
unchanged; otherwise the outcome is the import from the first location of the list that
exists, followed by setting `imported`, and it is the same on every disk that agrees on
that file and on the absence of the locations before it, whatever the later locations
hold. -/
theorem importFromOldVersion_first_existing_location (env : Env) (disk : Disk)
    (s : SettingsManager) (hi : s.imported = false) :
    ((∀ g ∈ configFilesOfOldVersions env, disk.fileExists g = false) →
      importFromOldVersion env disk s = some s) ∧
    (∀ before f after, configFilesOfOldVersions env = before ++ f :: after →
      (∀ g ∈ before, disk.fileExists g = false) → disk.fileExists f = true →
      importFromOldVersion env disk s =
          (importFromFile env disk f s).map (fun r => r.2.setImported true) ∧
        (∀ s1, importFromOldVersion env disk s = some s1 → s1.imported = true) ∧
        ∀ disk1, disk1.file f = disk.file f → (∀ g ∈ before, disk1.fileExists g = false) →
          importFromOldVersion env disk1 s = importFromOldVersion env disk s) := by
  refine ⟨fun h => importFromOldVersion_of_noLegacyFile env disk s h, ?_⟩
  intro before f after hl hb hf
  have hfind := find?_of_first _ (fun g => disk.fileExists g) before after f hl hb hf
  have heq : importFromOldVersion env disk s =
      (importFromFile env disk f s).map (fun r => r.2.setImported true) := by
    rw [importFromOldVersion_eq_of_not_imported env disk s hi, hfind]
  refine ⟨heq, fun s1 hs1 =>
    importFromOldVersion_imported_of_import env disk s s1 hi f hfind hs1, ?_⟩
  intro disk1 hsame hb1
  have hf1 : disk1.fileExists f = true := by
    rw [Disk.fileExists_congr disk disk1 f hsame]; exact hf
  have hfind1 := find?_of_first _ (fun g => disk1.fileExists g) before after f hl hb1 hf1
  rw [heq, importFromOldVersion_eq_of_not_imported env disk1 s hi, hfind1]
  simp only []
  rw [importFromFile_congr env disk disk1 f s hsame]

/-- C13, witness: a disk with a 1.4.3 file and a 0.9 file gives what the disk with the
1.4.3 file alone gives. -/
theorem importFromOldVersion_first_existing_location_witness :
    sampleStore.imported = false ∧
    twoLegacyDisk.fileExists legacyPath_1_4_3 = true ∧
    twoLegacyDisk.fileExists legacyPath_0_9 = true ∧
    importFromOldVersion referenceEnv twoLegacyDisk sampleStore =
      (importFromFile referenceEnv twoLegacyDisk legacyPath_1_4_3 sampleStore).map
        (fun r => r.2.setImported true) ∧
    importFromOldVersion referenceEnv legacyDisk sampleStore =
      importFromOldVersion referenceEnv twoLegacyDisk sampleStore := by
  have h :=
    (importFromOldVersion_first_existing_location referenceEnv twoLegacyDisk sampleStore rfl).2 []
      legacyPath_1_4_3
    ((configFilesOfOldVersions referenceEnv).drop 1) (by decide) (by simp) (by decide)
  exact ⟨rfl, by decide, by decide, h.1, h.2.2 legacyDisk rfl (by simp)⟩

/-- C14 (as amended): when the store holds a canonical identifier and the loaded document
carries that identifier in `anonymousID`, a successful `load` leaves `anonymousID` as
it was, whatever the archives, the legacy files and the scanned directories hold. -/
theorem anonymousID_stable_when_document_carries_it (env : Env) (disk : Disk)
    (s r : SettingsManager) (doc : QVariant)
    (hcanon : canonicalID env s.anonymousID)
    (hfile : disk.file (ConfigFilePath env) = FileState.content (some doc))
    (hid : QVariantMap.find doc.toMap "anonymousID" = some (QVariant.str s.anonymousID))
    (hload : load env disk s = some (true, r)) :
    r.anonymousID = s.anonymousID := by
  rw [load_of_content env disk s doc hfile] at hload
  obtain ⟨s1, hs1, hr⟩ := Option.map_eq_some'.mp hload
  injection hr with _ hr
  subst hr
  obtain ⟨a, l, d, t, c, i, hs⟩ := loadFromMap_frame env disk doc.toMap s s1 hs1
  rw [hs]
  show getOrCreateAnonymousID env disk doc.toMap = s.anonymousID
  exact getOrCreateAnonymousID_of_canonical env disk _ _ hid hcanon

/-- C14, witness: the saved document of the sample store is loaded back while a legacy
file holds another identifier. -/
theorem anonymousID_stable_when_document_carries_it_witness :
    canonicalID referenceEnv sampleStoreOneProfile.anonymousID ∧
    savedDocumentDisk.file (ConfigFilePath referenceEnv) =
      FileState.content (some (QVariant.map (convertToMap referenceEnv sampleStoreOneProfile))) ∧
    load referenceEnv savedDocumentDisk sampleStoreOneProfile =
      some (true, { sampleStoreOneProfile with version := SchemaVersion }) ∧
    ({ sampleStoreOneProfile with version := SchemaVersion } : SettingsManager).anonymousID =
      sampleStoreOneProfile.anonymousID :=
  ⟨sampleStoreOneProfile_valid.anonymousID_canonical, rfl, savedDocumentDisk_load,
    anonymousID_stable_when_document_carries_it referenceEnv savedDocumentDisk
      sampleStoreOneProfile _ _
      sampleStoreOneProfile_valid.anonymousID_canonical rfl
      (find_convertToMap_anonymousID referenceEnv sampleStoreOneProfile) savedDocumentDisk_load⟩

/-- C14, counterexample: the store holds an identifier, the document loaded has no
`anonymousID` key and a 1.4.3 file holds another identifier; the load succeeds and
the store then holds the identifier of the legacy file. -/
theorem anonymousID_replaced_by_later_legacy_source :
    sampleStore.anonymousID ≠ "" ∧
    (load referenceEnv laterLegacyDisk sampleStore).map (fun r => (r.1, r.2.anonymousID)) =
      some (true, otherID) ∧
    otherID ≠ sampleStore.anonymousID := by
  decide

/-- C15: `getOrCreateAnonymousID` returns, with the braces removed, the first non-empty of:
the identifier of the document, the identifiers of the four archives in list order, the
identifiers of the legacy locations read (1.4.3 down to 1.0.0, newest first), the
identifiers of the scanned files (first root first), and the fresh identifier. When
`QUuid` texts hold more than braces, a valid identifier in the document is the result,
and the result is never empty. -/
theorem getOrCreateAnonymousID_resolution_order (env : Env) (disk : Disk) (map : QVariantMap)
    (hu : ∀ t u, env.uuidText t = some u → stripBraces u ≠ "")
    (hc : stripBraces env.createUuid ≠ "") :
    getOrCreateAnonymousID env disk map =
      stripBraces (firstNonEmpty
        [ documentAnonymousID env map,
          firstNonEmpty ((S_3T_ZipFile_And_ConfigFile_List env).map (zipAnonymousID env disk)),
          firstNonEmpty ((identifierLegacyFiles env).map (extractAnonymousID env disk)),
          firstNonEmpty ((scannedFiles env disk).map (extractAnonymousID env disk)),
          env.createUuid ]) ∧
    (∀ u, QVariantMap.contains map "anonymousID" = true →
      env.uuidText (QVariantMap.value map "anonymousID").toString = some u →
      getOrCreateAnonymousID env disk map = stripBraces u) ∧
    getOrCreateAnonymousID env disk map ≠ "" := by
  have heq := getOrCreateAnonymousID_eq env disk map
  refine ⟨heq, ?_, ?_⟩
  · intro u hcon hval
    rw [heq, documentAnonymousID_of_valid env map u hcon hval, firstNonEmpty_cons,
      if_pos (stripBraces_ne_of_ne u (hu _ u hval))]
  · rw [heq]
    have hfiles : ∀ l : List String, ∀ y ∈ l.map (extractAnonymousID env disk), y ≠ "" →
        stripBraces y ≠ "" := by
      intro l y hy hne
      obtain ⟨f, _, rfl⟩ := List.mem_map.mp hy
      rcases extractAnonymousID_cases env disk f with h | ⟨t, u, ht, h⟩
      · exact absurd h hne
      · rw [h, stripBraces_idem]; exact hu t u ht
    apply firstNonEmpty_prop (fun y => stripBraces y ≠ "")
    · intro y hy hne
      simp only [List.mem_cons, List.mem_singleton, List.not_mem_nil, or_false] at hy
      rcases hy with h | h | h | h | h
      · rcases documentAnonymousID_cases env map with h0 | ⟨t, u, ht, h0⟩
        · exact absurd (h.trans h0) hne
        · rw [h, h0]; exact hu t u ht
      · rw [h] at hne ⊢
        apply firstNonEmpty_prop (fun y => stripBraces y ≠ "") _ _ hne
        intro z hz hzne
        obtain ⟨zp, _, rfl⟩ := List.mem_map.mp hz
        rcases zipAnonymousID_cases env disk zp with h0 | ⟨t, u, ht, h0⟩
        · exact absurd h0 hzne
        · rw [h0]; exact hu t u ht
      · rw [h] at hne ⊢
        exact firstNonEmpty_prop (fun y => stripBraces y ≠ "") _ (hfiles _) hne
      · rw [h] at hne ⊢
        exact firstNonEmpty_prop (fun y => stripBraces y ≠ "") _ (hfiles _) hne
      · rw [h]; exact hc
    · simp only [firstNonEmpty_cons, firstNonEmpty_nil]
      have hcne := stripBraces_ne_of_ne _ hc
      by_cases h1 : documentAnonymousID env map = ""
      · by_cases h2 : firstNonEmpty
            ((S_3T_ZipFile_And_ConfigFile_List env).map (zipAnonymousID env disk)) = ""
        · by_cases h3 : firstNonEmpty
              ((identifierLegacyFiles env).map (extractAnonymousID env disk)) = ""
          · by_cases h4 : firstNonEmpty
                ((scannedFiles env disk).map (extractAnonymousID env disk)) = ""
            · simp [h1, h2, h3, h4, hcne]
            · simp [h1, h2, h3, h4]
          · simp [h1, h2, h3]
        · simp [h1, h2]
      · simp [h1]

/-- C15, witness: the reference environment; a document that holds an identifier, and a
document without one. -/
theorem getOrCreateAnonymousID_resolution_order_witness :
    (∀ t u, referenceEnv.uuidText t = some u → stripBraces u ≠ "") ∧
    stripBraces referenceEnv.createUuid ≠ "" ∧
    getOrCreateAnonymousID referenceEnv identityLegacyDisk identityFile.toMap = otherID ∧
    getOrCreateAnonymousID referenceEnv identityLegacyDisk [] ≠ "" := by
  have h :=
    getOrCreateAnonymousID_resolution_order referenceEnv identityLegacyDisk identityFile.toMap
    referenceUuidText_stripBraces (by decide)
  have h2 := getOrCreateAnonymousID_resolution_order referenceEnv identityLegacyDisk []
    referenceUuidText_stripBraces (by decide)
  refine ⟨referenceUuidText_stripBraces, by decide, ?_, h2.2.2⟩
  rw [h.2.1 ("\x7b" ++ otherID ++ "\x7d") (by decide) (by decide)]
  decide

/-- C16: the legacy-location step keeps a non-empty identifier it is given and otherwise
yields the first non-empty identifier among the locations 1.4.3 down to 1.0.0 without
1.1.0-Beta; it gives the same result on every disk that agrees on these ten files, and
the 1.1.0-Beta, 1.0-RC1, 0.9 and 0.8.5 locations are not among them. -/
theorem legacy_identifier_step_reads_1_4_3_to_1_0_0 (env : Env) (disk : Disk) (a : String) :
    anonymousIDFromOldConfigs env disk (configFilesOfOldVersions env) a =
      (if a ≠ "" then a
        else firstNonEmpty ((identifierLegacyFiles env).map (extractAnonymousID env disk))) ∧
    (∀ disk1, (∀ f ∈ identifierLegacyFiles env, disk1.file f = disk.file f) →
      anonymousIDFromOldConfigs env disk1 (configFilesOfOldVersions env) a =
        anonymousIDFromOldConfigs env disk (configFilesOfOldVersions env) a) ∧
    CONFIG_FILE_1_1_0_BETA env ∉ identifierLegacyFiles env ∧
    CONFIG_FILE_1_0_RC1 env ∉ identifierLegacyFiles env ∧
    env.homePath ++ "/.config/robomongo/0.9/robomongo.json" ∉ identifierLegacyFiles env ∧
    CONFIG_FILE_0_8_5 env ∉ identifierLegacyFiles env := by
  have h1 : ∀ d : Disk, anonymousIDFromOldConfigs env d (configFilesOfOldVersions env) a =
      (if a ≠ "" then a
        else firstNonEmpty ((identifierLegacyFiles env).map (extractAnonymousID env d))) := by
    intro d
    rw [anonymousIDFromOldConfigs_eq, identifierLegacyFiles_eq]
  refine ⟨h1 disk, ?_, ?_, ?_, ?_, ?_⟩
  · intro disk1 hsame
    rw [h1 disk1, h1 disk]
    have : (identifierLegacyFiles env).map (extractAnonymousID env disk1) =
        (identifierLegacyFiles env).map (extractAnonymousID env disk) :=
      List.map_congr_left (fun f hf => extractAnonymousID_congr env disk disk1 f (hsame f hf))
    rw [this]
  · simp [identifierLegacyFiles, CONFIG_FILE_1_1_0_BETA, String.append_left_cancel_iff]
  · simp [identifierLegacyFiles, CONFIG_FILE_1_0_RC1, String.append_left_cancel_iff]
  · simp [identifierLegacyFiles, String.append_left_cancel_iff]
  · simp [identifierLegacyFiles, CONFIG_FILE_0_8_5, String.append_left_cancel_iff]

/-- C16, witness: 1.1.0-Beta and 1.0-RC1 files that hold an identifier are not read, the
1.0.0 file is. -/
theorem legacy_identifier_step_reads_1_4_3_to_1_0_0_witness :
    (∀ f ∈ identifierLegacyFiles referenceEnv,
      identity_1_0_0_Disk.file f = identityLegacyDisk.file f) ∧
    anonymousIDFromOldConfigs referenceEnv identity_1_0_0_Disk
        (configFilesOfOldVersions referenceEnv) "" =
      anonymousIDFromOldConfigs referenceEnv identityLegacyDisk
        (configFilesOfOldVersions referenceEnv) "" ∧
    anonymousIDFromOldConfigs referenceEnv identityLegacyDisk
      (configFilesOfOldVersions referenceEnv) "" = otherID :=
  ⟨identityLegacyDisk_agrees,
    (legacy_identifier_step_reads_1_4_3_to_1_0_0 referenceEnv identityLegacyDisk "").2.1
      identity_1_0_0_Disk identityLegacyDisk_agrees,
    by decide⟩

/-- C17: after `loadFromMap` of a document that lacks `batchSize`, or whose `batchSize`
reads as 0, the batch size is 50, whatever it was before; `loadFromMap` returns
whenever the document sets `imported` or the 0.8.5 file is absent. -/
theorem batchSize_defaults_to_50 (env : Env) (disk : Disk) (map : QVariantMap)
    (s : SettingsManager) :
    (∀ s1, loadFromMap env disk map s = some s1 →
      (QVariantMap.contains map "batchSize" = false ∨ documentInt env map "batchSize" = 0) →
      s1.batchSize = 50) ∧
    ((loadFromMapSettings env disk map s).imported = true ∨
        disk.fileExists (CONFIG_FILE_0_8_5 env) = false →
      ∃ s1, loadFromMap env disk map s = some s1) := by
  refine ⟨fun s1 h hb => ?_, loadFromMap_returns env disk map s⟩
  obtain ⟨a, l, d, t, c, i, hs⟩ := loadFromMap_frame env disk map s s1 h
  have h0 : documentInt env map "batchSize" = 0 := by
    rcases hb with hb | hb
    · exact documentInt_of_not_contains env map _ hb
    · exact hb
  rw [hs]
  show (loadFromMapSettings env disk map s).batchSize = 50
  rw [loadFromMapSettings_batchSize, if_pos h0]

/-- C17, witness: the empty document loaded into a store with batch size 7. -/
theorem batchSize_defaults_to_50_witness :
    QVariantMap.contains [] "batchSize" = false ∧
    ∃ s1, loadFromMap referenceEnv emptyDisk [] { sampleStore with batchSize := 7 } = some s1 ∧
      s1.batchSize = 50 := by
  have h := batchSize_defaults_to_50 referenceEnv emptyDisk [] { sampleStore with batchSize := 7 }
  obtain ⟨s1, hs1⟩ := h.2 (Or.inr (by decide))
  exact ⟨rfl, s1, hs1, h.1 s1 hs1 (Or.inl rfl)⟩

/-- C18: after `loadFromMap` the toolbars contain the five well-known names; every entry of
the document's `toolbars` keeps its value, an absent `connect`, `open_save`, `exec` or
`explorer` is visible, an absent `logs` is hidden, and no other name is added.
`loadFromMap` returns whenever the document sets `imported` or the 0.8.5 file is absent. -/
theorem toolbars_defaulted_on_load (env : Env) (disk : Disk) (map : QVariantMap)
    (s : SettingsManager) :
    (∀ s1, loadFromMap env disk map s = some s1 →
      (∀ name ∈ wellKnownToolbars, QVariantMap.contains s1.toolbars name = true) ∧
      ∀ name, QVariantMap.find s1.toolbars name =
        if (QVariantMap.find (QVariantMap.value map "toolbars").toMap name).isSome = true then
          QVariantMap.find (QVariantMap.value map "toolbars").toMap name
        else if name = "connect" ∨ name = "open_save" ∨ name = "exec" ∨ name = "explorer" then
          some (QVariant.bool true)
        else if name = "logs" then some (QVariant.bool false)
        else none) ∧
    ((loadFromMapSettings env disk map s).imported = true ∨
        disk.fileExists (CONFIG_FILE_0_8_5 env) = false →
      ∃ s1, loadFromMap env disk map s = some s1) := by
  refine ⟨fun s1 h => ?_, loadFromMap_returns env disk map s⟩
  obtain ⟨a, l, d, t, c, i, hs⟩ := loadFromMap_frame env disk map s s1 h
  have htb : s1.toolbars = (loadFromMapSettings env disk map s).toolbars := by rw [hs]
  have hfind : ∀ name, QVariantMap.find s1.toolbars name =
      if (QVariantMap.find (QVariantMap.value map "toolbars").toMap name).isSome = true then
        QVariantMap.find (QVariantMap.value map "toolbars").toMap name
      else if name = "connect" ∨ name = "open_save" ∨ name = "exec" ∨ name = "explorer" then
        some (QVariant.bool true)
      else if name = "logs" then some (QVariant.bool false)
      else none := by
    intro name
    rw [htb, loadFromMapSettings_toolbars, find_toolbars_after_defaults]
  refine ⟨?_, hfind⟩
  intro name hname
  unfold QVariantMap.contains
  rw [hfind name]
  simp only [wellKnownToolbars, List.mem_cons, List.mem_singleton, List.not_mem_nil,
    or_false] at hname
  by_cases hp : (QVariantMap.find (QVariantMap.value map "toolbars").toMap name).isSome = true
  · rw [if_pos hp]; exact hp
  · rw [if_neg hp]
    rcases hname with h | h | h | h | h <;> subst h <;> simp

/-- C18, witness: a document that hides `connect` and shows a toolbar `custom`. -/
theorem toolbars_defaulted_on_load_witness :
    ∃ s1, loadFromMap referenceEnv emptyDisk toolbarsDocument sampleStore = some s1 ∧
      QVariantMap.find s1.toolbars "connect" = some (QVariant.bool false) ∧
      QVariantMap.find s1.toolbars "custom" = some (QVariant.bool true) ∧
      QVariantMap.find s1.toolbars "exec" = some (QVariant.bool true) ∧
      QVariantMap.find s1.toolbars "logs" = some (QVariant.bool false) := by
  have h := toolbars_defaulted_on_load referenceEnv emptyDisk toolbarsDocument sampleStore
  obtain ⟨s1, hs1⟩ := h.2 (Or.inr (by decide))
  obtain ⟨_, hfind⟩ := h.1 s1 hs1
  refine ⟨s1, hs1, ?_, ?_, ?_, ?_⟩
  · rw [hfind]; rfl
  · rw [hfind]; rfl
  · rw [hfind]; rfl
  · rw [hfind]; rfl

/-- C19, the code at the failing input: a store loads `earlierDocument` and then, the
canonical file having been replaced, loads a document that has none of the keys
`acceptedEulaVersions`, `dbVersionsConnected`, `checkForUpdates`, `mongoTimeoutSec` and
`shellTimeoutSec`.  After the second load the five members still hold the values of the
first document, while a store just initialised that loads the same second document
holds 10, 15, true and two empty sets; `autoExpand` and `batchSize`, which the second
document lacks as well, are back at true and 50.  Likewise the empty document loaded
into two stores with `mongoTimeoutSec` 10 and 99 leaves them at 10 and 99. -/
theorem absent_key_keeps_previous_value :
    (loadFromMap referenceEnv emptyDisk [] sampleStore).map (fun s1 => s1.mongoTimeoutSec) =
      some 10 ∧
    (loadFromMap referenceEnv emptyDisk [] { sampleStore with mongoTimeoutSec := 99 }).map
      (fun s1 => s1.mongoTimeoutSec) = some 99 ∧
    ((load referenceEnv earlierDisk freshStore).bind
        (fun r => load referenceEnv laterDisk r.2)).map
      (fun r => (r.1, r.2.mongoTimeoutSec, r.2.shellTimeoutSec, r.2.checkForUpdates,
        r.2.autoExpand, r.2.batchSize)) = some (true, 99, 77, false, true, 50) ∧
    ((load referenceEnv earlierDisk freshStore).bind
        (fun r => load referenceEnv laterDisk r.2)).map
      (fun r => (r.2.acceptedEulaVersions, r.2.dbVersionsConnected)) =
      some (({"1.4.4"} : Finset String), ({"4.0"} : Finset String)) ∧
    (load referenceEnv laterDisk freshStore).map
      (fun r => (r.1, r.2.mongoTimeoutSec, r.2.shellTimeoutSec, r.2.checkForUpdates,
        r.2.autoExpand, r.2.batchSize)) = some (true, 10, 15, true, true, 50) ∧
    (load referenceEnv laterDisk freshStore).map
      (fun r => (r.2.acceptedEulaVersions, r.2.dbVersionsConnected)) =
      some ((∅ : Finset String), (∅ : Finset String)) :=
  ⟨by decide, by decide, by decide, by decide, by decide, by decide⟩

/-- C20: for a document with `imported` true, `loadFromMap` returns and the profile list
afterwards is the list of profiles decoded from the document's `connections`
sequence, one per element and in the same order, whatever the list was before. -/
theorem load_replaces_profile_list (env : Env) (disk : Disk) (map : QVariantMap)
    (s : SettingsManager)
    (hi : QVariantMap.contains map "imported" = true)
    (hb : (QVariantMap.value map "imported").toBool = true) :
    ∃ s1, loadFromMap env disk map s = some s1 ∧
      s1.connections =
        (QVariantMap.value map "connections").toList.map
          (fun conn => env.fromVariant env.newConnectionSettings conn.toMap) := by
  have himp : (loadFromMapSettings env disk map s).imported = true := by
    rw [loadFromMapSettings_imported, if_pos hi, hb]
  exact ⟨_, loadFromMap_of_document_imported env disk map s himp,
    loadFromMapSettings_connections env disk map s⟩

/-- C20, witness: a document with one profile loaded into a store that holds another. -/
theorem load_replaces_profile_list_witness :
    QVariantMap.contains connectionsDocument "imported" = true ∧
    (QVariantMap.value connectionsDocument "imported").toBool = true ∧
    ∃ s1, loadFromMap referenceEnv emptyDisk connectionsDocument sampleStoreOneProfile = some s1 ∧
      s1.connections = [referenceFromVariant referenceConnection scenarioProfile.toMap] :=
  ⟨by decide, by decide,
    load_replaces_profile_list referenceEnv emptyDisk connectionsDocument sampleStoreOneProfile
      (by decide) (by decide)⟩

/-! ## Lemmas on construction -/

theorem load_of_failure (env : Env) (disk : Disk) (s : SettingsManager)
    (h : disk.file (ConfigFilePath env) = FileState.absent ∨
      disk.file (ConfigFilePath env) = FileState.unreadable ∨
      disk.file (ConfigFilePath env) = FileState.content none) :
    load env disk s = some (false, s) := by
  unfold load
  rcases h with h | h | h <;> rw [h]

theorem construct_of_content (env : Env) (disk : Disk) (s0 : SettingsManager) (doc : QVariant)
    (h : disk.file (ConfigFilePath env) = FileState.content (some doc)) :
    construct env disk s0 = (loadFromMap env disk doc.toMap s0).map (fun s1 => (s1, disk)) := by
  unfold construct
  rw [load_of_content env disk s0 doc h]
  cases loadFromMap env disk doc.toMap s0 <;> rfl

theorem save_of_writable (env : Env) (disk : Disk) (s : SettingsManager)
    (h : disk.writable (ConfigFilePath env) = true) :
    save env disk s =
      (true, disk.write (ConfigFilePath env) (QVariant.map (convertToMap env s))) := by
  simp [save, h]

theorem save_of_not_writable (env : Env) (disk : Disk) (s : SettingsManager)
    (h : disk.writable (ConfigFilePath env) = false) : save env disk s = (false, disk) := by
  simp [save, h]

theorem Disk.file_write_same (disk : Disk) (path : String) (doc : QVariant)
    (h : disk.file path ≠ FileState.unreadable) :
    (disk.write path doc).file path = FileState.content (some doc) := by
  show (if path = path then
      (match disk.file path with
        | FileState.unreadable => FileState.unreadable
        | _ => FileState.content (some doc))
    else disk.file path) = _
  rw [if_pos rfl]
  split
  · next hu => exact absurd hu h
  · rfl

theorem Disk.file_write_unreadable (disk : Disk) (path : String) (doc : QVariant)
    (h : disk.file path = FileState.unreadable) (p : String) :
    (disk.write path doc).file p = disk.file p := by
  show (if p = path then
      (match disk.file path with
        | FileState.unreadable => FileState.unreadable
        | _ => FileState.content (some doc))
    else disk.file p) = _
  by_cases hp : p = path
  · rw [if_pos hp, h, hp, h]
  · rw [if_neg hp]

theorem construct_of_unreadable_writable (env : Env) (disk : Disk) (s0 : SettingsManager)
    (h : disk.file (ConfigFilePath env) = FileState.unreadable)
    (hw : disk.writable (ConfigFilePath env) = true) :
    construct env disk s0 =
      some (s0, disk.write (ConfigFilePath env) (QVariant.map (convertToMap env s0))) := by
  have h2 : (disk.write (ConfigFilePath env) (QVariant.map (convertToMap env s0))).file
      (ConfigFilePath env) = FileState.unreadable := by
    rw [Disk.file_write_unreadable disk _ _ h, h]
  unfold construct
  rw [load_of_failure env disk s0 (Or.inr (Or.inl h))]
  simp only [save_of_writable env disk s0 hw]
  rw [load_of_failure env _ s0 (Or.inr (Or.inl h2))]
  rfl

theorem construct_of_failure_writable (env : Env) (disk : Disk) (s0 : SettingsManager)
    (h : disk.file (ConfigFilePath env) = FileState.absent ∨
      disk.file (ConfigFilePath env) = FileState.content none)
    (hw : disk.writable (ConfigFilePath env) = true) :
    construct env disk s0 =
      (loadFromMap env (disk.write (ConfigFilePath env) (QVariant.map (convertToMap env s0)))
        (convertToMap env s0) s0).map
        (fun s1 => (s1, disk.write (ConfigFilePath env) (QVariant.map (convertToMap env s0)))) := by
  have hne : disk.file (ConfigFilePath env) ≠ FileState.unreadable := by
    rcases h with h | h <;> rw [h] <;> exact fun hc => FileState.noConfusion hc
  have h3 : disk.file (ConfigFilePath env) = FileState.absent ∨
      disk.file (ConfigFilePath env) = FileState.unreadable ∨
      disk.file (ConfigFilePath env) = FileState.content none := by
    rcases h with h | h
    · exact Or.inl h
    · exact Or.inr (Or.inr h)
  unfold construct
  rw [load_of_failure env disk s0 h3]
  simp only [save_of_writable env disk s0 hw]
  rw [load_of_content env _ s0 _ (Disk.file_write_same disk _ _ hne)]
  simp only [QVariant.toMap]
  generalize loadFromMap env _ (convertToMap env s0) s0 = r
  cases r <;> rfl

theorem construct_of_failure_not_writable (env : Env) (disk : Disk) (s0 : SettingsManager)
    (h : disk.file (ConfigFilePath env) = FileState.absent ∨
      disk.file (ConfigFilePath env) = FileState.unreadable ∨
      disk.file (ConfigFilePath env) = FileState.content none)
    (hw : disk.writable (ConfigFilePath env) = false) :
    construct env disk s0 = some (s0, disk) := by
  unfold construct
  rw [load_of_failure env disk s0 h]
  simp only [save_of_not_writable env disk s0 hw]
  rw [load_of_failure env disk s0 h]
  rfl

theorem importFromOldVersion_flag (env : Env) (disk : Disk) (s s1 : SettingsManager)
    (h : importFromOldVersion env disk s = some s1) :
    (s.imported = true → s1 = s) ∧ (s1.imported = false → s1 = s) := by
  cases hi : s.imported with
  | true =>
    rw [importFromOldVersion_of_imported env disk s hi] at h
    injection h with h
    exact ⟨fun _ => h.symm, fun _ => h.symm⟩
  | false =>
    refine ⟨fun hc => absurd hc (by simp), fun h1 => ?_⟩
    cases hfind : (configFilesOfOldVersions env).find? (fun f => disk.fileExists f) with
    | none =>
      rw [importFromOldVersion_eq_of_not_imported env disk s hi, hfind] at h
      injection h with h
      exact h.symm
    | some configFile =>
      have := importFromOldVersion_imported_of_import env disk s s1 hi configFile hfind h
      rw [h1] at this
      exact absurd this (by simp)

theorem construct_disk (env : Env) (disk : Disk) (s0 s1 : SettingsManager) (d1 : Disk)
    (h : construct env disk s0 = some (s1, d1)) :
    (∀ doc, disk.file (ConfigFilePath env) = FileState.content (some doc) → d1 = disk) ∧
    (d1 = disk ∨ d1 = disk.write (ConfigFilePath env) (QVariant.map (convertToMap env s0))) := by
  have key : ∀ (o : Option SettingsManager) (d : Disk),
      o.map (fun s1 => (s1, d)) = some (s1, d1) → d1 = d := by
    intro o d ho
    cases o with
    | none => simp at ho
    | some x =>
      simp only [Option.map_some', Option.some.injEq, Prod.mk.injEq] at ho
      exact ho.2.symm
  cases hf : disk.file (ConfigFilePath env) with
  | content o =>
    cases o with
    | some doc =>
      rw [construct_of_content env disk s0 doc hf] at h
      exact ⟨fun _ _ => key _ _ h, Or.inl (key _ _ h)⟩
    | none =>
      refine ⟨fun doc hd => by simp at hd, ?_⟩
      cases hw : disk.writable (ConfigFilePath env) with
      | true =>
        rw [construct_of_failure_writable env disk s0 (Or.inr hf) hw] at h
        exact Or.inr (key _ _ h)
      | false =>
        rw [construct_of_failure_not_writable env disk s0 (Or.inr (Or.inr hf)) hw] at h
        simp only [Option.some.injEq, Prod.mk.injEq] at h
        exact Or.inl h.2.symm
  | absent =>
    refine ⟨fun doc hd => by simp at hd, ?_⟩
    cases hw : disk.writable (ConfigFilePath env) with
    | true =>
      rw [construct_of_failure_writable env disk s0 (Or.inl hf) hw] at h
      exact Or.inr (key _ _ h)
    | false =>
      rw [construct_of_failure_not_writable env disk s0 (Or.inl hf) hw] at h
      simp only [Option.some.injEq, Prod.mk.injEq] at h
      exact Or.inl h.2.symm
  | unreadable =>
    refine ⟨fun doc hd => by simp at hd, ?_⟩
    cases hw : disk.writable (ConfigFilePath env) with
    | true =>
      rw [construct_of_unreadable_writable env disk s0 hf hw] at h
      simp only [Option.some.injEq, Prod.mk.injEq] at h
      exact Or.inr h.2.symm
    | false =>
      rw [construct_of_failure_not_writable env disk s0 (Or.inr (Or.inl hf)) hw] at h
      simp only [Option.some.injEq, Prod.mk.injEq] at h
      exact Or.inl h.2.symm

/-! ## Lemmas on the 0.8.5 import -/

theorem matchedIn_0_8_5_cons (conn econn : ConnectionSettings) (rest : List ConnectionSettings) :
    matchedIn_0_8_5 conn (econn :: rest) =
      if conn.serverPort ≠ econn.serverPort ∨ conn.serverHost ≠ econn.serverHost ∨
          conn.defaultDatabase ≠ econn.defaultDatabase then
        matchedIn_0_8_5 conn rest
      else
        match conn.primaryCredential, econn.primaryCredential with
        | some cred, some ecred =>
          if cred.databaseName ≠ ecred.databaseName ∨ cred.userName ≠ ecred.userName ∨
              cred.userPassword ≠ ecred.userPassword ∨ cred.enabled ≠ ecred.enabled then
            matchedIn_0_8_5 conn rest
          else if conn.sshSettings.enabled ≠ econn.sshSettings.enabled ∨
              conn.sshSettings.port ≠ econn.sshSettings.port ∨
              conn.sshSettings.host ≠ econn.sshSettings.host ∨
              conn.sshSettings.privateKeyFile ≠ econn.sshSettings.privateKeyFile ∨
              conn.sshSettings.userPassword ≠ econn.sshSettings.userPassword ∨
              conn.sshSettings.userName ≠ econn.sshSettings.userName then
            matchedIn_0_8_5 conn rest
          else some true
        | _, _ => none := rfl

theorem matchedIn_0_8_5_iff (conn : ConnectionSettings) (conns : List ConnectionSettings)
    (b : Bool) (h : matchedIn_0_8_5 conn conns = some b) :
    b = true ↔ ∃ e ∈ conns, Similar_0_8_5 conn e := by
  induction conns with
  | nil =>
    simp only [matchedIn_0_8_5, Option.some.injEq] at h
    subst h
    simp
  | cons econn rest ih =>
    rw [matchedIn_0_8_5_cons] at h
    by_cases h1 : conn.serverPort ≠ econn.serverPort ∨ conn.serverHost ≠ econn.serverHost ∨
        conn.defaultDatabase ≠ econn.defaultDatabase
    · rw [if_pos h1] at h
      rw [ih h]
      constructor
      · rintro ⟨e, he, hs⟩
        exact ⟨e, List.mem_cons_of_mem _ he, hs⟩
      · rintro ⟨e, he, hs⟩
        rcases List.mem_cons.mp he with rfl | he
        · obtain ⟨p1, p2, p3, _⟩ := hs
          rcases h1 with h1 | h1 | h1
          · exact absurd p1 h1
          · exact absurd p2 h1
          · exact absurd p3 h1
        · exact ⟨e, he, hs⟩
    · rw [if_neg h1] at h
      cases hc : conn.primaryCredential with
      | none => simp [hc] at h
      | some cred =>
        cases hec : econn.primaryCredential with
        | none => simp [hc, hec] at h
        | some ecred =>
          simp only [hc, hec] at h
          by_cases h2 : cred.databaseName ≠ ecred.databaseName ∨ cred.userName ≠ ecred.userName ∨
              cred.userPassword ≠ ecred.userPassword ∨ cred.enabled ≠ ecred.enabled
          · rw [if_pos h2] at h
            rw [ih h]
            constructor
            · rintro ⟨e, he, hs⟩
              exact ⟨e, List.mem_cons_of_mem _ he, hs⟩
            · rintro ⟨e, he, hs⟩
              rcases List.mem_cons.mp he with rfl | he
              · obtain ⟨_, _, _, ⟨c1, c2, q1, q2, q3, q4, q5, q6⟩, _⟩ := hs
                rw [hc] at q1
                rw [hec] at q2
                injection q1 with q1
                injection q2 with q2
                subst q1 q2
                rcases h2 with h2 | h2 | h2 | h2
                · exact absurd q3 h2
                · exact absurd q4 h2
                · exact absurd q5 h2
                · exact absurd q6 h2
              · exact ⟨e, he, hs⟩
          · rw [if_neg h2] at h
            by_cases h3 : conn.sshSettings.enabled ≠ econn.sshSettings.enabled ∨
                conn.sshSettings.port ≠ econn.sshSettings.port ∨
                conn.sshSettings.host ≠ econn.sshSettings.host ∨
                conn.sshSettings.privateKeyFile ≠ econn.sshSettings.privateKeyFile ∨
                conn.sshSettings.userPassword ≠ econn.sshSettings.userPassword ∨
                conn.sshSettings.userName ≠ econn.sshSettings.userName
            · rw [if_pos h3] at h
              rw [ih h]
              constructor
              · rintro ⟨e, he, hs⟩
                exact ⟨e, List.mem_cons_of_mem _ he, hs⟩
              · rintro ⟨e, he, hs⟩
                rcases List.mem_cons.mp he with rfl | he
                · obtain ⟨_, _, _, _, r1, r2, r3, r4, r5, r6⟩ := hs
                  rcases h3 with h3 | h3 | h3 | h3 | h3 | h3
                  · exact absurd r1 h3
                  · exact absurd r2 h3
                  · exact absurd r3 h3
                  · exact absurd r4 h3
                  · exact absurd r5 h3
                  · exact absurd r6 h3
                · exact ⟨e, he, hs⟩
            · rw [if_neg h3] at h
              injection h with h
              subst h
              simp only [true_iff]
              refine ⟨econn, by simp, ?_⟩
              simp only [not_or, not_not, ne_eq] at h1 h2 h3
              exact ⟨h1.1, h1.2.1, h1.2.2, ⟨cred, ecred, hc, hec, h2.1, h2.2.1, h2.2.2.1, h2.2.2.2⟩,
                h3.1, h3.2.1, h3.2.2.1, h3.2.2.2.1, h3.2.2.2.2.1, h3.2.2.2.2.2⟩

theorem matchedIn_0_8_5_returns (conn : ConnectionSettings) (conns : List ConnectionSettings)
    (hc : conn.primaryCredential ≠ none) (he : ∀ e ∈ conns, e.primaryCredential ≠ none) :
    ∃ b, matchedIn_0_8_5 conn conns = some b := by
  induction conns with
  | nil => exact ⟨false, rfl⟩
  | cons econn rest ih =>
    have ih1 := ih (fun e h => he e (List.mem_cons_of_mem _ h))
    rw [matchedIn_0_8_5_cons]
    split
    · exact ih1
    · cases hx : conn.primaryCredential with
      | none => exact absurd hx hc
      | some cred =>
        cases hy : econn.primaryCredential with
        | none => exact absurd hy (he econn (by simp))
        | some ecred =>
          simp only []
          split
          · exact ih1
          · split
            · exact ih1
            · exact ⟨true, rfl⟩

theorem importEntries_0_8_5_cons (env : Env) (vconn : QVariant) (rest : QVariantList)
    (conns : List ConnectionSettings) :
    importEntries_0_8_5 env (vconn :: rest) conns =
      match matchedIn_0_8_5 (connectionFrom_0_8_5 env vconn.toMap) conns with
      | none => none
      | some true => importEntries_0_8_5 env rest conns
      | some false =>
        importEntries_0_8_5 env rest
          (SettingsManager.addConnection conns (connectionFrom_0_8_5 env vconn.toMap)) := rfl

theorem matchedIn_0_8_5_absent_credential (conn econn : ConnectionSettings)
    (rest : List ConnectionSettings)
    (h1 : conn.serverPort = econn.serverPort) (h2 : conn.serverHost = econn.serverHost)
    (h3 : conn.defaultDatabase = econn.defaultDatabase)
    (hc : conn.primaryCredential = none ∨ econn.primaryCredential = none) :
    matchedIn_0_8_5 conn (econn :: rest) = none := by
  rw [matchedIn_0_8_5_cons, if_neg (by simp [h1, h2, h3])]
  rcases hc with hc | hc
  · rw [hc]
  · rw [hc]
    cases conn.primaryCredential <;> rfl

theorem foldl_addCredential (f : QVariant → CredentialSettings) (l : QVariantList)
    (c : ConnectionSettings) :
    l.foldl (fun conn v => conn.addCredential (f v)) c =
      { c with credentials := c.credentials ++ l.map f } := by
  induction l generalizing c with
  | nil => simp
  | cons a l ih =>
    rw [List.foldl_cons, ih]
    simp [ConnectionSettings.addCredential]

theorem connectionFrom_0_8_5_credentials (env : Env) (vconn : QVariantMap) :
    (connectionFrom_0_8_5 env vconn).credentials =
      env.newConnectionSettings.credentials ++
        (QVariantMap.value vconn "credentials").toList.map
          (fun v => credentialFrom_0_8_5 v.toMap) := by
  unfold connectionFrom_0_8_5
  have h := foldl_addCredential (fun v => credentialFrom_0_8_5 v.toMap)
  unfold credentialFrom_0_8_5 at h
  simp only [h]
  split <;> split <;> rfl

theorem connectionFrom_0_8_5_sshSettings (env : Env) (vconn : QVariantMap) :
    (connectionFrom_0_8_5 env vconn).sshSettings =
      if QVariantMap.contains vconn "sshAuthMethod" then
        { host := (QVariantMap.value vconn "sshHost").toString
          userName := (QVariantMap.value vconn "sshUserName").toString
          port := documentInt env vconn "sshPort"
          userPassword := (QVariantMap.value vconn "sshUserPassword").toString
          publicKeyFile := (QVariantMap.value vconn "sshPublicKey").toString
          privateKeyFile := (QVariantMap.value vconn "sshPrivateKey").toString
          passphrase := (QVariantMap.value vconn "sshPassphrase").toString
          enabled := decide (documentInt env vconn "sshAuthMethod" = 1 ∨
            documentInt env vconn "sshAuthMethod" = 2)
          authMethod :=
            if documentInt env vconn "sshAuthMethod" = 2 then "publickey" else "password" }
      else env.newConnectionSettings.sshSettings := by
  unfold connectionFrom_0_8_5
  have h := foldl_addCredential (fun v => credentialFrom_0_8_5 v.toMap)
  unfold credentialFrom_0_8_5 at h
  simp only [h]
  split <;> split <;> rfl

/-! ## More lemmas on the migration chain, the lookup and the identifier -/

theorem importFromFile_of_content (env : Env) (disk : Disk) (path : String) (s : SettingsManager)
    (doc : QVariant) (hp : path ≠ CONFIG_FILE_0_8_5 env)
    (hf : disk.file path = FileState.content (some doc)) :
    importFromFile env disk path s =
      some (true,
        { s with
          autoExpand := (QVariantMap.value doc.toMap "autoExpand").toBool
          lineNumbers := (QVariantMap.value doc.toMap "lineNumbers").toBool
          debugMode := (QVariantMap.value doc.toMap "debugMode").toBool
          shellTimeoutSec := (QVariantMap.value doc.toMap "shellTimeoutSec").toInt env.toLongLong
          connections :=
            s.connections ++
              (QVariantMap.value doc.toMap "connections").toList.map
                (fun vcon =>
                  (env.fromVariant env.newConnectionSettings vcon.toMap).setImported true) }) := by
  unfold importFromFile
  rw [if_neg hp, hf]
  simp only [SettingsManager.addConnection]
  rw [foldl_append_singleton]

theorem importFromFile_of_failure (env : Env) (disk : Disk) (path : String) (s : SettingsManager)
    (h : disk.file path = FileState.unreadable ∨ disk.file path = FileState.content none) :
    (importFromFile env disk path s).map (fun r => r.2) = some s := by
  unfold importFromFile
  by_cases hp : path = CONFIG_FILE_0_8_5 env
  · rw [if_pos hp]
    unfold importConnectionsFrom_0_8_5
    rw [← hp]
    rcases h with h | h <;> rw [h] <;> rfl
  · rw [if_neg hp]
    rcases h with h | h <;> rw [h] <;> rfl

theorem find?_uuid_eq_some (l : List ConnectionSettings) (u : String) (c : ConnectionSettings) :
    l.find? (fun connSettings => connSettings.uuid = u) = some c ↔
      ∃ before after, l = before ++ c :: after ∧ c.uuid = u ∧ ∀ e ∈ before, e.uuid ≠ u := by
  induction l with
  | nil => simp
  | cons a l ih =>
    by_cases ha : a.uuid = u
    · rw [List.find?_cons_of_pos _ (by simpa using ha)]
      constructor
      · intro h
        injection h with h
        subst h
        exact ⟨[], l, rfl, ha, fun e he => absurd he (List.not_mem_nil e)⟩
      · rintro ⟨before, after, hl, hc, hb⟩
        cases before with
        | nil =>
          simp only [List.nil_append, List.cons.injEq] at hl
          rw [hl.1]
        | cons b bs =>
          simp only [List.cons_append, List.cons.injEq] at hl
          exact absurd ha (hl.1 ▸ hb b (by simp))
    · rw [List.find?_cons_of_neg _ (by simpa using ha), ih]
      constructor
      · rintro ⟨before, after, hl, hc, hb⟩
        refine ⟨a :: before, after, by rw [hl]; rfl, hc, ?_⟩
        intro e he
        rcases List.mem_cons.mp he with rfl | he
        · exact ha
        · exact hb e he
      · rintro ⟨before, after, hl, hc, hb⟩
        cases before with
        | nil =>
          simp only [List.nil_append, List.cons.injEq] at hl
          exact absurd hc (hl.1 ▸ ha)
        | cons b bs =>
          simp only [List.cons_append, List.cons.injEq] at hl
          exact ⟨bs, after, hl.2, hc, fun e he => hb e (List.mem_cons_of_mem _ he)⟩

theorem stripBraces_toList (raw : String) :
    (stripBraces raw).toList =
      raw.toList.filter (fun c => decide (c ≠ '\x7b' ∧ c ≠ '\x7d')) := by
  have hp : (fun a : Char => a != '\x7d' && a != '\x7b') =
      (fun c : Char => decide (c ≠ '\x7b' ∧ c ≠ '\x7d')) := by
    funext a
    by_cases h1 : a = '\x7b' <;> by_cases h2 : a = '\x7d' <;> simp [h1, h2]
  simp [stripBraces, removeChar, List.filter_filter, hp]

theorem stripBraces_no_brace (raw : String) (c : Char) (h : c ∈ (stripBraces raw).toList) :
    c ≠ '\x7b' ∧ c ≠ '\x7d' := by
  rw [stripBraces_toList] at h
  simpa using (List.mem_filter.mp h).2

theorem extractAnonymousID_eq (env : Env) (disk : Disk) (path : String) :
    ∃ raw, extractAnonymousID env disk path = stripBraces raw ∧
      (raw = "" ∨
        ∃ doc, disk.file path = FileState.content (some doc) ∧
          raw = documentAnonymousID env doc.toMap) := by
  unfold extractAnonymousID
  split
  · exact ⟨"", stripBraces_empty.symm, Or.inl rfl⟩
  · exact ⟨"", stripBraces_empty.symm, Or.inl rfl⟩
  · exact ⟨"", stripBraces_empty.symm, Or.inl rfl⟩
  · next doc hdoc =>
    refine ⟨documentAnonymousID env doc.toMap, ?_, Or.inr ⟨doc, hdoc, rfl⟩⟩
    unfold documentAnonymousID
    simp only []
    split
    · cases env.uuidText (QVariantMap.value doc.toMap "anonymousID").toString <;> rfl
    · rfl

/-! ## Claims C21 to C30 -/

/-- C21: the constructor takes the save-then-reload path exactly when the first `load`
fails, that is when the canonical file is absent, cannot be opened or does not parse.
When the file parses, the store is the loaded one and the disk is untouched.  When the
file is absent or does not parse and can be written, the file is overwritten by the
document of the store as initialised and the second `load` reads that document.  When
the file cannot be opened for reading and can be written, the write changes nothing
that can be read, the second `load` fails as the first did and every member stays as
initialised.  When the file cannot be written, the disk and every member stay as they
were. -/
theorem construct_bootstrap_on_every_failed_load (env : Env) (disk : Disk)
    (s0 : SettingsManager) :
    (∀ doc, disk.file (ConfigFilePath env) = FileState.content (some doc) →
      construct env disk s0 = (loadFromMap env disk doc.toMap s0).map (fun s1 => (s1, disk))) ∧
    ((disk.file (ConfigFilePath env) = FileState.absent ∨
        disk.file (ConfigFilePath env) = FileState.content none) →
      disk.writable (ConfigFilePath env) = true →
      construct env disk s0 =
          (loadFromMap env (disk.write (ConfigFilePath env) (QVariant.map (convertToMap env s0)))
            (convertToMap env s0) s0).map
            (fun s1 =>
              (s1, disk.write (ConfigFilePath env) (QVariant.map (convertToMap env s0)))) ∧
        (save env disk s0).2.file (ConfigFilePath env) =
          FileState.content (some (QVariant.map (convertToMap env s0)))) ∧
    (disk.file (ConfigFilePath env) = FileState.unreadable →
      disk.writable (ConfigFilePath env) = true →
      construct env disk s0 =
          some (s0, disk.write (ConfigFilePath env) (QVariant.map (convertToMap env s0))) ∧
        ∀ p, (disk.write (ConfigFilePath env) (QVariant.map (convertToMap env s0))).file p =
          disk.file p) ∧
    ((disk.file (ConfigFilePath env) = FileState.absent ∨
        disk.file (ConfigFilePath env) = FileState.unreadable ∨
        disk.file (ConfigFilePath env) = FileState.content none) →
      disk.writable (ConfigFilePath env) = false → construct env disk s0 = some (s0, disk)) := by
  refine ⟨fun doc h => construct_of_content env disk s0 doc h, fun h hw => ⟨?_, ?_⟩,
    fun h hw => ⟨?_, ?_⟩, ?_⟩
  · exact construct_of_failure_writable env disk s0 h hw
  · rw [save_of_writable env disk s0 hw]
    refine Disk.file_write_same disk _ _ ?_
    rcases h with h | h <;> rw [h] <;> exact fun hc => FileState.noConfusion hc
  · exact construct_of_unreadable_writable env disk s0 h hw
  · exact Disk.file_write_unreadable disk _ _ h
  · exact construct_of_failure_not_writable env disk s0

/-- C21, witness: a canonical file that does not parse, on a disk that can be written,
is overwritten and the second load reads the document of the initial store; a canonical
file that cannot be opened for reading leaves the store as initialised. -/
theorem construct_bootstrap_on_every_failed_load_witness :
    corruptCanonicalDisk.file (ConfigFilePath referenceEnv) = FileState.content none ∧
    corruptCanonicalDisk.writable (ConfigFilePath referenceEnv) = true ∧
    construct referenceEnv corruptCanonicalDisk freshStore =
      (loadFromMap referenceEnv
        (corruptCanonicalDisk.write (ConfigFilePath referenceEnv)
          (QVariant.map (convertToMap referenceEnv freshStore)))
        (convertToMap referenceEnv freshStore) freshStore).map
        (fun s1 =>
          (s1, corruptCanonicalDisk.write (ConfigFilePath referenceEnv)
            (QVariant.map (convertToMap referenceEnv freshStore)))) ∧
    unreadableCanonicalDisk.file (ConfigFilePath referenceEnv) = FileState.unreadable ∧
    construct referenceEnv unreadableCanonicalDisk freshStore =
      some (freshStore, unreadableCanonicalDisk.write (ConfigFilePath referenceEnv)
        (QVariant.map (convertToMap referenceEnv freshStore))) :=
  ⟨rfl, rfl,
    ((construct_bootstrap_on_every_failed_load referenceEnv corruptCanonicalDisk freshStore).2.1
      (Or.inr rfl) rfl).1,
    rfl,
    ((construct_bootstrap_on_every_failed_load referenceEnv unreadableCanonicalDisk
      freshStore).2.2.1 rfl rfl).1⟩

/-- C21, counterexample: the canonical file exists and does not parse; construction takes
the save-then-reload path, the file is overwritten by the document of the initial store,
and the identifier and the style of the store are no longer the initial empty texts.
And when the canonical file parses to a sequence instead of a mapping, the load succeeds
and the view mode is `Custom`, not the `Tree` of the member initialiser. -/
theorem corrupt_canonical_file_is_overwritten :
    corruptCanonicalDisk.file canonicalPath = FileState.content none ∧
    (construct referenceEnv corruptCanonicalDisk freshStore).map
        (fun r => r.2.file canonicalPath) =
      some (FileState.content (some (QVariant.map (convertToMap referenceEnv freshStore)))) ∧
    (freshStore.anonymousID, freshStore.currentStyle, freshStore.viewMode) = ("", "", 1) ∧
    (construct referenceEnv corruptCanonicalDisk freshStore).map
        (fun r => (r.1.anonymousID, r.1.currentStyle)) =
      some ("3f2504e0-4f89-11d3-9a0c-0305e82c3301", "Native") ∧
    (construct referenceEnv misshapenCanonicalDisk freshStore).map (fun r => r.1.viewMode) =
      some 3 :=
  ⟨rfl, rfl, by decide, by decide, by decide⟩

/-- C22: the `imported` flag is set in memory only.  `importFromOldVersion` never turns a
set flag off (on a store with the flag set it changes nothing), and a call that leaves
the flag off has changed nothing; it writes no file: after a construction whose
canonical file parsed the disk is the disk as it was, and in every case the only
document a construction can have written is the one of the store as initialised, taken
before any load.  The flag reaches the canonical file with a later `save`, which writes
the document of the store, with the flag as the store holds it (a later read reports
that document unless the file cannot be opened for reading). -/
theorem imported_flag_set_in_memory_only (env : Env) (disk : Disk) (s0 : SettingsManager) :
    (∀ s s1, importFromOldVersion env disk s = some s1 →
      (s.imported = true → s1 = s ∧ s1.imported = true) ∧ (s1.imported = false → s1 = s)) ∧
    (∀ s1 d1, construct env disk s0 = some (s1, d1) →
      (∀ doc, disk.file (ConfigFilePath env) = FileState.content (some doc) → d1 = disk) ∧
      (d1 = disk ∨ d1 = disk.write (ConfigFilePath env) (QVariant.map (convertToMap env s0)))) ∧
    (∀ s, disk.writable (ConfigFilePath env) = true →
      save env disk s =
          (true, disk.write (ConfigFilePath env) (QVariant.map (convertToMap env s))) ∧
        (disk.file (ConfigFilePath env) ≠ FileState.unreadable →
          (save env disk s).2.file (ConfigFilePath env) =
            FileState.content (some (QVariant.map (convertToMap env s)))) ∧
        QVariantMap.value (convertToMap env s) "imported" = QVariant.bool s.imported) := by
  refine ⟨fun s s1 h => ?_, fun s1 d1 h => construct_disk env disk s0 s1 d1 h,
    fun s hw => ⟨save_of_writable env disk s hw, fun hr => ?_, ?_⟩⟩
  · obtain ⟨h1, h2⟩ := importFromOldVersion_flag env disk s s1 h
    exact ⟨fun hi => ⟨h1 hi, by rw [h1 hi]; exact hi⟩, h2⟩
  · rw [save_of_writable env disk s hw]
    exact Disk.file_write_same disk _ _ hr
  · simp [QVariantMap.value, find_convertToMap_imported]

/-- C22, witness: a canonical document that records `imported` as false and a 1.4.3 file;
after construction the flag is set in the store and the disk is the disk as it was. -/
theorem imported_flag_set_in_memory_only_witness :
    ∃ s1, construct referenceEnv unmigratedDisk freshStore = some (s1, unmigratedDisk) ∧
      s1.imported = true := by
  have hv : (construct referenceEnv unmigratedDisk freshStore).map (fun r => r.1.imported) =
      some true := by decide
  cases hc : construct referenceEnv unmigratedDisk freshStore with
  | none => rw [hc] at hv; simp at hv
  | some r =>
    obtain ⟨s1, d1⟩ := r
    have hd : d1 = unmigratedDisk :=
      ((imported_flag_set_in_memory_only referenceEnv unmigratedDisk freshStore).2.1 s1 d1 hc).1
        notImportedDocument rfl
    rw [hc] at hv
    subst hd
    exact ⟨s1, rfl, by simpa using hv⟩

/-- C22, counterexample: the canonical document records `imported` as false and a 1.4.3
file exists; construction imports the legacy profile and sets the flag in the store,
and the canonical file is still the document that records the flag as false. -/
theorem imported_flag_not_persisted_by_migration :
    unmigratedDisk.file canonicalPath = FileState.content (some notImportedDocument) ∧
    (QVariantMap.value notImportedDocument.toMap "imported").toBool = false ∧
    (construct referenceEnv unmigratedDisk freshStore).map
        (fun r => (r.1.imported, r.1.connections.length)) = some (true, 1) ∧
    (construct referenceEnv unmigratedDisk freshStore).map (fun r => r.2.file canonicalPath) =
      some (FileState.content (some notImportedDocument)) :=
  ⟨rfl, rfl, by decide, rfl⟩

/-- C23: for a location other than the 0.8.5 one whose file parses, `importFromFile`
returns true; `autoExpand`, `lineNumbers`, `debugMode` and `shellTimeoutSec` are the
values read from the legacy document, the profile list is the list before followed by
one decoded profile per element of the document's `connections` sequence, in order and
without any test against the list, each flagged imported; the count grows by the length
of the sequence, the profiles before keep their positions, and no other member changes. -/
theorem importFromFile_newer_format (env : Env) (disk : Disk) (path : String)
    (s : SettingsManager) (doc : QVariant) (hp : path ≠ CONFIG_FILE_0_8_5 env)
    (hf : disk.file path = FileState.content (some doc)) :
    ∃ s1, importFromFile env disk path s = some (true, s1) ∧
      s1.autoExpand = (QVariantMap.value doc.toMap "autoExpand").toBool ∧
      s1.lineNumbers = (QVariantMap.value doc.toMap "lineNumbers").toBool ∧
      s1.debugMode = (QVariantMap.value doc.toMap "debugMode").toBool ∧
      s1.shellTimeoutSec = (QVariantMap.value doc.toMap "shellTimeoutSec").toInt env.toLongLong ∧
      s1.connections =
        s.connections ++
          (QVariantMap.value doc.toMap "connections").toList.map
            (fun vcon => { env.fromVariant env.newConnectionSettings vcon.toMap with
                           imported := true }) ∧
      s1.connections.length =
        s.connections.length + (QVariantMap.value doc.toMap "connections").toList.length ∧
      (∀ i (h : i < s.connections.length), s1.connections[i]? = some (s.connections.get ⟨i, h⟩)) ∧
      (∀ c ∈ s1.connections.drop s.connections.length, c.imported = true) ∧
      s1 = { s with
        autoExpand := s1.autoExpand, lineNumbers := s1.lineNumbers, debugMode := s1.debugMode,
        shellTimeoutSec := s1.shellTimeoutSec, connections := s1.connections } := by
  refine ⟨_, importFromFile_of_content env disk path s doc hp hf, rfl, rfl, rfl, rfl, rfl, ?_, ?_,
    ?_, rfl⟩
  · simp
  · intro i h
    simp [List.getElem?_append_left h]
  · intro c hc
    simp only [List.drop_left] at hc
    obtain ⟨v, _, hv⟩ := List.mem_map.mp hc
    rw [← hv]
    rfl

/-- C23, witness: the scenario document at the 1.4.3 location, imported into a store that
holds one profile. -/
theorem importFromFile_newer_format_witness :
    ∃ s1, importFromFile referenceEnv legacyDisk legacyPath_1_4_3 sampleStoreOneProfile =
        some (true, s1) ∧
      s1.connections.length = 2 ∧ s1.connections[0]? = some sampleProfile ∧
      s1.autoExpand = false ∧ s1.shellTimeoutSec = 0 := by
  obtain ⟨s1, h, ha, _, _, ht, _, hlen, hpre, _, _⟩ :=
    importFromFile_newer_format referenceEnv legacyDisk legacyPath_1_4_3 sampleStoreOneProfile
      scenarioFile (by decide) rfl
  exact ⟨s1, h, hlen, hpre 0 (by decide), ha, ht⟩

/-- C24: in the entry loop of `importConnectionsFrom_0_8_5`, for a legacy profile with a
primary credential and a live list whose profiles all have one, the similarity loop
returns, and the legacy profile is skipped exactly when some existing profile agrees
with it on server port, host and default database, on the database name, user name,
password and enabled flag of the primary credential, and on the tunnel fields enabled,
port, host, private key file, user password and user name; otherwise it is appended at
the end of the list. -/
theorem legacy_0_8_5_profile_skipped_iff_similar (env : Env) (vconn : QVariant)
    (rest : QVariantList) (conns : List ConnectionSettings)
    (hc : (connectionFrom_0_8_5 env vconn.toMap).primaryCredential ≠ none)
    (he : ∀ e ∈ conns, e.primaryCredential ≠ none) :
    (∃ b, matchedIn_0_8_5 (connectionFrom_0_8_5 env vconn.toMap) conns = some b) ∧
    ((∃ e ∈ conns, Similar_0_8_5 (connectionFrom_0_8_5 env vconn.toMap) e) →
      importEntries_0_8_5 env (vconn :: rest) conns = importEntries_0_8_5 env rest conns) ∧
    ((¬ ∃ e ∈ conns, Similar_0_8_5 (connectionFrom_0_8_5 env vconn.toMap) e) →
      importEntries_0_8_5 env (vconn :: rest) conns =
        importEntries_0_8_5 env rest (conns ++ [connectionFrom_0_8_5 env vconn.toMap])) := by
  obtain ⟨b, hb⟩ := matchedIn_0_8_5_returns _ conns hc he
  have hiff := matchedIn_0_8_5_iff _ conns b hb
  refine ⟨⟨b, hb⟩, fun hs => ?_, fun hs => ?_⟩
  · have hbt : b = true := hiff.mpr hs
    subst hbt
    rw [importEntries_0_8_5_cons, hb]
  · have hbf : b = false := by
      cases b with
      | false => rfl
      | true => exact absurd (hiff.mp rfl) hs
    subst hbf
    rw [importEntries_0_8_5_cons, hb]
    rfl

/-- C24, witness: the entry `entry_0_8_5` against a list that holds `tunnelProfile`, which
agrees with it on every compared field: the entry is skipped. -/
theorem legacy_0_8_5_profile_skipped_iff_similar_witness :
    importEntries_0_8_5 referenceEnv [entry_0_8_5] [tunnelProfile] = some [tunnelProfile] :=
  (legacy_0_8_5_profile_skipped_iff_similar referenceEnv entry_0_8_5 [] [tunnelProfile]
    (by decide) (by decide)).2.1
    ⟨tunnelProfile, by simp,
      ⟨rfl, rfl, rfl, ⟨_, _, rfl, rfl, rfl, rfl, rfl, rfl⟩, rfl, rfl, rfl, rfl, rfl, rfl⟩⟩

/-- C24, counterexample: the profile of `entry_0_8_5` differs from the only existing profile
in the tunnel passphrase, public key file and authentication method, and it is skipped. -/
theorem legacy_0_8_5_profile_skipped_with_other_passphrase :
    importEntries_0_8_5 referenceEnv [entry_0_8_5] [tunnelProfile] = some [tunnelProfile] ∧
    ∀ e ∈ [tunnelProfile],
      (connectionFrom_0_8_5 referenceEnv entry_0_8_5.toMap).sshSettings.passphrase ≠
          e.sshSettings.passphrase ∧
        (connectionFrom_0_8_5 referenceEnv entry_0_8_5.toMap).sshSettings.publicKeyFile ≠
          e.sshSettings.publicKeyFile ∧
        (connectionFrom_0_8_5 referenceEnv entry_0_8_5.toMap).sshSettings.authMethod ≠
          e.sshSettings.authMethod := by
  decide

/-- C25: the similarity loop of `importConnectionsFrom_0_8_5` reads the primary credential
of both profiles without a null test.  A 0.8.5 file with two entries for the same
server and no `credentials` key, imported into an empty list, has no outcome (the
second entry meets the first, neither has a credential); so has the construction of
the store on a disk with that file only; and so has the import of an entry with a
credential into a list whose profile for the same server has none. -/
theorem import_0_8_5_reads_absent_credential :
    importConnectionsFrom_0_8_5 referenceEnv plainEntriesDisk [] = none ∧
    construct referenceEnv plainEntriesDisk freshStore = none ∧
    (connectionFrom_0_8_5 referenceEnv plainEntry_0_8_5.toMap).primaryCredential = none ∧
    importConnectionsFrom_0_8_5 referenceEnv entryDisk_0_8_5 [sampleProfile] = none ∧
    sampleProfile.primaryCredential = none ∧
    ((connectionFrom_0_8_5 referenceEnv entry_0_8_5.toMap).serverHost,
      (connectionFrom_0_8_5 referenceEnv entry_0_8_5.toMap).serverPort,
      (connectionFrom_0_8_5 referenceEnv entry_0_8_5.toMap).defaultDatabase) =
      (sampleProfile.serverHost, sampleProfile.serverPort, sampleProfile.defaultDatabase) :=
  ⟨by decide, rfl, by decide, by decide, by decide, by decide⟩

/-- C26: with `imported` false, when the first legacy location that exists cannot be
opened or does not parse, `importFromOldVersion` returns the store with `imported` set
and nothing else changed (no profile appended, no preference changed); the hypotheses
concern that file and the absence of the locations before it only, so the outcome is
the same whatever the later locations hold; and every later call, on any disk, returns
the store as it is. -/
theorem failed_legacy_step_only_sets_imported (env : Env) (disk : Disk) (s : SettingsManager)
    (before after : List String) (f : String) (hi : s.imported = false)
    (hl : configFilesOfOldVersions env = before ++ f :: after)
    (hb : ∀ g ∈ before, disk.fileExists g = false)
    (hf : disk.file f = FileState.unreadable ∨ disk.file f = FileState.content none) :
    importFromOldVersion env disk s = some { s with imported := true } ∧
    (∀ disk1, disk1.file f = disk.file f → (∀ g ∈ before, disk1.fileExists g = false) →
      importFromOldVersion env disk1 s = some { s with imported := true }) ∧
    ∀ disk2, importFromOldVersion env disk2 { s with imported := true } =
      some { s with imported := true } := by
  have key : ∀ d : Disk, d.file f = disk.file f → (∀ g ∈ before, d.fileExists g = false) →
      importFromOldVersion env d s = some { s with imported := true } := by
    intro d hd hdb
    have hfd : d.file f = FileState.unreadable ∨ d.file f = FileState.content none := by
      rw [hd]; exact hf
    have hex : d.fileExists f = true := by
      unfold Disk.fileExists
      rcases hfd with h | h <;> rw [h]
    have hfind := find?_of_first (configFilesOfOldVersions env) (fun g => d.fileExists g)
      before after f hl hdb hex
    rw [importFromOldVersion_eq_of_not_imported env d s hi, hfind]
    simp only []
    have hm := importFromFile_of_failure env d f s hfd
    cases hx : importFromFile env d f s with
    | none => rw [hx] at hm; simp at hm
    | some r =>
      rw [hx] at hm
      simp only [Option.map_some', Option.some.injEq] at hm
      rw [Option.map_some', hm]
      rfl
  exact ⟨key disk rfl hb, key, fun disk2 => importFromOldVersion_of_imported env disk2 _ rfl⟩

/-- C26, witness: the 1.4.3 file exists and cannot be opened, a 0.9 file with a document
exists as well; the store comes back with `imported` set and no profile. -/
theorem failed_legacy_step_only_sets_imported_witness :
    importFromOldVersion referenceEnv unreadableLegacyDisk sampleStore =
      some { sampleStore with imported := true } ∧
    unreadableLegacyDisk.fileExists legacyPath_0_9 = true :=
  ⟨(failed_legacy_step_only_sets_imported referenceEnv unreadableLegacyDisk sampleStore []
      (configFilesOfOldVersions referenceEnv).tail legacyPath_1_4_3 rfl (by decide)
      (fun g hg => absurd hg (List.not_mem_nil g)) (Or.inl rfl)).1, by decide⟩

/-- C27: `getConnectionSettingsByUuid` returns a profile exactly when that profile stands
in the live list with the given uuid and no profile before it has that uuid (the first
match in list order); it returns the null pointer exactly when no profile of the list
has the uuid; the call yields a result only (the list is an input, nothing is written);
and the `std::string` overload returns what the `QString` overload returns. -/
theorem getConnectionSettingsByUuid_first_match (s : SettingsManager) (u : String) :
    (∀ c, s.getConnectionSettingsByUuid u = some c ↔
      ∃ before after, s.connections = before ++ c :: after ∧ c.uuid = u ∧
        ∀ e ∈ before, e.uuid ≠ u) ∧
    (s.getConnectionSettingsByUuid u = none ↔ ∀ e ∈ s.connections, e.uuid ≠ u) ∧
    s.getConnectionSettingsByUuidStd u = s.getConnectionSettingsByUuid u := by
  refine ⟨fun c => find?_uuid_eq_some s.connections u c, ?_, rfl⟩
  unfold SettingsManager.getConnectionSettingsByUuid
  rw [List.find?_eq_none]
  simp

/-- C27, witness: a list of two profiles with different identities; the second is found by
its uuid, and a uuid that no profile has gives the null pointer. -/
theorem getConnectionSettingsByUuid_first_match_witness :
    ({ sampleStore with connections := [sampleProfile, { tunnelProfile with uuid := "u2" }]
      }).getConnectionSettingsByUuid "u2" = some { tunnelProfile with uuid := "u2" } ∧
    ({ sampleStore with connections := [sampleProfile, { tunnelProfile with uuid := "u2" }]
      }).getConnectionSettingsByUuid "u3" = none :=
  ⟨((getConnectionSettingsByUuid_first_match _ "u2").1 _).mpr
      ⟨[sampleProfile], [], rfl, rfl, by decide⟩,
    (getConnectionSettingsByUuid_first_match _ "u3").2.1.mpr (by decide)⟩

/-- C28: for every store state the document built by `convertToMap` has `version` equal to
"2.0", and `save` on a writable path writes exactly that document to the canonical
file, which a later read reports unless the file cannot be opened for reading; the
`version` member of a store that comes from a load is the text of the document's
`version` (empty when the key is missing), and it is not what is written. -/
theorem save_writes_schema_version (env : Env) (disk : Disk) (s : SettingsManager) :
    QVariantMap.value (convertToMap env s) "version" = QVariant.str "2.0" ∧
    (disk.writable (ConfigFilePath env) = true →
      save env disk s =
          (true, disk.write (ConfigFilePath env) (QVariant.map (convertToMap env s))) ∧
        (disk.file (ConfigFilePath env) ≠ FileState.unreadable →
          (save env disk s).2.file (ConfigFilePath env) =
            FileState.content (some (QVariant.map (convertToMap env s))))) ∧
    (∀ disk0 map s0, loadFromMap env disk0 map s0 = some s →
      s.version = (QVariantMap.value map "version").toString) := by
  refine ⟨?_, fun hw => ⟨save_of_writable env disk s hw, fun hr => ?_⟩,
    fun disk0 map s0 h => ?_⟩
  · simp [QVariantMap.value, find_convertToMap_version, SchemaVersion]
  · rw [save_of_writable env disk s hw]
    exact Disk.file_write_same disk _ _ hr
  · obtain ⟨a, l, d, t, c, i, hs⟩ := loadFromMap_frame env disk0 map s0 s h
    rw [hs]
    rfl

/-- C28, witness: a document with version "1.0" is loaded; the store holds "1.0" and the
document it saves carries "2.0". -/
theorem save_writes_schema_version_witness :
    ∃ s, loadFromMap referenceEnv emptyDisk oldVersionDocument sampleStore = some s ∧
      s.version = "1.0" ∧
      QVariantMap.value (convertToMap referenceEnv s) "version" = QVariant.str "2.0" ∧
      (save referenceEnv emptyDisk s).2.file (ConfigFilePath referenceEnv) =
        FileState.content (some (QVariant.map (convertToMap referenceEnv s))) := by
  obtain ⟨s, hs⟩ := loadFromMap_returns referenceEnv emptyDisk oldVersionDocument sampleStore
    (Or.inl rfl)
  obtain ⟨h1, h2, h3⟩ := save_writes_schema_version referenceEnv emptyDisk s
  exact ⟨s, hs, h3 emptyDisk oldVersionDocument sampleStore hs, h1,
    (h2 rfl).2 (by intro hc; cases hc)⟩

/-- C29: the profile built from a 0.8.5 entry keeps the tunnel settings a new profile has
when the entry has no `sshAuthMethod` key.  With the key, the tunnel fields are read
from the entry, the tunnel is enabled exactly when the integer value of the key is 1 or
2, the authentication method is "publickey" exactly when the value is 2 and "password"
for every other value.  The credentials of the profile are those of a new profile
followed by one credential per element of the entry's `credentials` list, each with the
mechanism "MONGODB-CR". -/
theorem connectionFrom_0_8_5_ssh_and_mechanism (env : Env) (vconn : QVariantMap) :
    (QVariantMap.contains vconn "sshAuthMethod" = false →
      (connectionFrom_0_8_5 env vconn).sshSettings = env.newConnectionSettings.sshSettings) ∧
    (QVariantMap.contains vconn "sshAuthMethod" = true →
      ((connectionFrom_0_8_5 env vconn).sshSettings.enabled = true ↔
        documentInt env vconn "sshAuthMethod" = 1 ∨ documentInt env vconn "sshAuthMethod" = 2) ∧
      ((connectionFrom_0_8_5 env vconn).sshSettings.authMethod = "publickey" ↔
        documentInt env vconn "sshAuthMethod" = 2) ∧
      (documentInt env vconn "sshAuthMethod" ≠ 2 →
        (connectionFrom_0_8_5 env vconn).sshSettings.authMethod = "password") ∧
      (connectionFrom_0_8_5 env vconn).sshSettings.host =
        (QVariantMap.value vconn "sshHost").toString ∧
      (connectionFrom_0_8_5 env vconn).sshSettings.userName =
        (QVariantMap.value vconn "sshUserName").toString ∧
      (connectionFrom_0_8_5 env vconn).sshSettings.port = documentInt env vconn "sshPort" ∧
      (connectionFrom_0_8_5 env vconn).sshSettings.userPassword =
        (QVariantMap.value vconn "sshUserPassword").toString ∧
      (connectionFrom_0_8_5 env vconn).sshSettings.publicKeyFile =
        (QVariantMap.value vconn "sshPublicKey").toString ∧
      (connectionFrom_0_8_5 env vconn).sshSettings.privateKeyFile =
        (QVariantMap.value vconn "sshPrivateKey").toString ∧
      (connectionFrom_0_8_5 env vconn).sshSettings.passphrase =
        (QVariantMap.value vconn "sshPassphrase").toString) ∧
    (∃ added, (connectionFrom_0_8_5 env vconn).credentials =
        env.newConnectionSettings.credentials ++ added ∧
      added.length = (QVariantMap.value vconn "credentials").toList.length ∧
      ∀ cred ∈ added, cred.mechanism = "MONGODB-CR") := by
  refine ⟨fun h => ?_, fun h => ?_, ?_⟩
  · rw [connectionFrom_0_8_5_sshSettings, h]
    rfl
  · rw [connectionFrom_0_8_5_sshSettings, h, if_pos rfl]
    refine ⟨by simp, ?_, ?_, rfl, rfl, rfl, rfl, rfl, rfl, rfl⟩
    · by_cases h2 : documentInt env vconn "sshAuthMethod" = 2
      · simp [h2]
      · simp only [h2, if_false, iff_false]
        decide
    · intro h2
      simp [h2]
  · refine ⟨_, connectionFrom_0_8_5_credentials env vconn, by simp, ?_⟩
    intro cred hc
    obtain ⟨v, _, hv⟩ := List.mem_map.mp hc
    rw [← hv]
    rfl

/-- C29, witness: `entry_0_8_5` has `sshAuthMethod` 2 and one credential, `plainEntry_0_8_5`
has no `sshAuthMethod` key. -/
theorem connectionFrom_0_8_5_ssh_and_mechanism_witness :
    (connectionFrom_0_8_5 referenceEnv plainEntry_0_8_5.toMap).sshSettings =
      referenceConnection.sshSettings ∧
    (connectionFrom_0_8_5 referenceEnv entry_0_8_5.toMap).sshSettings.enabled = true ∧
    (connectionFrom_0_8_5 referenceEnv entry_0_8_5.toMap).sshSettings.authMethod = "publickey" ∧
    (connectionFrom_0_8_5 referenceEnv entry_0_8_5.toMap).credentials.map
      (fun cred => cred.mechanism) = ["MONGODB-CR"] :=
  ⟨(connectionFrom_0_8_5_ssh_and_mechanism referenceEnv plainEntry_0_8_5.toMap).1 rfl,
    ((connectionFrom_0_8_5_ssh_and_mechanism referenceEnv entry_0_8_5.toMap).2.1 rfl).1.mpr
      (Or.inr rfl),
    ((connectionFrom_0_8_5_ssh_and_mechanism referenceEnv entry_0_8_5.toMap).2.1 rfl).2.1.mpr rfl,
    by decide⟩

/-- C30: the texts returned by `getOrCreateAnonymousID` and by `extractAnonymousID` hold
neither brace.  The first is the brace-free form of the text of the first source that
gives one (document, archives, legacy files, scanned files, a fresh identifier), the
second the brace-free form of the identifier text of the file's document (of the empty
text when there is none); the brace-free form of a text is the text with every brace
left out, the other characters as they were and in their order. -/
theorem anonymousID_holds_no_brace (env : Env) (disk : Disk) (map : QVariantMap)
    (path : String) :
    (∀ c ∈ (getOrCreateAnonymousID env disk map).toList, c ≠ '\x7b' ∧ c ≠ '\x7d') ∧
    (∀ c ∈ (extractAnonymousID env disk path).toList, c ≠ '\x7b' ∧ c ≠ '\x7d') ∧
    getOrCreateAnonymousID env disk map =
      stripBraces (firstNonEmpty
        [ documentAnonymousID env map,
          firstNonEmpty ((S_3T_ZipFile_And_ConfigFile_List env).map (zipAnonymousID env disk)),
          firstNonEmpty ((identifierLegacyFiles env).map (extractAnonymousID env disk)),
          firstNonEmpty ((scannedFiles env disk).map (extractAnonymousID env disk)),
          env.createUuid ]) ∧
    (∃ raw, extractAnonymousID env disk path = stripBraces raw ∧
      (raw = "" ∨
        ∃ doc, disk.file path = FileState.content (some doc) ∧
          raw = documentAnonymousID env doc.toMap)) ∧
    ∀ raw : String,
      (stripBraces raw).toList = raw.toList.filter (fun c => decide (c ≠ '\x7b' ∧ c ≠ '\x7d')) := by
  refine ⟨fun c hc => ?_, fun c hc => ?_, getOrCreateAnonymousID_eq env disk map,
    extractAnonymousID_eq env disk path, stripBraces_toList⟩
  · rw [getOrCreateAnonymousID_eq] at hc
    exact stripBraces_no_brace _ c hc
  · obtain ⟨raw, hraw, _⟩ := extractAnonymousID_eq env disk path
    rw [hraw] at hc
    exact stripBraces_no_brace _ c hc

/-- C30, witness: the 1.0.0 file holds an identifier; the reference `QUuid` text of it is
in braces, the resolved identifier is the text without them. -/
theorem anonymousID_holds_no_brace_witness :
    referenceUuidText otherID = some ("\x7b" ++ otherID ++ "\x7d") ∧
    getOrCreateAnonymousID referenceEnv identity_1_0_0_Disk [] = otherID ∧
    extractAnonymousID referenceEnv identity_1_0_0_Disk legacyPath_1_0_0 = otherID ∧
    (∀ c ∈ (getOrCreateAnonymousID referenceEnv identity_1_0_0_Disk []).toList,
      c ≠ '\x7b' ∧ c ≠ '\x7d') :=
  ⟨by decide, by decide, by decide,
    (anonymousID_holds_no_brace referenceEnv identity_1_0_0_Disk [] legacyPath_1_0_0).1⟩

/-! ## Lemmas on the vector of pointers, the importers and the directory scans -/

theorem ConnectionList.removeConnection_of_mem (l : ConnectionList) (c : ConnectionPtr)
    (h : c ∈ l.connections) :
    l.removeConnection c =
      { connections := l.connections.erase c
        object := fun p => if p = c then none else l.object p } := by
  have hlt : l.connections.indexOf c ≠ l.connections.length :=
    Nat.ne_of_lt (List.indexOf_lt_length.mpr h)
  unfold ConnectionList.removeConnection
  simp only [hlt, ne_eq, not_false_eq_true, if_true, List.eraseIdx_indexOf_eq_erase]

theorem ConnectionList.removeConnection_of_not_mem (l : ConnectionList) (c : ConnectionPtr)
    (h : c ∉ l.connections) : l.removeConnection c = l := by
  have heq : l.connections.indexOf c = l.connections.length := List.indexOf_eq_length.mpr h
  unfold ConnectionList.removeConnection
  simp [heq]

theorem DuplicateOf.symm (c e : ConnectionSettings) (h : DuplicateOf c e) : DuplicateOf e c := by
  obtain ⟨h1, h2, h3, h4⟩ := h
  refine ⟨h1.symm, h2.symm, h3.symm, ?_⟩
  rcases h4 with ⟨a, b⟩ | ⟨n, x, hn, hx, hd, hu⟩
  · exact Or.inl ⟨b, a⟩
  · exact Or.inr ⟨x, n, hx, hn, hd.symm, hu.symm⟩

theorem importCandidate_new_not_duplicate (env : Env) (v : QVariant)
    (st : List ConnectionSettings × Nat) :
    ∃ added, importCandidate env v st = (st.1 ++ added, st.2 + added.length) ∧
      added.length ≤ 1 ∧ ∀ c ∈ added, ∀ e ∈ st.1, ¬ DuplicateOf c e := by
  by_cases hne : v.toMap = []
  · exact ⟨[], by simp [importCandidate_of_empty env v st hne], by simp, by simp⟩
  · cases h : isDuplicate (externalConnection env v.toMap) st.1 with
    | true => exact ⟨[], by simp [importCandidate_of_duplicate env v st h], by simp, by simp⟩
    | false =>
      refine ⟨[externalConnection env v.toMap], by
        simp [importCandidate_of_new env v st hne h], by simp, ?_⟩
      intro c hc e he hd
      rw [List.mem_singleton.mp hc] at hd
      have : isDuplicate (externalConnection env v.toMap) st.1 = true :=
        (isDuplicate_iff _ _).mpr ⟨e, he, hd⟩
      rw [h] at this
      exact absurd this (by simp)

theorem importCandidates_new_not_duplicate (env : Env) (l : QVariantList)
    (st : List ConnectionSettings × Nat) :
    ∃ added, importCandidates env l st = (st.1 ++ added, st.2 + added.length) ∧
      NoDuplicatePair added ∧ ∀ c ∈ added, ∀ e ∈ st.1, ¬ DuplicateOf c e := by
  induction l generalizing st with
  | nil => exact ⟨[], by simp [importCandidates], List.Pairwise.nil, by simp⟩
  | cons v l ih =>
    obtain ⟨a1, h1, len1, p1⟩ := importCandidate_new_not_duplicate env v st
    obtain ⟨a2, h2, n2, p2⟩ := ih (importCandidate env v st)
    rw [h1] at h2 p2
    refine ⟨a1 ++ a2, ?_, ?_, ?_⟩
    · rw [importCandidates_cons, h1, h2]
      simp [Nat.add_assoc]
    · unfold NoDuplicatePair
      rw [List.pairwise_append]
      refine ⟨?_, n2, ?_⟩
      · match a1, len1 with
        | [], _ => exact List.Pairwise.nil
        | [x], _ => exact List.pairwise_singleton _ _
      · intro a ha b hb
        have hba : ¬ DuplicateOf b a := p2 b hb a (List.mem_append_right _ ha)
        exact ⟨fun hab => hba (DuplicateOf.symm a b hab), hba⟩
    · intro c hc e he
      rcases List.mem_append.mp hc with hc | hc
      · exact p1 c hc e he
      · exact p2 c hc e (List.mem_append_left _ he)

theorem NoDuplicatePair.nodup (l : List ConnectionSettings) (h : NoDuplicatePair l) :
    l.Nodup := by
  unfold NoDuplicatePair at h
  unfold List.Nodup
  refine List.Pairwise.imp ?_ h
  intro a b hab heq
  exact hab.1 (heq ▸ DuplicateOf.refl a)

theorem QVariant.toBool_of_not_contains (m : QVariantMap) (key : String)
    (h : QVariantMap.contains m key = false) : (QVariantMap.value m key).toBool = false := by
  rw [QVariantMap.value_of_not_contains m key h]
  rfl

theorem firstNonEmpty_of_all_empty (l : List String) (h : ∀ y ∈ l, y = "") :
    firstNonEmpty l = "" := by
  induction l with
  | nil => rfl
  | cons a l ih =>
    rw [firstNonEmpty_cons, h a (by simp), ih (fun y hy => h y (List.mem_cons_of_mem _ hy))]
    simp

theorem extractAnonymousID_of_valid (env : Env) (disk : Disk) (path : String) (doc : QVariant)
    (u : String) (hf : disk.file path = FileState.content (some doc))
    (hc : QVariantMap.contains doc.toMap "anonymousID" = true)
    (hu : env.uuidText (QVariantMap.value doc.toMap "anonymousID").toString = some u) :
    extractAnonymousID env disk path = stripBraces u := by
  unfold extractAnonymousID
  rw [hf]
  simp only [hc, if_true, hu]
  rfl

/-! ## Claims C31 to C34 -/

/-- C31: `removeConnection` on a pointer that stands in the vector erases its first
occurrence (the vector is `before ++ c :: after` with `c` not in `before`, and becomes
`before ++ after`, so every other element keeps its relative place) and deletes the
record, leaving every other record as it is; on a pointer that is not in the vector it
changes nothing; and `addConnection` of a pointer that is not in the vector followed by
`removeConnection` of it gives back the vector as it was.  `addConnection` on the
vector is `addConnection` on the records behind it. -/
theorem removeConnection_erases_first_occurrence (l : ConnectionList) (c : ConnectionPtr) :
    (c ∈ l.connections →
      ∃ before after, l.connections = before ++ c :: after ∧ c ∉ before ∧
        (l.removeConnection c).connections = before ++ after ∧
        (l.removeConnection c).object c = none ∧
        ∀ p, p ≠ c → (l.removeConnection c).object p = l.object p) ∧
    (c ∉ l.connections → l.removeConnection c = l) ∧
    (c ∉ l.connections →
      ((l.addConnection c).removeConnection c).connections = l.connections) ∧
    (∀ r, l.object c = some r →
      (l.addConnection c).records = SettingsManager.addConnection l.records r) := by
  refine ⟨fun h => ?_, fun h => ConnectionList.removeConnection_of_not_mem l c h, fun h => ?_,
    fun r hr => ?_⟩
  · obtain ⟨before, after, hb, hl, he⟩ := List.exists_erase_eq h
    rw [ConnectionList.removeConnection_of_mem l c h]
    refine ⟨before, after, hl, hb, he, by simp, fun p hp => by simp [hp]⟩
  · have hm : c ∈ (l.addConnection c).connections := by
      simp [ConnectionList.addConnection]
    rw [ConnectionList.removeConnection_of_mem _ c hm]
    show (l.connections ++ [c]).erase c = l.connections
    rw [List.erase_append_right _ h]
    simp
  · simp [ConnectionList.records, ConnectionList.addConnection, SettingsManager.addConnection,
      List.filterMap_append, hr]

/-- C31, witness: in the vector 1, 2, 1, 3 the first of the two occurrences of the pointer 1
is erased; the pointer 7 is not in the vector, and adding then removing it gives the
vector back. -/
theorem removeConnection_erases_first_occurrence_witness :
    (sampleConnectionList.removeConnection 1).connections = [2, 1, 3] ∧
    sampleConnectionList.removeConnection 7 = sampleConnectionList ∧
    ((sampleConnectionList.addConnection 7).removeConnection 7).connections = [1, 2, 1, 3] := by
  obtain ⟨h1, h2, h3, _⟩ := removeConnection_erases_first_occurrence sampleConnectionList 7
  exact ⟨by decide, h2 (by decide), h3 (by decide)⟩

/-- C32: `loadConnectionsFromFile` appends profiles of which no two are duplicates of each
other and none is a duplicate of a profile the list held before (under the importer's
criterion, in either order); so when no two profiles of the list at different places are
duplicates of each other before the call, the same holds after it, for every file and
every disk.  The appended profiles are pairwise different records: a candidate that
stands several times in the file is appended at most once. -/
theorem loadConnectionsFromFile_keeps_non_duplication (env : Env) (disk : Disk) (path : String)
    (s : SettingsManager) :
    (∃ added,
      (loadConnectionsFromFile env disk path s).2.1.connections = s.connections ++ added ∧
      NoDuplicatePair added ∧
      (∀ c ∈ added, ∀ e ∈ s.connections, ¬ DuplicateOf c e ∧ ¬ DuplicateOf e c) ∧
      ∀ v : QVariant, added.count (externalConnection env v.toMap) ≤ 1) ∧
    (NoDuplicatePair s.connections →
      NoDuplicatePair (loadConnectionsFromFile env disk path s).2.1.connections) := by
  have key : ∃ added,
      (loadConnectionsFromFile env disk path s).2.1.connections = s.connections ++ added ∧
      NoDuplicatePair added ∧ ∀ c ∈ added, ∀ e ∈ s.connections, ¬ DuplicateOf c e := by
    by_cases hc : ∃ doc, disk.file path = FileState.content (some doc)
    · obtain ⟨doc, hdoc⟩ := hc
      rw [loadConnectionsFromFile_of_content env disk path s doc hdoc]
      by_cases he : (extractCandidates doc.toMap).isEmpty = true
      · simp only [he, if_true]
        exact ⟨[], by simp, List.Pairwise.nil, by simp⟩
      · obtain ⟨added, hadd, hn, hp⟩ :=
          importCandidates_new_not_duplicate env (extractCandidates doc.toMap) (s.connections, 0)
        simp only [he, Bool.false_eq_true, if_false]
        exact ⟨added, by rw [hadd], hn, hp⟩
    · rw [loadConnectionsFromFile_of_no_content env disk path s
        (fun doc hdoc => hc ⟨doc, hdoc⟩)]
      exact ⟨[], by simp, List.Pairwise.nil, by simp⟩
  obtain ⟨added, hadd, hn, hp⟩ := key
  have hboth : ∀ c ∈ added, ∀ e ∈ s.connections, ¬ DuplicateOf c e ∧ ¬ DuplicateOf e c :=
    fun c hc e he => ⟨hp c hc e he, fun h => hp c hc e he (DuplicateOf.symm e c h)⟩
  refine ⟨⟨added, hadd, hn, hboth, fun v => ?_⟩, fun hs => ?_⟩
  · exact List.nodup_iff_count_le_one.mp (NoDuplicatePair.nodup added hn) _
  · rw [hadd]
    unfold NoDuplicatePair
    rw [List.pairwise_append]
    exact ⟨hs, hn, fun e he c hc => ⟨(hboth c hc e he).2, (hboth c hc e he).1⟩⟩

/-- C32, witness: a file that holds the same candidate twice, imported into a store with
one profile of which the candidate is no duplicate: one profile is appended. -/
theorem loadConnectionsFromFile_keeps_non_duplication_witness :
    NoDuplicatePair
      (loadConnectionsFromFile referenceEnv twiceDisk externalPath
        { sampleStore with connections := [tunnelProfile] }).2.1.connections ∧
    (extractCandidates twiceFile.toMap).length = 2 ∧
    (loadConnectionsFromFile referenceEnv twiceDisk externalPath
      { sampleStore with connections := [tunnelProfile] }).2.1.connections.length = 2 :=
  ⟨(loadConnectionsFromFile_keeps_non_duplication referenceEnv twiceDisk externalPath
      { sampleStore with connections := [tunnelProfile] }).2 (List.pairwise_singleton _ _),
    by decide, by decide⟩

/-- C33: for a location other than the 0.8.5 one whose file parses, `importFromFile`
assigns the four preferences whether or not the legacy document has their keys: a
document without `autoExpand`, `lineNumbers` or `debugMode` leaves the member false, one
without `shellTimeoutSec` leaves it 0, whatever the store held before the call; and so
does a `loadFromMap` whose document does not set `imported` when that location is the
first that exists, whatever the document gave the four members. -/
theorem importFromFile_overwrites_absent_preferences (env : Env) (disk : Disk) (path : String)
    (s : SettingsManager) (doc : QVariant) (hp : path ≠ CONFIG_FILE_0_8_5 env)
    (hf : disk.file path = FileState.content (some doc)) :
    (∃ s1, importFromFile env disk path s = some (true, s1) ∧
      (QVariantMap.contains doc.toMap "autoExpand" = false → s1.autoExpand = false) ∧
      (QVariantMap.contains doc.toMap "lineNumbers" = false → s1.lineNumbers = false) ∧
      (QVariantMap.contains doc.toMap "debugMode" = false → s1.debugMode = false) ∧
      (QVariantMap.contains doc.toMap "shellTimeoutSec" = false → s1.shellTimeoutSec = 0)) ∧
    ∀ map : QVariantMap, (loadFromMapSettings env disk map s).imported = false →
      (configFilesOfOldVersions env).find? (fun f => disk.fileExists f) = some path →
      ∃ s2, loadFromMap env disk map s = some s2 ∧
        (QVariantMap.contains doc.toMap "autoExpand" = false → s2.autoExpand = false) ∧
        (QVariantMap.contains doc.toMap "lineNumbers" = false → s2.lineNumbers = false) ∧
        (QVariantMap.contains doc.toMap "debugMode" = false → s2.debugMode = false) ∧
        (QVariantMap.contains doc.toMap "shellTimeoutSec" = false → s2.shellTimeoutSec = 0) := by
  constructor
  · refine ⟨_, importFromFile_of_content env disk path s doc hp hf, fun h => ?_, fun h => ?_,
      fun h => ?_, fun h => ?_⟩
    · exact QVariant.toBool_of_not_contains _ _ h
    · exact QVariant.toBool_of_not_contains _ _ h
    · exact QVariant.toBool_of_not_contains _ _ h
    · exact documentInt_of_not_contains env _ _ h
  · intro map hi hfind
    unfold loadFromMap
    rw [importFromOldVersion_eq_of_not_imported env disk _ hi, hfind]
    simp only []
    rw [importFromFile_of_content env disk path _ doc hp hf]
    refine ⟨_, rfl, fun h => ?_, fun h => ?_, fun h => ?_, fun h => ?_⟩
    · exact QVariant.toBool_of_not_contains _ _ h
    · exact QVariant.toBool_of_not_contains _ _ h
    · exact QVariant.toBool_of_not_contains _ _ h
    · exact documentInt_of_not_contains env _ _ h

/-- C33, witness: the scenario document at the 1.4.3 location has none of the four keys;
the sample store holds `autoExpand` true and `shellTimeoutSec` 15 before the import, as
a load of the empty document gives them, and false and 0 after it. -/
theorem importFromFile_overwrites_absent_preferences_witness :
    (sampleStore.autoExpand, sampleStore.shellTimeoutSec) = (true, 15) ∧
    ((loadFromMapSettings referenceEnv legacyDisk [] sampleStore).autoExpand,
      (loadFromMapSettings referenceEnv legacyDisk [] sampleStore).shellTimeoutSec) = (true, 15) ∧
    (loadFromMap referenceEnv legacyDisk [] sampleStore).map
      (fun s1 => (s1.autoExpand, s1.shellTimeoutSec)) = some (false, 0) ∧
    ∃ s1, importFromFile referenceEnv legacyDisk legacyPath_1_4_3 sampleStore = some (true, s1) ∧
      s1.autoExpand = false ∧ s1.lineNumbers = false ∧ s1.debugMode = false ∧
      s1.shellTimeoutSec = 0 := by
  obtain ⟨⟨s1, h, h1, h2, h3, h4⟩, _⟩ :=
    importFromFile_overwrites_absent_preferences referenceEnv legacyDisk legacyPath_1_4_3
      sampleStore scenarioFile (by decide) rfl
  exact ⟨by decide, by decide, by decide, s1, h, h1 rfl, h2 rfl, h3 rfl, h4 rfl⟩

/-- C34: when the document, the sibling archives and the legacy locations from 1.4.3 down
to 1.0.0 give no identifier, the scan of `~/.3T/robo-3t` yields nothing and the scan of
`~/.3T/robomongo` yields the 1.1.0-Beta file first, a file that holds a valid
identifier, then `getOrCreateAnonymousID` returns the identifier of the 1.1.0-Beta file
(its `QUuid` text without braces), although the loop over the legacy locations, which
passes over that file, ends with the empty text. -/
theorem scan_adopts_identifier_of_1_1_0_Beta (env : Env) (disk : Disk) (map : QVariantMap)
    (doc : QVariant) (u : String) (others : List String)
    (hdoc : documentAnonymousID env map = "")
    (hzip : ∀ zp ∈ S_3T_ZipFile_And_ConfigFile_List env, zipAnonymousID env disk zp = "")
    (hlegacy : ∀ f ∈ identifierLegacyFiles env, extractAnonymousID env disk f = "")
    (hscan1 : disk.scan (env.homePath ++ "/.3T/robo-3t") = [])
    (hscan2 : disk.scan (env.homePath ++ "/.3T/robomongo") = CONFIG_FILE_1_1_0_BETA env :: others)
    (hf : disk.file (CONFIG_FILE_1_1_0_BETA env) = FileState.content (some doc))
    (hc : QVariantMap.contains doc.toMap "anonymousID" = true)
    (hu : env.uuidText (QVariantMap.value doc.toMap "anonymousID").toString = some u)
    (hne : stripBraces u ≠ "") :
    getOrCreateAnonymousID env disk map = stripBraces u ∧
    anonymousIDFromOldConfigs env disk (configFilesOfOldVersions env) "" = "" ∧
    CONFIG_FILE_1_1_0_BETA env ∈ configFilesOfOldVersions env := by
  have hbeta := extractAnonymousID_of_valid env disk _ doc u hf hc hu
  have h2 : firstNonEmpty
      ((S_3T_ZipFile_And_ConfigFile_List env).map (zipAnonymousID env disk)) = "" :=
    firstNonEmpty_of_all_empty _ (by
      intro y hy
      obtain ⟨zp, hz, rfl⟩ := List.mem_map.mp hy
      exact hzip zp hz)
  have h3 : firstNonEmpty ((identifierLegacyFiles env).map (extractAnonymousID env disk)) = "" :=
    firstNonEmpty_of_all_empty _ (by
      intro y hy
      obtain ⟨f, hfm, rfl⟩ := List.mem_map.mp hy
      exact hlegacy f hfm)
  have h4 : firstNonEmpty ((scannedFiles env disk).map (extractAnonymousID env disk)) =
      stripBraces u := by
    unfold scannedFiles
    rw [hscan1, hscan2, List.nil_append, List.map_cons, firstNonEmpty_cons, hbeta, if_pos hne]
  refine ⟨?_, ?_, ?_⟩
  · rw [getOrCreateAnonymousID_eq, hdoc, h2, h3, h4]
    simp only [firstNonEmpty_cons, ne_eq, not_true_eq_false, if_false, hne, not_false_eq_true,
      if_true]
    exact stripBraces_idem u
  · rw [anonymousIDFromOldConfigs_eq, identifierLegacyFiles_eq, h3]
    simp
  · simp [configFilesOfOldVersions]

/-- C34, witness: the only file of the disk is the 1.1.0-Beta file, which holds `thirdID`;
it lies under the second scanned root and its name matches `robo*.json`; the resolved
identifier is `thirdID`. -/
theorem scan_adopts_identifier_of_1_1_0_Beta_witness :
    getOrCreateAnonymousID referenceEnv betaDisk [] = thirdID ∧
    anonymousIDFromOldConfigs referenceEnv betaDisk (configFilesOfOldVersions referenceEnv) ""
      = "" ∧
    CONFIG_FILE_1_1_0_BETA referenceEnv = legacyPath_1_1_0_Beta ∧
    startsWith legacyPath_1_1_0_Beta (referenceEnv.homePath ++ "/.3T/robomongo" ++ "/") = true ∧
    matchesNameFilter (fileName legacyPath_1_1_0_Beta) = true := by
  obtain ⟨h1, h2, _⟩ :=
    scan_adopts_identifier_of_1_1_0_Beta referenceEnv betaDisk [] thirdIdentityFile
      ("\x7b" ++ thirdID ++ "\x7d") [] rfl (by decide) (by decide) rfl rfl rfl rfl (by decide)
      (by decide)
  exact ⟨h1.trans (by decide), h2, by decide, by decide, by decide⟩

end Robomongo
